import Mathlib

/-!
# NSH system commands (`nshlib/nsh_syscmds.c`)

A shallow embedding of the command handlers of `nsh_syscmds.c` and the
properties of verb resolution, option composition and dispatch proved about
them.

Every call that leaves the file (`open`, `ioctl`, `close`, `boardctl`,
`uname`, `nsh_output`, ...) is recorded, in program order, as an `Event`.  What such a call returns is
supplied by an `Env`; each answer may depend on the whole history of calls made so far, so that for instance two
successive `open` calls may hand out the same descriptor for two different
devices.  A run that reaches behaviour the C standard leaves undefined (a NULL
argument handed to `strcmp` or `atoi`, a read past the end of `argv`) stops with
no return value.
-/

namespace Nsh

/-! ## Constants and configuration -/

/-- NuttX status code `OK` (declared in a system header, value 0). -/
def OK : Int := 0

/-- NuttX status code `ERROR` (declared in a system header, value -1). -/
def ERROR : Int := -1

/-- Width of the C type `int` on the modelled targets. -/
def INT_BITS : Nat := 32

/-- Largest value of the C type `int`. -/
def INT_MAX : Int := 2 ^ (INT_BITS - 1) - 1

/-- Compile-time configuration and the constants that `nsh_syscmds.c` takes
from headers outside the file: the `CONFIG_*` switches tested by `#ifdef`, the
board name macros of lines 46-58, and the numeric request codes of
`nuttx/rptun/rptun.h` and `sys/boardctl.h`. -/
structure Config where
  CONFIG_NET : Bool
  CONFIG_RPTUN_PING : Bool
  CONFIG_ARCH_BOARD_CUSTOM : Bool
  CONFIG_ARCH_BOARD_CUSTOM_NAME : Option String
  CONFIG_ARCH_BOARD : Option String
  RPTUNIOC_START : Int
  RPTUNIOC_STOP : Int
  RPTUNIOC_RESET : Int
  RPTUNIOC_PANIC : Int
  RPTUNIOC_DUMP : Int
  RPTUNIOC_PING : Int
  BOARDIOC_RESET : Int
  /-- The value of `sizeof(struct utsname)`, the size of the uname buffer. -/
  sizeof_utsname : Nat
  CONFIG_BOARDCTL_POWEROFF : Bool
  CONFIG_BOARDCTL_RESET : Bool
  CONFIG_PM_NDOMAINS : Int
  CONFIG_NSH_PROC_MOUNTPOINT : String
  BOARDIOC_POWEROFF : Int
  BOARDIOC_BOOT_IMAGE : Int
  BOARDIOC_RESET_CAUSE : Int
  /-- The value of the enumerator `BOARDIOC_RESETCAUSE_CPU_SOFT`. -/
  BOARDIOC_RESETCAUSE_CPU_SOFT : Int
  BOARDIOC_PM_CONTROL : Int
  BOARDIOC_PM_QUERYSTATE : Int
  BOARDIOC_PM_CHECKSTATE : Int
  BOARDIOC_PM_STAY : Int
  BOARDIOC_PM_RELAX : Int
  PM_NORMAL : Int
  PM_IDLE : Int
  PM_STANDBY : Int
  PM_SLEEP : Int
  /-- The data model of the target: `long` has 64 bits when true (LP64) and 32
  bits when false (ILP32). -/
  LP64 : Bool

/-- Width of the C types `long` and `unsigned long` on the target. -/
def LONG_BITS (cfg : Config) : Nat := if cfg.LP64 then 64 else 32

/-- Largest value of the C type `long`. -/
def LONG_MAX (cfg : Config) : Int := 2 ^ (LONG_BITS cfg - 1) - 1

/-- Smallest value of the C type `long`. -/
def LONG_MIN (cfg : Config) : Int := - 2 ^ (LONG_BITS cfg - 1)

/-- Line 85: `g_unknown`. -/
def g_unknown : String := "unknown"

/-- Lines 46-58: the macro `BOARD_NAME`. -/
def BOARD_NAME (cfg : Config) : String :=
  if cfg.CONFIG_ARCH_BOARD_CUSTOM then
    match cfg.CONFIG_ARCH_BOARD_CUSTOM_NAME with
    | none => g_unknown
    | some name => name
  else
    match cfg.CONFIG_ARCH_BOARD with
    | none => g_unknown
    | some name => name

/-- Lines 92-108: `g_resetcause`. -/
def g_resetcause : List String :=
  ["none", "power_on", "rtc_watchdog", "brown_out", "core_soft_reset", "core_deep_sleep",
   "core_main_watchdog", "core_rtc_watchdog", "cpu_main_watchdog", "cpu_soft_reset",
   "cpu_rtc_watchdog", "pin", "lowpower", "unkown"]

/-- Lines 113-122: `g_resetflag` without its terminating NULL entry. -/
def g_resetflag : List String :=
  ["reboot", "assert", "panic", "bootloader", "recovery", "factory"]

/-! ## Calls, traces and the environment -/

/-- The C structure `struct rptun_ping_s` filled by the `ping` verb. -/
structure rptun_ping_s where
  times : Int
  len : Int
  ack : Int
  sleep : Int
deriving DecidableEq, Repr

/-- Third argument of `ioctl` in `cmd_rptun_once`: the variable `val`, which
holds either a number or the address of the local `ping` structure. -/
inductive IoctlArg where
  | val (v : Int)
  | ping (p : rptun_ping_s)
deriving DecidableEq, Repr

/-- The C structure `struct boardioc_pm_ctrl_s`, reduced to the members
`cmd_pmconfig` sets or reads.  `domain` holds the value assigned to it. -/
structure boardioc_pm_ctrl_s where
  action : Int
  domain : Int
  state : Int
deriving DecidableEq, Repr

/-- The C structure `struct boardioc_reset_cause_s`: the cause code and the
auxiliary flag. -/
structure boardioc_reset_cause_s where
  cause : Int
  flag : Nat
deriving DecidableEq, Repr

/-- The C structure `struct boardioc_boot_info_s`, reduced to the members
`cmd_boot` sets: the image path (`none` for NULL) and the header size. -/
structure boardioc_boot_info_s where
  path : Option String
  header_size : Nat
deriving DecidableEq, Repr

/-- Second argument of `boardctl`: a number (the reset and power-off flags), or
the address of a structure, recorded with the contents the structure has when
the call is made. -/
inductive BoardctlArg where
  | val (v : Int)
  | pm_ctrl (ctrl : boardioc_pm_ctrl_s)
  | reset_cause (cause : boardioc_reset_cause_s)
  | boot_info (info : boardioc_boot_info_s)
deriving DecidableEq, Repr

/-- Format strings handed to `nsh_output` and `nsh_error`: the shared message
formats `g_fmt...` of the shell, or a literal. -/
inductive Fmt where
  | g_fmtarginvalid
  | g_fmtargrequired
  | g_fmtcmdfailed
  | g_fmtargrange
  | g_fmttoomanyargs
  | text (s : String)
deriving DecidableEq, Repr

/-- The C structure `struct dirent`, reduced to the two members the visitor
reads: `d_name` and whether `d_type` marks a directory. -/
structure dirent where
  d_name : String
  is_directory : Bool
deriving DecidableEq, Repr

/-- The C structure `struct utsname`. -/
structure utsname where
  sysname : String
  nodename : String
  release : String
  version : String
  machine : String
deriving DecidableEq, Repr

/-- One call leaving `nsh_syscmds.c`.  `lib_stream_puts` carries, besides the
string written, the loop variable `mask` of the iteration of the rendering loop
of `cmd_uname` that made the call. -/
inductive Event where
  | open_ (path : String) (oflags : Int)
  | ioctl (fd : Int) (req : Int) (arg : IoctlArg)
  | close (fd : Int)
  | boardctl (cmd : Int) (arg : BoardctlArg)
  | uname
  | nsh_foreach_direntry (cmd : String) (dirpath : String)
  | nsh_getdirpath (dirpath : String) (d_name : String)
  | nsh_catfile (cmd : String) (path : String)
  | free (path : String)
  | nsh_output (fmt : Fmt) (args : List String)
  | nsh_error (fmt : Fmt) (args : List String)
  | lib_stream_putc (ch : Char)
  | lib_stream_puts (mask : Nat) (str : String)
  | nsh_write (buffer : String)
deriving DecidableEq, Repr

/-- What the world answers to each call.  The first argument of every field is
the trace of all calls made before this one. -/
structure Env where
  /-- Result of `open(path, oflags)`: a descriptor, or a negative value. -/
  open_ : List Event → String → Int → Int
  /-- Result of `ioctl(fd, req, arg)`. -/
  ioctl : List Event → Int → Int → IoctlArg → Int
  /-- Result of `boardctl(cmd, arg)`. -/
  boardctl : List Event → Int → BoardctlArg → Int
  /-- Result of `uname(&info)`: the status and the structure it fills. -/
  uname : List Event → Int × utsname
  /-- Result of `nsh_getdirpath(vtbl, dirpath, d_name)`: the allocated full
  path, or `none` for NULL. -/
  nsh_getdirpath : List Event → String → String → Option String
  /-- The entries that reading the directory `dirpath` yields. -/
  readdir : List Event → String → List dirent
  /-- The contents `boardctl(BOARDIOC_RESET_CAUSE, &cause)` leaves in `cause`. -/
  reset_cause : List Event → boardioc_reset_cause_s
  /-- The value `boardctl(BOARDIOC_PM_CONTROL, &ctrl)` leaves in `ctrl.state`. -/
  pm_state : List Event → boardioc_pm_ctrl_s → Int
  /-- Result of `nsh_catfile(vtbl, cmd, path)`. -/
  nsh_catfile : List Event → String → String → Int
  /-- The C library function `strtoul(str, NULL, 0)` on a string. -/
  strtoul : String → Nat

/-- Outcome of running a piece of the program: the value returned (`none` when
the run reached undefined behaviour) and the calls the piece made, oldest
first. -/
structure Res (α : Type) where
  ret : Option α
  calls : List Event

/-- A piece of the program: from the trace of the calls made before it to its
outcome. -/
def Exec (α : Type) : Type := List Event → Res α

/-- Return a value without making a call. -/
def Exec.pure {α : Type} (a : α) : Exec α := fun _ => ⟨some a, []⟩

/-- Sequencing: the second piece runs after the calls of the first; undefined
behaviour in the first piece ends the run. -/
def Exec.bind {α β : Type} (m : Exec α) (f : α → Exec β) : Exec β := fun h =>
  match (m h).ret with
  | some a => ⟨(f a (h ++ (m h).calls)).ret, (m h).calls ++ (f a (h ++ (m h).calls)).calls⟩
  | none => ⟨none, (m h).calls⟩

instance : Monad Exec where
  pure := Exec.pure
  bind := Exec.bind

/-- Undefined behaviour: the run stops without a return value. -/
def undefined_behaviour {α : Type} : Exec α := fun _ => ⟨none, []⟩

/-- Make a call: record it and return the answer computed from the trace
before the call. -/
def call {α : Type} (e : Event) (answer : List Event → α) : Exec α :=
  fun h => ⟨some (answer h), [e]⟩

/-- The expression `argv[i]` for an argument vector of `argc = argv.length`
strings followed by a NULL pointer: the string, NULL (`none`) at `i = argc`,
and undefined behaviour beyond. -/
def argv_at (argv : List String) (i : Nat) : Exec (Option String) :=
  if i < argv.length then Exec.pure argv[i]?
  else if i = argv.length then Exec.pure none
  else undefined_behaviour

/-- Dereferencing a string pointer, as `strcmp` and `atoi` do with their
arguments: undefined behaviour for NULL. -/
def deref (p : Option String) : Exec String :=
  match p with
  | some s => Exec.pure s
  | none => undefined_behaviour

/-! ## `atoi` -/

/-- The C library predicate `isspace` in the C locale. -/
def isspace (c : Char) : Bool :=
  c = ' ' || (9 ≤ c.toNat && c.toNat ≤ 13)

/-- Value of the longest run of decimal digits at the head of `s`, continuing
the value `acc` read so far. -/
def strtol_digits : List Char → Int → Int
  | [], acc => acc
  | c :: cs, acc =>
    if c.isDigit then strtol_digits cs (acc * 10 + ((c.toNat : Int) - 48)) else acc

/-- The number a decimal conversion reads from a string: optional white space,
an optional sign, then digits; 0 when there is no digit. -/
def strtol10 (s : List Char) : Int :=
  match s.dropWhile isspace with
  | '-' :: cs => - strtol_digits cs 0
  | '+' :: cs => strtol_digits cs 0
  | cs => strtol_digits cs 0

/-- Conversion of a value to the C type `int` of `INT_BITS` bits: a value in
the range of `int` is kept, any other value wraps around. -/
def to_int (v : Int) : Int :=
  (v + 2 ^ (INT_BITS - 1)) % 2 ^ INT_BITS - 2 ^ (INT_BITS - 1)

/-- The C library function `strtol(str, NULL, 10)` on a string: the number
read, or `LONG_MAX`, respectively `LONG_MIN`, when the number is beyond the
range of `long`. -/
def strtol (cfg : Config) (s : List Char) : Int :=
  if LONG_MAX cfg < strtol10 s then LONG_MAX cfg
  else if strtol10 s < LONG_MIN cfg then LONG_MIN cfg
  else strtol10 s

/-- The value `atoi` returns for a string.  NuttX defines `atoi(nptr)` as
`(int)strtol(nptr, NULL, 10)`: the number is first brought into the range of
`long` by `strtol`, then converted to `int`. -/
def atoi_value (cfg : Config) (s : String) : Int := to_int (strtol cfg s.data)

/-- The C library function `atoi`: undefined behaviour for NULL, otherwise the
number read from the string. -/
def atoi (cfg : Config) (p : Option String) : Exec Int := do
  let s ← deref p
  pure (atoi_value cfg s)

/-- Conversion of a value to the C type `unsigned long`: the value modulo
`2 ^ LONG_BITS`. -/
def to_ulong (cfg : Config) (v : Int) : Int := v % 2 ^ LONG_BITS cfg

/-! ## `nsh_output`, `nsh_error` -/

/-- The call `nsh_output(vtbl, fmt, args...)`; of the arguments the strings are
recorded. -/
def nsh_output (fmt : Fmt) (args : List String) : Exec Unit :=
  call (Event.nsh_output fmt args) (fun _ => ())

/-- The call `nsh_error(vtbl, fmt, args...)`; of the arguments the strings are
recorded (the error number `NSH_ERRNO` is not). -/
def nsh_error (fmt : Fmt) (args : List String) : Exec Unit :=
  call (Event.nsh_error fmt args) (fun _ => ())

/-! ## `cmd_rptun` -/

/-- Lines 573-584, the tail of `cmd_rptun_once` shared by all verbs: open the
device, issue the request, close, return the request's status. -/
def cmd_rptun_once_ioctl (env : Env) (path : String) (cmd : Int) (val : IoctlArg) :
    Exec Int := do
  let fd ← call (Event.open_ path 0) (fun h => env.open_ h path 0)
  if fd < 0 then
    nsh_output Fmt.g_fmtarginvalid [path]
    pure ERROR
  else
    let cmd ← call (Event.ioctl fd cmd val) (fun h => env.ioctl h fd cmd val)
    call (Event.close fd) (fun _ => ())
    pure cmd

/-- Lines 554-555: the report of a missing `ping` parameter. -/
def cmd_rptun_once_argrequired (argv : List String) : Exec Int := do
  let argv0 ← argv_at argv 0
  nsh_error Fmt.g_fmtargrequired argv0.toList
  pure ERROR

/-- Lines 549-565, the `ping` branch of `cmd_rptun_once`: the four parameters
are tested for NULL from left to right, then converted. -/
def cmd_rptun_once_ping (cfg : Config) (env : Env) (path : String) (argv : List String) :
    Exec Int := do
  let a3 ← argv_at argv 3
  if a3 = none then cmd_rptun_once_argrequired argv
  else
    let a4 ← argv_at argv 4
    if a4 = none then cmd_rptun_once_argrequired argv
    else
      let a5 ← argv_at argv 5
      if a5 = none then cmd_rptun_once_argrequired argv
      else
        let a6 ← argv_at argv 6
        if a6 = none then cmd_rptun_once_argrequired argv
        else
          let times ← atoi cfg a3
          let len ← atoi cfg a4
          let ack ← atoi cfg a5
          let sleep ← atoi cfg a6
          cmd_rptun_once_ioctl env path cfg.RPTUNIOC_PING
            (IoctlArg.ping ⟨times, len, ack, sleep⟩)

/-- Lines 517-585: `cmd_rptun_once`. -/
def cmd_rptun_once (cfg : Config) (env : Env) (path : String) (argv : List String) :
    Exec Int := do
  let a1 ← argv_at argv 1
  let verb ← deref a1
  if verb = "start" then
    cmd_rptun_once_ioctl env path cfg.RPTUNIOC_START (IoctlArg.val 0)
  else if verb = "stop" then
    cmd_rptun_once_ioctl env path cfg.RPTUNIOC_STOP (IoctlArg.val 0)
  else if verb = "reset" then
    let a3 ← argv_at argv 3
    let val ← atoi cfg a3
    cmd_rptun_once_ioctl env path cfg.RPTUNIOC_RESET (IoctlArg.val (to_ulong cfg val))
  else if verb = "panic" then
    cmd_rptun_once_ioctl env path cfg.RPTUNIOC_PANIC (IoctlArg.val 0)
  else if verb = "dump" then
    cmd_rptun_once_ioctl env path cfg.RPTUNIOC_DUMP (IoctlArg.val 0)
  else if cfg.CONFIG_RPTUN_PING = true ∧ verb = "ping" then
    cmd_rptun_once_ping cfg env path argv
  else
    nsh_output Fmt.g_fmtarginvalid [verb]
    pure ERROR

/-- The request codes of the `ioctl` calls in a list of calls, in order. -/
def ioctl_reqs (calls : List Event) : List Int :=
  calls.filterMap (fun e => match e with
    | Event.ioctl _ req _ => some req
    | _ => none)

/-- Whether a call touches a device: `open`, `ioctl` or `close`. -/
def is_device_call (e : Event) : Bool :=
  match e with
  | Event.open_ _ _ => true
  | Event.ioctl _ _ _ => true
  | Event.close _ => true
  | _ => false

/-- The documented verbs of the rptun family with the request code documented
for each (usage text of `cmd_rptun`, lines 615-620; `ping` exists only with
`CONFIG_RPTUN_PING`). -/
def rptun_documented (cfg : Config) : List (String × Int) :=
  [("start", cfg.RPTUNIOC_START), ("stop", cfg.RPTUNIOC_STOP),
   ("reset", cfg.RPTUNIOC_RESET), ("panic", cfg.RPTUNIOC_PANIC),
   ("dump", cfg.RPTUNIOC_DUMP)] ++
  (if cfg.CONFIG_RPTUN_PING then [("ping", cfg.RPTUNIOC_PING)] else [])

/-- Lines 587-608: `cmd_rptun_recursive`, the visitor handed to the directory
enumeration; `pvarg` is the argument vector of the command. -/
def cmd_rptun_recursive (cfg : Config) (env : Env) (dirpath : String) (entryp : dirent)
    (pvarg : List String) : Exec Int := do
  if entryp.is_directory then pure 0
  else
    let path ← call (Event.nsh_getdirpath dirpath entryp.d_name)
      (fun h => env.nsh_getdirpath h dirpath entryp.d_name)
    match path with
    | some path =>
      let ret ← cmd_rptun_once cfg env path pvarg
      call (Event.free path) (fun _ => ())
      pure ret
    | none => pure ERROR

/-- Modelled from the spec: the enumeration loop of `nsh_foreach_direntry`, a
function of nshlib defined outside `nsh_syscmds.c`.  The spec (4.3, 4.5, 6):
the enumeration yields the directory entries one at a time to the visitor,
skipping sub-directories; it does not stop on a failure reported by the
visitor, every discovered target is attempted; the overall result is the
status of the last target processed.  `ret` is the status so far. -/
def nsh_foreach_direntry_loop (handler : dirent → Exec Int) : List dirent → Int → Exec Int
  | [], ret => pure ret
  | entryp :: entries, ret =>
    if entryp.is_directory then nsh_foreach_direntry_loop handler entries ret
    else do
      let ret ← handler entryp
      nsh_foreach_direntry_loop handler entries ret

/-- Modelled from the spec: `nsh_foreach_direntry(vtbl, cmd, dirpath, handler,
pvarg)`, a function of nshlib defined outside `nsh_syscmds.c`: it enumerates
the entries of `dirpath` and hands them to the visitor as
`nsh_foreach_direntry_loop` describes.  The spec does not say what is reported
when no target is processed; the model reports `OK`. -/
def nsh_foreach_direntry (env : Env) (cmd : String) (dirpath : String)
    (handler : String → dirent → Exec Int) : Exec Int := do
  let entries ← call (Event.nsh_foreach_direntry cmd dirpath) (fun h => env.readdir h dirpath)
  nsh_foreach_direntry_loop (handler dirpath) entries OK

/-- Lines 614-630: the usage text printed for `rptun -h`, one entry per call of
`nsh_output`. -/
def cmd_rptun_usage (cfg : Config) : List String :=
  ["usage:\n",
   "  rptun <start|stop|reset|panic|dump> <path> <value>\n",
   "  rptun <reset> <path> <resetvalue>\n"] ++
  (if cfg.CONFIG_RPTUN_PING then
    ["  rptun ping <path> <times> <length> <ack> <period(ms)>\n\n",
     "  <path>         Rptun device path.\n",
     "  <times>        Times of rptun ping.\n",
     "  <length>       The length of each ping packet.\n",
     "  <ack>          Whether the peer acknowlege or check data.\n",
     "                 0 - No acknowledge and check.\n",
     "                 1 - Acknowledge, no data check.\n",
     "                 2 - Acknowledge and data check.\n",
     "  <period(ms)>   ping period (ms) \n\n"]
  else [])

/-- The calls of `nsh_output` that print the given lines. -/
def nsh_output_lines : List String → Exec Unit
  | [] => pure ()
  | line :: lines => do
    nsh_output (Fmt.text line) []
    nsh_output_lines lines

/-- Lines 610-648: `cmd_rptun`, with `argc = argv.length`. -/
def cmd_rptun (cfg : Config) (env : Env) (argv : List String) : Exec Int := do
  if argv.length ≥ 2 ∧ argv[1]? = some "-h" then
    nsh_output_lines (cmd_rptun_usage cfg)
    pure OK
  else if argv.length < 3 then
    let argv0 ← argv_at argv 0
    nsh_output Fmt.g_fmtargrequired argv0.toList
    pure ERROR
  else
    let a2 ← argv_at argv 2
    let path ← deref a2
    if path = "all" then
      nsh_foreach_direntry env "rptun" "/dev/rptun"
        (fun dirpath entryp => cmd_rptun_recursive cfg env dirpath entryp argv)
    else
      cmd_rptun_once cfg env path argv

/-- The entry names of the `nsh_getdirpath` calls in a list of calls, in
order: the targets the enumeration visited. -/
def getdirpath_names (calls : List Event) : List String :=
  calls.filterMap (fun e => match e with
    | Event.nsh_getdirpath _ d_name => some d_name
    | _ => none)

/-! ## `cmd_reboot` -/

/-- The call `boardctl(cmd, arg)`. -/
def boardctl (env : Env) (cmd : Int) (arg : BoardctlArg) : Exec Int :=
  call (Event.boardctl cmd arg) (fun h => env.boardctl h cmd arg)

/-- Lines 448-456: the scan `while (g_resetflag[i] != NULL)` started at index
`i` over the remaining entries `flags`; it stops at the first entry equal to
`arg`, or at the terminating NULL, and yields the final `i`. -/
def resetflag_scan (arg : String) : List String → Nat → Nat
  | [], i => i
  | flag :: flags, i => if flag = arg then i else resetflag_scan arg flags (i + 1)

/-- Lines 476-477, the end shared by the commands whose `boardctl` request must
not return: report the failure and return `ERROR`. -/
def boardctl_returned (argv : List String) : Exec Int := do
  let argv0 ← argv_at argv 0
  nsh_error Fmt.g_fmtcmdfailed (argv0.toList ++ ["boardctl"])
  pure ERROR

/-- Lines 437-478: `cmd_reboot`, with `argc = argv.length`. -/
def cmd_reboot (cfg : Config) (env : Env) (argv : List String) : Exec Int := do
  if argv.length > 1 then
    let a1 ← argv_at argv 1
    let arg ← deref a1
    let i := resetflag_scan arg g_resetflag 0
    if i < g_resetflag.length then
      let _ ← boardctl env cfg.BOARDIOC_RESET (BoardctlArg.val i)
      boardctl_returned argv
    else
      let n ← atoi cfg a1
      let _ ← boardctl env cfg.BOARDIOC_RESET (BoardctlArg.val n)
      boardctl_returned argv
  else
    let _ ← boardctl env cfg.BOARDIOC_RESET (BoardctlArg.val 0)
    boardctl_returned argv

/-! ## `cmd_uname` -/

/-- Line 60. -/
def UNAME_KERNEL : Nat := 1 <<< 0

/-- Line 61. -/
def UNAME_NODE : Nat := 1 <<< 1

/-- Line 62. -/
def UNAME_RELEASE : Nat := 1 <<< 2

/-- Line 63. -/
def UNAME_VERSION : Nat := 1 <<< 3

/-- Line 64. -/
def UNAME_MACHINE : Nat := 1 <<< 4

/-- Line 65. -/
def UNAME_PLATFORM : Nat := 1 <<< 5

/-- Line 66. -/
def UNAME_UNKNOWN : Nat := 1 <<< 6

/-- Lines 68-74: `UNAME_ALL`, which holds the node bit only with `CONFIG_NET`. -/
def UNAME_ALL (cfg : Config) : Nat :=
  if cfg.CONFIG_NET then
    UNAME_KERNEL ||| UNAME_NODE ||| UNAME_RELEASE ||| UNAME_VERSION ||| UNAME_MACHINE |||
      UNAME_PLATFORM
  else
    UNAME_KERNEL ||| UNAME_RELEASE ||| UNAME_VERSION ||| UNAME_MACHINE ||| UNAME_PLATFORM

/-- The option string of line 673. -/
def uname_optstring : List Char := "asonrvmpi".data

/-- The C library function `getopt` for an option string without option
arguments: the values its successive calls return before the final `ERROR`,
for the arguments `args` that follow `argv[0]`.  Each character after the dash
of an option argument is returned when it is in the option string and `?`
otherwise; as in POSIX the scan ends at `--` or at the first argument that is
not an option. -/
def getopt_all (optstring : List Char) : List String → List Char
  | [] => []
  | arg :: args =>
    match arg.data with
    | '-' :: c :: cs =>
      if c = '-' ∧ cs = [] then []
      else (c :: cs).map (fun o => if o ∈ optstring then o else '?') ++
        getopt_all optstring args
    | _ => []

/-- Lines 675-720, the `switch (option)`: the new value of `set`, or `none` for
the `?` and `default` labels (a bad argument).  The label `n` exists only with
`CONFIG_NET`. -/
def cmd_uname_switch (cfg : Config) (option : Char) (set : Nat) : Option Nat :=
  if option = 'a' then some (UNAME_ALL cfg)
  else if option = 'o' ∨ option = 's' then some (set ||| UNAME_KERNEL)
  else if cfg.CONFIG_NET = true ∧ option = 'n' then some (set ||| UNAME_NODE)
  else if option = 'r' then some (set ||| UNAME_RELEASE)
  else if option = 'v' then some (set ||| UNAME_VERSION)
  else if option = 'm' then some (set ||| UNAME_MACHINE)
  else if option = 'p' then some (if set ≠ UNAME_ALL cfg then set ||| UNAME_UNKNOWN else set)
  else if option = 'i' then some (set ||| UNAME_PLATFORM)
  else none

/-- Lines 673-721, the option loop over the values `options` returned by
`getopt`, from the current `set` and `badarg`: it yields their final values. -/
def cmd_uname_options (cfg : Config) (argv : List String) :
    List Char → Nat → Bool → Exec (Nat × Bool)
  | [], set, badarg => pure (set, badarg)
  | option :: options, set, badarg =>
    match cmd_uname_switch cfg option set with
    | some set1 => cmd_uname_options cfg argv options set1 badarg
    | none => do
      let argv0 ← argv_at argv 0
      nsh_error Fmt.g_fmtarginvalid argv0.toList
      cmd_uname_options cfg argv options set true

/-- The value of `set` after the option loop over `options`, started from
`set`; a bad argument leaves `set` as it is. -/
def cmd_uname_compose (cfg : Config) : List Char → Nat → Nat
  | [], set => set
  | option :: options, set =>
    cmd_uname_compose cfg options ((cmd_uname_switch cfg option set).getD set)

/-- The selector set `cmd_uname` renders for `argv`: the value of `set` at line
739, after the option loop and the default of lines 734-737. -/
def cmd_uname_set (cfg : Config) (argv : List String) : Nat :=
  if cmd_uname_compose cfg (getopt_all uname_optstring argv.tail) 0 = 0 then UNAME_KERNEL
  else cmd_uname_compose cfg (getopt_all uname_optstring argv.tail) 0

/-- The memory output stream `struct lib_memoutstream_s`: the characters put
so far and the number of characters the buffer takes. -/
structure lib_memoutstream_s where
  buffer : List Char
  buflen : Nat
deriving DecidableEq, Repr

/-- The stream library function `lib_memoutstream` on a buffer of `buflen`
bytes: an empty stream that keeps one byte for the terminating NUL. -/
def lib_memoutstream (buflen : Nat) : lib_memoutstream_s := ⟨[], buflen - 1⟩

/-- The call `lib_stream_putc(&stream, ch)`: the character is stored when the
buffer has room for it. -/
def lib_stream_putc (stream : lib_memoutstream_s) (ch : Char) : Exec lib_memoutstream_s :=
  call (Event.lib_stream_putc ch) (fun _ =>
    { stream with buffer := stream.buffer ++ [ch].take (stream.buflen - stream.buffer.length) })

/-- The call `lib_stream_puts(&stream, str, strlen(str))` made in the iteration
with loop variable `mask`: the characters the buffer has room for are stored. -/
def lib_stream_puts (stream : lib_memoutstream_s) (mask : Nat) (str : String) :
    Exec lib_memoutstream_s :=
  call (Event.lib_stream_puts mask str) (fun _ =>
    { stream with
      buffer := stream.buffer ++ str.data.take (stream.buflen - stream.buffer.length) })

/-- Lines 759-793, the `switch (i)`: the string of selector `i`, or `none` for
the `default` label.  The label 1 exists only with `CONFIG_NET`. -/
def cmd_uname_str (cfg : Config) (info : utsname) (i : Nat) : Option String :=
  match i with
  | 0 => some info.sysname
  | 1 => if cfg.CONFIG_NET then some info.nodename else none
  | 2 => some info.release
  | 3 => some info.version
  | 4 => some info.machine
  | 5 => some (BOARD_NAME cfg)
  | 6 => some g_unknown
  | _ => none

/-- Largest value of the C type `unsigned int`. -/
def UINT_MAX : Nat := 2 ^ INT_BITS - 1

/-- Lines 753-803, the rendering loop `for (i = 0; set != 0; i++)` from the
state `i`, `set`, `first`, `stream`; `n` bounds the values of `i` for which the
shift `1 << i` is defined (`i < INT_BITS - 1`).  It yields the stream on leaving
the loop, or `none` when the `default` label returned `ERROR`. -/
def cmd_uname_loop (cfg : Config) (argv : List String) (info : utsname) :
    Nat → Nat → Nat → Bool → lib_memoutstream_s → Exec (Option lib_memoutstream_s)
  | 0, _, set, _, stream =>
    if set = 0 then pure (some stream) else undefined_behaviour
  | n + 1, i, set, first, stream =>
    if set = 0 then pure (some stream)
    else if set &&& (1 <<< i) ≠ 0 then
      match cmd_uname_str cfg info i with
      | none => do
        let argv0 ← argv_at argv 0
        nsh_error Fmt.g_fmtarginvalid argv0.toList
        pure none
      | some str => do
        let stream ← if first then pure stream else lib_stream_putc stream ' '
        let stream ← lib_stream_puts stream (1 <<< i) str
        cmd_uname_loop cfg argv info n (i + 1) (set &&& (UINT_MAX - 1 <<< i)) false stream
    else cmd_uname_loop cfg argv info n (i + 1) set first stream

/-- Lines 656-808: `cmd_uname`. -/
def cmd_uname (cfg : Config) (env : Env) (argv : List String) : Exec Int := do
  let (set, badarg) ←
    cmd_uname_options cfg argv (getopt_all uname_optstring argv.tail) 0 false
  if badarg then pure ERROR
  else
    let set := if set = 0 then UNAME_KERNEL else set
    let (ret, info) ← call Event.uname (fun h => env.uname h)
    if ret < 0 then
      let argv0 ← argv_at argv 0
      nsh_error Fmt.g_fmtcmdfailed (argv0.toList ++ ["uname"])
      pure ERROR
    else
      let rendered ← cmd_uname_loop cfg argv info (INT_BITS - 1) 0 set true
        (lib_memoutstream cfg.sizeof_utsname)
      match rendered with
      | none => pure ERROR
      | some stream =>
        let stream ← lib_stream_putc stream (Char.ofNat 10)
        call (Event.nsh_write (String.mk stream.buffer)) (fun _ => ())
        pure OK

/-- The selector masks of the `lib_stream_puts` calls in a list of calls, in
order: the fields emitted. -/
def puts_masks (calls : List Event) : List Nat :=
  calls.filterMap (fun e => match e with
    | Event.lib_stream_puts mask _ => some mask
    | _ => none)

/-- The selectors in their canonical order: kernel, node, release, version,
machine, platform, unknown. -/
def uname_canonical : List Nat :=
  [UNAME_KERNEL, UNAME_NODE, UNAME_RELEASE, UNAME_VERSION, UNAME_MACHINE, UNAME_PLATFORM,
   UNAME_UNKNOWN]

/-- The option argument `-c` of a flag `c`. -/
def flag_arg (c : Char) : String := String.mk ['-', c]

/-- The flags `cmd_uname` recognizes: the characters of the option string that
have a label in the switch (`n` only with `CONFIG_NET`). -/
def uname_flags (cfg : Config) : List Char :=
  if cfg.CONFIG_NET then ['a', 's', 'o', 'n', 'r', 'v', 'm', 'p', 'i']
  else ['a', 's', 'o', 'r', 'v', 'm', 'p', 'i']

/-- The bits of `set` are among the seven selector bits 0 to 6, and the node
bit 1 is set only with `CONFIG_NET`. -/
def uname_set_ok (cfg : Config) (set : Nat) : Bool :=
  decide (set < 2 ^ 7) && (!set.testBit 1 || cfg.CONFIG_NET)

/-! ## The text of `cmd_uname` -/

/-- The strings of the selectors from `i` to 6 that are in `set`, in increasing
order of the selector. -/
def uname_fields_from (cfg : Config) (info : utsname) (set i : Nat) : List String :=
  ((List.range' i (7 - i)).filter (fun j => set.testBit j)).filterMap (cmd_uname_str cfg info)

/-- The strings of the fields selected in `set`, in canonical order. -/
def uname_fields (cfg : Config) (info : utsname) (set : Nat) : List String :=
  uname_fields_from cfg info set 0

/-- The characters of the strings, each string preceded by one space. -/
def spaced_fields : List String → List Char
  | [] => []
  | str :: strs => ' ' :: str.data ++ spaced_fields strs

/-- The characters of the strings with one space between consecutive strings;
when `first` is false one more space precedes the first string. -/
def joined_fields (first : Bool) (strs : List String) : List Char :=
  if first then
    match strs with
    | [] => []
    | str :: strs => str.data ++ spaced_fields strs
  else spaced_fields strs

/-- The buffers written with `nsh_write` in a list of calls, in order. -/
def nsh_written (calls : List Event) : List String :=
  calls.filterMap (fun e => match e with
    | Event.nsh_write buffer => some buffer
    | _ => none)

/-- A call to the memory output stream. -/
def is_stream_call (e : Event) : Bool :=
  match e with
  | Event.lib_stream_putc _ => true
  | Event.lib_stream_puts _ _ => true
  | _ => false

/-! ## Formatted output -/

/-- The text `nsh_output` prints for a format and its arguments, for the
conversions used in `nsh_syscmds.c`: each `%s`, `%d` and `%lu` is replaced by the
next argument, numbers being passed as their decimal text.  A conversion
without an argument is left as it stands. -/
def format_text : List Char → List String → List Char
  | [], _ => []
  | '%' :: 's' :: fmt, arg :: args => arg.data ++ format_text fmt args
  | '%' :: 'd' :: fmt, arg :: args => arg.data ++ format_text fmt args
  | '%' :: 'l' :: 'u' :: fmt, arg :: args => arg.data ++ format_text fmt args
  | c :: fmt, args => c :: format_text fmt args

/-- The lines that the `nsh_output` calls with a literal format print, in
order. -/
def output_text (calls : List Event) : List String :=
  calls.filterMap (fun e => match e with
    | Event.nsh_output (Fmt.text fmt) args => some (String.mk (format_text fmt.data args))
    | _ => none)

/-! ## `cmd_shutdown`, `cmd_poweroff`, `cmd_boot` -/

/-- The C library function `strtoul(str, NULL, 0)`: undefined behaviour for
NULL. -/
def strtoul (env : Env) (p : Option String) : Exec Nat := do
  let str ← deref p
  pure (env.strtoul str)

/-- Lines 421-428, the end of `cmd_boot`: the boot request, which must not
return. -/
def cmd_boot_image (cfg : Config) (env : Env) (argv : List String)
    (info : boardioc_boot_info_s) : Exec Int := do
  let _ ← boardctl env cfg.BOARDIOC_BOOT_IMAGE (BoardctlArg.boot_info info)
  boardctl_returned argv

/-- Lines 391-429: `cmd_boot`, with `argc = argv.length`.  In the
`switch (argc)` the label `default` comes first and falls through to `case 1`,
which falls through to `case 0`. -/
def cmd_boot (cfg : Config) (env : Env) (argv : List String) : Exec Int := do
  if argv.length = 0 then
    cmd_boot_image cfg env argv ⟨none, 0⟩
  else if argv.length = 1 then
    let a1 ← argv_at argv 1
    cmd_boot_image cfg env argv ⟨a1, 0⟩
  else
    let a2 ← argv_at argv 2
    let header_size ← strtoul env a2
    let a1 ← argv_at argv 1
    cmd_boot_image cfg env argv ⟨a1, header_size⟩

/-! ## `cmd_reset_cause` -/

/-- The expression `table[i]` for an array holding the strings `table`:
undefined behaviour when `i` is not an index of the array. -/
def table_at (table : List String) (i : Int) : Exec String :=
  if 0 ≤ i then
    match table[i.toNat]? with
    | some str => pure str
    | none => undefined_behaviour
  else undefined_behaviour

/-- Lines 482-509: `cmd_reset_cause`.  The expression `g_resetflag[cause.flag]`
reads an array of the six names followed by NULL. -/
def cmd_reset_cause (cfg : Config) (env : Env) (argv : List String) : Exec Int := do
  let (ret, cause) ←
    call (Event.boardctl cfg.BOARDIOC_RESET_CAUSE (BoardctlArg.reset_cause ⟨0, 0⟩))
      (fun h => (env.boardctl h cfg.BOARDIOC_RESET_CAUSE (BoardctlArg.reset_cause ⟨0, 0⟩),
        env.reset_cause h))
  if ret < 0 then
    boardctl_returned argv
  else if cause.cause ≠ cfg.BOARDIOC_RESETCAUSE_CPU_SOFT then
    let name ← table_at g_resetcause cause.cause
    nsh_output (Fmt.text "%s(%lu)\n") [name, toString cause.flag]
    pure OK
  else
    let name ← table_at g_resetcause cause.cause
    let flag ← argv_at g_resetflag cause.flag
    nsh_output (Fmt.text "%s(%s)\n") (name :: flag.toList)
    pure OK

/-! ## `cmd_pmconfig` -/

/-- Lines 218-240: `cmd_pmconfig_recursive`, the visitor that prints one file
of the power management directory; `pvarg` is the command name. -/
def cmd_pmconfig_recursive (env : Env) (dirpath : String) (entryp : dirent)
    (pvarg : String) : Exec Int := do
  if entryp.is_directory then pure 0
  else
    let path ← call (Event.nsh_getdirpath dirpath entryp.d_name)
      (fun h => env.nsh_getdirpath h dirpath entryp.d_name)
    match path with
    | some path =>
      nsh_output (Fmt.text "\n%s:\n") [path]
      let ret ← call (Event.nsh_catfile pvarg path) (fun h => env.nsh_catfile h pvarg path)
      call (Event.free path) (fun _ => ())
      pure ret
    | none => pure ERROR

/-- The call `boardctl(BOARDIOC_PM_CONTROL, &ctrl)`, whose status
`cmd_pmconfig` ignores: it yields `ctrl` with the state the call leaves in it. -/
def boardctl_pm (cfg : Config) (env : Env) (ctrl : boardioc_pm_ctrl_s) :
    Exec boardioc_pm_ctrl_s :=
  call (Event.boardctl cfg.BOARDIOC_PM_CONTROL (BoardctlArg.pm_ctrl ctrl))
    (fun h => { ctrl with state := env.pm_state h ctrl })

/-- Lines 263-276 of `cmd_pmconfig`: query the last and the next state, print
them, and print the files of the power management directory. -/
def cmd_pmconfig_query (cfg : Config) (env : Env) (argv : List String)
    (ctrl : boardioc_pm_ctrl_s) : Exec Int := do
  let ctrl ← boardctl_pm cfg env { ctrl with action := cfg.BOARDIOC_PM_QUERYSTATE }
  let last_state := ctrl.state
  let ctrl ← boardctl_pm cfg env { ctrl with action := cfg.BOARDIOC_PM_CHECKSTATE }
  let next_state := ctrl.state
  nsh_output (Fmt.text "Last state %d, Next state %d\n")
    [toString last_state, toString next_state]
  let argv0 ← argv_at argv 0
  let cmd ← deref argv0
  nsh_foreach_direntry env cmd (cfg.CONFIG_NSH_PROC_MOUNTPOINT ++ "/pm")
    (fun dirpath entryp => cmd_pmconfig_recursive env dirpath entryp cmd)

/-- Lines 304-326 and 334 of `cmd_pmconfig`: the state token, the single
control request, and the final `return 0`. -/
def cmd_pmconfig_state (cfg : Config) (env : Env) (argv : List String)
    (ctrl : boardioc_pm_ctrl_s) : Exec Int := do
  let a2 ← argv_at argv 2
  let token ← deref a2
  if token = "normal" then
    let _ ← boardctl_pm cfg env { ctrl with state := cfg.PM_NORMAL }
    pure 0
  else if token = "idle" then
    let _ ← boardctl_pm cfg env { ctrl with state := cfg.PM_IDLE }
    pure 0
  else if token = "standby" then
    let _ ← boardctl_pm cfg env { ctrl with state := cfg.PM_STANDBY }
    pure 0
  else if token = "sleep" then
    let _ ← boardctl_pm cfg env { ctrl with state := cfg.PM_SLEEP }
    pure 0
  else
    nsh_output Fmt.g_fmtarginvalid [token]
    pure ERROR

/-- Lines 290-302 of `cmd_pmconfig`: the verb, then the rest. -/
def cmd_pmconfig_control (cfg : Config) (env : Env) (argv : List String)
    (ctrl : boardioc_pm_ctrl_s) : Exec Int := do
  let a1 ← argv_at argv 1
  let verb ← deref a1
  if verb = "stay" then
    cmd_pmconfig_state cfg env argv { ctrl with action := cfg.BOARDIOC_PM_STAY }
  else if verb = "relax" then
    cmd_pmconfig_state cfg env argv { ctrl with action := cfg.BOARDIOC_PM_RELAX }
  else
    nsh_output Fmt.g_fmtarginvalid [verb]
    pure ERROR

/-- Lines 255-260 and 282-287 of `cmd_pmconfig`: the domain argument `argv[i]`
is converted and checked against `[0, CONFIG_PM_NDOMAINS)`; `none` stands for
the `return ERROR` of the range check. -/
def cmd_pmconfig_domain (cfg : Config) (argv : List String) (i : Nat)
    (ctrl : boardioc_pm_ctrl_s) : Exec (Option boardioc_pm_ctrl_s) := do
  let arg ← argv_at argv i
  let domain ← atoi cfg arg
  if domain < 0 ∨ domain ≥ cfg.CONFIG_PM_NDOMAINS then
    nsh_error Fmt.g_fmtargrange arg.toList
    pure none
  else pure (some { ctrl with domain := domain })

/-- Lines 242-335: `cmd_pmconfig`, with `argc = argv.length`. -/
def cmd_pmconfig (cfg : Config) (env : Env) (argv : List String) : Exec Int := do
  if argv.length ≤ 2 then
    if argv.length = 2 then
      let checked ← cmd_pmconfig_domain cfg argv 1 ⟨0, 0, 0⟩
      match checked with
      | none => pure ERROR
      | some ctrl => cmd_pmconfig_query cfg env argv ctrl
    else cmd_pmconfig_query cfg env argv ⟨0, 0, 0⟩
  else if argv.length ≤ 4 then
    if argv.length = 4 then
      let checked ← cmd_pmconfig_domain cfg argv 3 ⟨0, 0, 0⟩
      match checked with
      | none => pure ERROR
      | some ctrl => cmd_pmconfig_control cfg env argv ctrl
    else cmd_pmconfig_control cfg env argv ⟨0, 0, 0⟩
  else
    let argv0 ← argv_at argv 0
    nsh_error Fmt.g_fmttoomanyargs argv0.toList
    pure ERROR

/-- Whether a call is a `boardctl` request. -/
def is_boardctl (e : Event) : Bool :=
  match e with
  | Event.boardctl _ _ => true
  | _ => false

/-- Whether a call belongs to the directory enumeration: `nsh_foreach_direntry`,
`nsh_getdirpath` or `nsh_catfile`. -/
def is_enumeration_call (e : Event) : Bool :=
  match e with
  | Event.nsh_foreach_direntry _ _ => true
  | Event.nsh_getdirpath _ _ => true
  | Event.nsh_catfile _ _ => true
  | _ => false

/-! ## A sample configuration and world -/

/-- A sample configuration: networking and rptun ping enabled, a board named
`sim`, and small distinct numbers for the request codes. -/
def sample_config : Config where
  CONFIG_NET := true
  CONFIG_RPTUN_PING := true
  CONFIG_ARCH_BOARD_CUSTOM := false
  CONFIG_ARCH_BOARD_CUSTOM_NAME := none
  CONFIG_ARCH_BOARD := some "sim"
  RPTUNIOC_START := 1
  RPTUNIOC_STOP := 2
  RPTUNIOC_RESET := 3
  RPTUNIOC_PANIC := 4
  RPTUNIOC_DUMP := 5
  RPTUNIOC_PING := 6
  BOARDIOC_RESET := 100
  sizeof_utsname := 256
  CONFIG_BOARDCTL_POWEROFF := true
  CONFIG_BOARDCTL_RESET := true
  CONFIG_PM_NDOMAINS := 1
  CONFIG_NSH_PROC_MOUNTPOINT := "/proc"
  BOARDIOC_POWEROFF := 101
  BOARDIOC_BOOT_IMAGE := 102
  BOARDIOC_RESET_CAUSE := 103
  BOARDIOC_RESETCAUSE_CPU_SOFT := 9
  BOARDIOC_PM_CONTROL := 104
  BOARDIOC_PM_QUERYSTATE := 0
  BOARDIOC_PM_CHECKSTATE := 1
  BOARDIOC_PM_STAY := 2
  BOARDIOC_PM_RELAX := 3
  PM_NORMAL := 0
  PM_IDLE := 1
  PM_STANDBY := 2
  PM_SLEEP := 3
  LP64 := true

/-- The path of the most recent `open` in a trace. -/
def last_opened (h : List Event) : Option String :=
  h.reverse.findSome? (fun e => match e with
    | Event.open_ path _ => some path
    | _ => none)

/-- A sample world.  `/dev/rptun` holds the devices `a`, `b`, `c` and a
sub-directory `sub`; opening `/dev/rptun/b` fails, every other `open` returns
descriptor 3; a request to `/dev/rptun/c` returns 5, to any other device 0;
`boardctl` returns -1, except for the reset cause request, which succeeds and
reports a soft reset with flag 2; `uname` succeeds. -/
def sample_env : Env where
  open_ := fun _ path _ => if path = "/dev/rptun/b" then -1 else 3
  ioctl := fun h _ _ _ => if last_opened h = some "/dev/rptun/c" then 5 else 0
  boardctl := fun _ cmd _ => if cmd = 103 then 0 else -1
  uname := fun _ => (0, ⟨"NuttX", "host", "12.0.0", "Jan 1 2024", "sim"⟩)
  nsh_getdirpath := fun _ dirpath d_name => some (dirpath ++ "/" ++ d_name)
  readdir := fun _ dirpath =>
    if dirpath = "/dev/rptun" then
      [⟨"a", false⟩, ⟨"sub", true⟩, ⟨"b", false⟩, ⟨"c", false⟩]
    else []
  reset_cause := fun _ => ⟨9, 2⟩
  pm_state := fun _ ctrl => ctrl.state
  nsh_catfile := fun _ _ _ => 0
  strtoul := fun str => (strtol10 str.data).toNat

/-- The sample world after `reboot 6`: the reset cause request reports a soft
reset with flag 6. -/
def sample_env_flag6 : Env :=
  { sample_env with reset_cause := fun _ => ⟨9, 6⟩ }

/-- The sample world when every `boardctl` request fails. -/
def sample_env_failing : Env :=
  { sample_env with boardctl := fun _ _ _ => -1 }

/-- The sample world on a machine without a host name: `uname` leaves the node
name empty. -/
def sample_env_unnamed : Env :=
  { sample_env with uname := fun _ => (0, ⟨"NuttX", "", "12.0.0", "Jan 1 2024", "sim"⟩) }

/-! ## Running pieces of the program -/

section exec_lemmas

variable {α β : Type}

@[simp] theorem pure_run (a : α) (h : List Event) :
    (pure a : Exec α) h = ⟨some a, []⟩ := rfl

@[simp] theorem exec_pure_run (a : α) (h : List Event) :
    (Exec.pure a : Exec α) h = ⟨some a, []⟩ := rfl

@[simp] theorem undefined_behaviour_run (h : List Event) :
    (undefined_behaviour : Exec α) h = ⟨none, []⟩ := rfl

@[simp] theorem call_run (e : Event) (answer : List Event → α) (h : List Event) :
    call e answer h = ⟨some (answer h), [e]⟩ := rfl

theorem bind_run (m : Exec α) (f : α → Exec β) (h : List Event) :
    (m >>= f) h =
      match (m h).ret with
      | some a => ⟨(f a (h ++ (m h).calls)).ret, (m h).calls ++ (f a (h ++ (m h).calls)).calls⟩
      | none => ⟨none, (m h).calls⟩ := rfl

@[simp] theorem bind_run_some (m : Exec α) (f : α → Exec β) (h : List Event) (a : α)
    (hm : (m h).ret = some a) :
    (m >>= f) h =
      ⟨(f a (h ++ (m h).calls)).ret, (m h).calls ++ (f a (h ++ (m h).calls)).calls⟩ := by
  rw [bind_run]; simp [hm]

@[simp] theorem bind_run_none (m : Exec α) (f : α → Exec β) (h : List Event)
    (hm : (m h).ret = none) :
    (m >>= f) h = ⟨none, (m h).calls⟩ := by
  rw [bind_run]; simp [hm]

@[simp] theorem nsh_output_run (fmt : Fmt) (args : List String) (h : List Event) :
    nsh_output fmt args h = ⟨some (), [Event.nsh_output fmt args]⟩ := rfl

@[simp] theorem nsh_error_run (fmt : Fmt) (args : List String) (h : List Event) :
    nsh_error fmt args h = ⟨some (), [Event.nsh_error fmt args]⟩ := rfl

theorem argv_at_run (argv : List String) (i : Nat) (h : List Event) :
    argv_at argv i h =
      if i ≤ argv.length then ⟨some argv[i]?, []⟩ else ⟨none, []⟩ := by
  unfold argv_at
  by_cases h1 : i < argv.length
  · simp [h1, Nat.le_of_lt h1]
  · by_cases h2 : i = argv.length
    · subst h2; simp
    · have h3 : ¬ i ≤ argv.length := by omega
      simp [h1, h2, h3]

@[simp] theorem deref_some_run (s : String) (h : List Event) :
    deref (some s) h = ⟨some s, []⟩ := rfl

@[simp] theorem deref_none_run (h : List Event) :
    deref none h = ⟨none, []⟩ := rfl

@[simp] theorem atoi_some_run (cfg : Config) (s : String) (h : List Event) :
    atoi cfg (some s) h = ⟨some (atoi_value cfg s), []⟩ := rfl

@[simp] theorem boardctl_run (env : Env) (cmd : Int) (arg : BoardctlArg) (h : List Event) :
    boardctl env cmd arg h = ⟨some (env.boardctl h cmd arg), [Event.boardctl cmd arg]⟩ := rfl

@[simp] theorem atoi_none_run (cfg : Config) (h : List Event) :
    atoi cfg none h = ⟨none, []⟩ := rfl

end exec_lemmas

/-! ## `cmd_rptun_once` -/

/-- The tail of `cmd_rptun_once` when `open` succeeds: open, one `ioctl`,
close, and the status of the `ioctl`. -/
theorem cmd_rptun_once_ioctl_ok (env : Env) (path : String) (cmd : Int) (val : IoctlArg)
    (h : List Event) (hopen : 0 ≤ env.open_ h path 0) :
    cmd_rptun_once_ioctl env path cmd val h =
      ⟨some (env.ioctl (h ++ [Event.open_ path 0]) (env.open_ h path 0) cmd val),
       [Event.open_ path 0, Event.ioctl (env.open_ h path 0) cmd val,
        Event.close (env.open_ h path 0)]⟩ := by
  have hn : ¬ env.open_ h path 0 < 0 := by omega
  simp [cmd_rptun_once_ioctl, hn]

/-- The tail of `cmd_rptun_once` when `open` fails. -/
theorem cmd_rptun_once_ioctl_fail (env : Env) (path : String) (cmd : Int) (val : IoctlArg)
    (h : List Event) (hopen : env.open_ h path 0 < 0) :
    cmd_rptun_once_ioctl env path cmd val h =
      ⟨some ERROR, [Event.open_ path 0, Event.nsh_output Fmt.g_fmtarginvalid [path]]⟩ := by
  simp [cmd_rptun_once_ioctl, hopen]

/-- Reading the verb: with `argv[1]` present, `cmd_rptun_once` is its chain of
comparisons applied to that string. -/
theorem cmd_rptun_once_verb (cfg : Config) (env : Env) (path : String) (argv : List String)
    (h : List Event) (verb : String) (hverb : argv[1]? = some verb) :
    cmd_rptun_once cfg env path argv h =
      if verb = "start" then
        cmd_rptun_once_ioctl env path cfg.RPTUNIOC_START (IoctlArg.val 0) h
      else if verb = "stop" then
        cmd_rptun_once_ioctl env path cfg.RPTUNIOC_STOP (IoctlArg.val 0) h
      else if verb = "reset" then
        (argv_at argv 3 >>= fun a3 => atoi cfg a3 >>= fun val =>
          cmd_rptun_once_ioctl env path cfg.RPTUNIOC_RESET (IoctlArg.val (to_ulong cfg val))) h
      else if verb = "panic" then
        cmd_rptun_once_ioctl env path cfg.RPTUNIOC_PANIC (IoctlArg.val 0) h
      else if verb = "dump" then
        cmd_rptun_once_ioctl env path cfg.RPTUNIOC_DUMP (IoctlArg.val 0) h
      else if cfg.CONFIG_RPTUN_PING = true ∧ verb = "ping" then
        cmd_rptun_once_ping cfg env path argv h
      else
        ⟨some ERROR, [Event.nsh_output Fmt.g_fmtarginvalid [verb]]⟩ := by
  have hlen : 1 ≤ argv.length := by
    have := (List.getElem?_eq_some.mp hverb).1
    omega
  unfold cmd_rptun_once
  rw [bind_run_some _ _ _ (some verb) (by simp [argv_at_run, hlen, hverb])]
  simp only [argv_at_run, hlen, if_true, List.append_nil, List.nil_append]
  rw [bind_run_some _ _ _ verb (by simp)]
  simp only [deref_some_run, List.append_nil, List.nil_append]
  split_ifs <;> simp

/-- Without `argv[1]` the run of `cmd_rptun_once` is undefined and makes no
call. -/
theorem cmd_rptun_once_no_verb (cfg : Config) (env : Env) (path : String)
    (argv : List String) (h : List Event) (hverb : argv[1]? = none) :
    cmd_rptun_once cfg env path argv h = ⟨none, []⟩ := by
  unfold cmd_rptun_once
  by_cases hlen : 1 ≤ argv.length
  · simp [bind_run, argv_at_run, hlen, hverb]
  · simp [bind_run, argv_at_run, hlen]

/-- The `ping` branch with all four parameters present. -/
theorem cmd_rptun_once_ping_present (cfg : Config) (env : Env) (path : String)
    (a0 a1 a2 a3 a4 a5 a6 : String) (rest : List String) (h : List Event) :
    cmd_rptun_once_ping cfg env path (a0 :: a1 :: a2 :: a3 :: a4 :: a5 :: a6 :: rest) h =
      cmd_rptun_once_ioctl env path cfg.RPTUNIOC_PING
        (IoctlArg.ping ⟨atoi_value cfg a3, atoi_value cfg a4, atoi_value cfg a5, atoi_value cfg a6⟩) h := by
  simp [cmd_rptun_once_ping, bind_run, argv_at_run]

/-- The `ping` branch with a parameter missing makes no device call. -/
theorem cmd_rptun_once_ping_missing (cfg : Config) (env : Env) (path : String)
    (argv : List String) (h : List Event) (hlen : argv.length < 7) :
    (cmd_rptun_once_ping cfg env path argv h).ret ≠ some OK ∧
    ∀ e ∈ (cmd_rptun_once_ping cfg env path argv h).calls, is_device_call e = false := by
  rcases argv with _ | ⟨a0, _ | ⟨a1, _ | ⟨a2, _ | ⟨a3, _ | ⟨a4, _ | ⟨a5, _ | ⟨a6, rest⟩⟩⟩⟩⟩⟩⟩
  all_goals first
    | (simp at hlen; omega)
    | simp [cmd_rptun_once_ping, cmd_rptun_once_argrequired, bind_run, argv_at_run,
        is_device_call, OK, ERROR]

/-- The request codes passed to `ioctl` by the tail of `cmd_rptun_once`. -/
theorem ioctl_reqs_cmd_rptun_once_ioctl (env : Env) (path : String) (cmd : Int)
    (val : IoctlArg) (h : List Event) :
    ioctl_reqs (cmd_rptun_once_ioctl env path cmd val h).calls =
      if 0 ≤ env.open_ h path 0 then [cmd] else [] := by
  by_cases hopen : 0 ≤ env.open_ h path 0
  · rw [cmd_rptun_once_ioctl_ok env path cmd val h hopen]
    simp [ioctl_reqs, hopen]
  · rw [cmd_rptun_once_ioctl_fail env path cmd val h (by omega)]
    simp [ioctl_reqs, hopen]

/-- The `reset` branch of `cmd_rptun_once`: `argv[3]` is converted without a
test, so the run is undefined when it is missing. -/
theorem cmd_rptun_once_reset (cfg : Config) (env : Env) (path : String)
    (argv : List String) (h : List Event) :
    (argv_at argv 3 >>= fun a3 => atoi cfg a3 >>= fun val =>
        cmd_rptun_once_ioctl env path cfg.RPTUNIOC_RESET (IoctlArg.val (to_ulong cfg val))) h =
      match argv[3]? with
      | some a3 =>
        cmd_rptun_once_ioctl env path cfg.RPTUNIOC_RESET
          (IoctlArg.val (to_ulong cfg (atoi_value cfg a3))) h
      | none => ⟨none, []⟩ := by
  by_cases hlen : 3 ≤ argv.length
  · cases hv : argv[3]? with
    | none => simp [bind_run, argv_at_run, hlen, hv]
    | some a3 => simp [bind_run, argv_at_run, hlen, hv]
  · have hv : argv[3]? = none := List.getElem?_eq_none (by omega)
    simp [bind_run, argv_at_run, hlen, hv]

/-- With a documented verb and the parameters of `reset` and `ping` present,
`cmd_rptun_once` is its tail with the code documented for the verb. -/
theorem cmd_rptun_once_valid (cfg : Config) (env : Env) (path : String)
    (argv : List String) (h : List Event) (verb : String) (code : Int)
    (hverb : argv[1]? = some verb) (hdoc : (verb, code) ∈ rptun_documented cfg)
    (hreset : verb = "reset" → 4 ≤ argv.length)
    (hping : verb = "ping" → 7 ≤ argv.length) :
    ∃ val, cmd_rptun_once cfg env path argv h = cmd_rptun_once_ioctl env path code val h := by
  rw [cmd_rptun_once_verb cfg env path argv h verb hverb]
  simp only [rptun_documented, List.mem_append, List.mem_cons, Prod.mk.injEq,
    List.mem_singleton, List.not_mem_nil, or_false] at hdoc
  rcases hdoc with (⟨hv, hc⟩ | ⟨hv, hc⟩ | ⟨hv, hc⟩ | ⟨hv, hc⟩ | ⟨hv, hc⟩) | hp
  · subst hv hc; exact ⟨IoctlArg.val 0, by simp⟩
  · subst hv hc; exact ⟨IoctlArg.val 0, by simp⟩
  · subst hv hc
    have h4 := hreset rfl
    obtain ⟨a3, ha3⟩ : ∃ a3, argv[3]? = some a3 :=
      ⟨argv[3], List.getElem?_eq_getElem (by omega)⟩
    refine ⟨IoctlArg.val (to_ulong cfg (atoi_value cfg a3)), ?_⟩
    simp only [cmd_rptun_once_reset, ha3]
    simp
  · subst hv hc; exact ⟨IoctlArg.val 0, by simp⟩
  · subst hv hc; exact ⟨IoctlArg.val 0, by simp⟩
  · by_cases hcfg : cfg.CONFIG_RPTUN_PING = true
    · simp only [hcfg, if_true, List.mem_singleton, Prod.mk.injEq] at hp
      obtain ⟨hv, hc⟩ := hp
      subst hv hc
      have h7 := hping rfl
      rcases argv with _ | ⟨a0, _ | ⟨a1, _ | ⟨a2, _ | ⟨a3, _ | ⟨a4, _ | ⟨a5, _ | ⟨a6, rest⟩⟩⟩⟩⟩⟩⟩
      all_goals first
        | (simp at h7; done)
        | (simp at h7; omega)
        | exact ⟨IoctlArg.ping ⟨atoi_value cfg a3, atoi_value cfg a4, atoi_value cfg a5, atoi_value cfg a6⟩,
            by simp [hcfg, cmd_rptun_once_ping_present]⟩
    · simp [hcfg] at hp

/-- Claim C1. In `cmd_rptun_once` the request code passed to `ioctl` is the one
documented for the verb `argv[1]`: every code passed belongs, together with the
exact string `argv[1]`, to the documented table (start, stop, reset, panic, dump
and, with `CONFIG_RPTUN_PING`, ping), so no other spelling of a verb reaches
`ioctl`; and for each documented verb, with the value of `reset` and the four
parameters of `ping` present and `open` succeeding, exactly one `ioctl` is made,
with the documented code. -/
theorem cmd_rptun_once_documented_code (cfg : Config) (env : Env) (path : String)
    (argv : List String) (h : List Event) :
    (∀ req ∈ ioctl_reqs (cmd_rptun_once cfg env path argv h).calls,
        ∃ verb, argv[1]? = some verb ∧ (verb, req) ∈ rptun_documented cfg) ∧
    (∀ verb code, argv[1]? = some verb → (verb, code) ∈ rptun_documented cfg →
        (verb = "reset" → 4 ≤ argv.length) → (verb = "ping" → 7 ≤ argv.length) →
        0 ≤ env.open_ h path 0 →
        ioctl_reqs (cmd_rptun_once cfg env path argv h).calls = [code]) := by
  constructor
  · intro req hreq
    cases hverb : argv[1]? with
    | none => simp [cmd_rptun_once_no_verb cfg env path argv h hverb, ioctl_reqs] at hreq
    | some verb =>
      refine ⟨verb, rfl, ?_⟩
      rw [cmd_rptun_once_verb cfg env path argv h verb hverb] at hreq
      have tail_req : ∀ (cmd : Int) (val : IoctlArg),
          req ∈ ioctl_reqs (cmd_rptun_once_ioctl env path cmd val h).calls → req = cmd := by
        intro cmd val hin
        rw [ioctl_reqs_cmd_rptun_once_ioctl] at hin
        split_ifs at hin <;> simp_all
      split_ifs at hreq with h1 h2 h3 h4 h5 h6
      · rw [tail_req _ _ hreq, h1]; simp [rptun_documented]
      · rw [tail_req _ _ hreq, h2]; simp [rptun_documented]
      · rw [cmd_rptun_once_reset] at hreq
        cases ha3 : argv[3]? with
        | none => simp [ha3, ioctl_reqs] at hreq
        | some a3 =>
          simp only [ha3] at hreq
          rw [tail_req _ _ hreq, h3]; simp [rptun_documented]
      · rw [tail_req _ _ hreq, h4]; simp [rptun_documented]
      · rw [tail_req _ _ hreq, h5]; simp [rptun_documented]
      · by_cases h7 : argv.length < 7
        · have hm := (cmd_rptun_once_ping_missing cfg env path argv h h7).2
          simp only [ioctl_reqs, List.mem_filterMap] at hreq
          obtain ⟨e, he, hsome⟩ := hreq
          have hd := hm e he
          cases e <;> simp_all [is_device_call]
        · rcases argv with
            _ | ⟨a0, _ | ⟨a1, _ | ⟨a2, _ | ⟨a3, _ | ⟨a4, _ | ⟨a5, _ | ⟨a6, rest⟩⟩⟩⟩⟩⟩⟩
          all_goals first
            | (simp at h7; done)
            | (simp at h7; omega)
            | (rw [cmd_rptun_once_ping_present] at hreq
               rw [tail_req _ _ hreq, h6.2]; simp [rptun_documented, h6.1])
      · simp [ioctl_reqs] at hreq
  · intro verb code hverb hdoc hreset hping hopen
    obtain ⟨val, hrun⟩ := cmd_rptun_once_valid cfg env path argv h verb code hverb hdoc hreset hping
    rw [hrun, ioctl_reqs_cmd_rptun_once_ioctl]
    simp [hopen]

/-- Claim C1 at concrete runs: `rptun reset /dev/rptun/a 1` passes exactly the
code `RPTUNIOC_RESET` to `ioctl`, and the verb spelled `Start` passes none. -/
theorem cmd_rptun_once_documented_code_witness :
    ioctl_reqs (cmd_rptun_once sample_config sample_env "/dev/rptun/a"
      ["rptun", "reset", "/dev/rptun/a", "1"] []).calls = [sample_config.RPTUNIOC_RESET] ∧
    ioctl_reqs (cmd_rptun_once sample_config sample_env "/dev/rptun/a"
      ["rptun", "Start", "/dev/rptun/a"] []).calls = [] :=
  ⟨(cmd_rptun_once_documented_code sample_config sample_env "/dev/rptun/a"
    ["rptun", "reset", "/dev/rptun/a", "1"] []).2 "reset" sample_config.RPTUNIOC_RESET
    (by rfl) (by simp [rptun_documented]) (by simp) (by simp) (by decide),
   by decide⟩

/-- Claim C2. When `argv[1]` is none of start, stop, reset, panic, dump, ping,
`cmd_rptun_once` returns `ERROR`; its only call is the report of the invalid
argument, so it performs no `open`, no `ioctl` and no `close`.  The string is
never read as a number. -/
theorem cmd_rptun_once_unknown_verb (cfg : Config) (env : Env) (path : String)
    (argv : List String) (h : List Event) (verb : String)
    (hverb : argv[1]? = some verb)
    (hnot : verb ∉ ["start", "stop", "reset", "panic", "dump", "ping"]) :
    (cmd_rptun_once cfg env path argv h).ret = some ERROR ∧
    (cmd_rptun_once cfg env path argv h).calls =
      [Event.nsh_output Fmt.g_fmtarginvalid [verb]] ∧
    ∀ e ∈ (cmd_rptun_once cfg env path argv h).calls, is_device_call e = false := by
  simp only [List.mem_cons, List.mem_singleton, List.not_mem_nil, or_false, not_or] at hnot
  obtain ⟨h1, h2, h3, h4, h5, h6⟩ := hnot
  rw [cmd_rptun_once_verb cfg env path argv h verb hverb]
  simp [h1, h2, h3, h4, h5, h6, is_device_call]

/-- Claim C2 at a concrete run: the numeric-looking verb `7` is refused. -/
theorem cmd_rptun_once_unknown_verb_witness :
    (cmd_rptun_once sample_config sample_env "/dev/rptun/a"
      ["rptun", "7", "/dev/rptun/a"] []).ret = some ERROR ∧
    (cmd_rptun_once sample_config sample_env "/dev/rptun/a"
      ["rptun", "7", "/dev/rptun/a"] []).calls =
      [Event.nsh_output Fmt.g_fmtarginvalid ["7"]] ∧
    ∀ e ∈ (cmd_rptun_once sample_config sample_env "/dev/rptun/a"
      ["rptun", "7", "/dev/rptun/a"] []).calls, is_device_call e = false :=
  cmd_rptun_once_unknown_verb sample_config sample_env "/dev/rptun/a"
    ["rptun", "7", "/dev/rptun/a"] [] "7" (by rfl) (by decide)

/-- Claim C10. When the verb is a documented one (with the value of `reset` and
the parameters of `ping` present, so that the device is opened) and
`open(path)` returns a negative value, `cmd_rptun_once` returns `ERROR`; its
calls are the `open` and the report of the invalid path, so neither an `ioctl`
nor a `close` is performed. -/
theorem cmd_rptun_once_open_fails (cfg : Config) (env : Env) (path : String)
    (argv : List String) (h : List Event) (verb : String) (code : Int)
    (hverb : argv[1]? = some verb) (hdoc : (verb, code) ∈ rptun_documented cfg)
    (hreset : verb = "reset" → 4 ≤ argv.length)
    (hping : verb = "ping" → 7 ≤ argv.length)
    (hopen : env.open_ h path 0 < 0) :
    (cmd_rptun_once cfg env path argv h).ret = some ERROR ∧
    (cmd_rptun_once cfg env path argv h).calls =
      [Event.open_ path 0, Event.nsh_output Fmt.g_fmtarginvalid [path]] ∧
    (∀ fd req arg, Event.ioctl fd req arg ∉ (cmd_rptun_once cfg env path argv h).calls) ∧
    (∀ fd, Event.close fd ∉ (cmd_rptun_once cfg env path argv h).calls) := by
  obtain ⟨val, hrun⟩ := cmd_rptun_once_valid cfg env path argv h verb code hverb hdoc hreset hping
  rw [hrun, cmd_rptun_once_ioctl_fail env path code val h hopen]
  simp

/-- Claim C10 at a concrete run: `rptun start /dev/rptun/b`, where the device cannot
be opened. -/
theorem cmd_rptun_once_open_fails_witness :
    (cmd_rptun_once sample_config sample_env "/dev/rptun/b"
      ["rptun", "start", "/dev/rptun/b"] []).ret = some ERROR ∧
    (cmd_rptun_once sample_config sample_env "/dev/rptun/b"
      ["rptun", "start", "/dev/rptun/b"] []).calls =
      [Event.open_ "/dev/rptun/b" 0, Event.nsh_output Fmt.g_fmtarginvalid ["/dev/rptun/b"]] ∧
    (∀ fd req arg, Event.ioctl fd req arg ∉ (cmd_rptun_once sample_config sample_env
      "/dev/rptun/b" ["rptun", "start", "/dev/rptun/b"] []).calls) ∧
    (∀ fd, Event.close fd ∉ (cmd_rptun_once sample_config sample_env
      "/dev/rptun/b" ["rptun", "start", "/dev/rptun/b"] []).calls) :=
  cmd_rptun_once_open_fails sample_config sample_env "/dev/rptun/b"
    ["rptun", "start", "/dev/rptun/b"] [] "start" sample_config.RPTUNIOC_START
    (by rfl) (by simp [rptun_documented]) (by simp) (by simp) (by decide)

/-! ## `atoi` on decimal literals -/

/-- The character of a decimal digit is a digit, and its code minus 48 is the
digit. -/
theorem digitChar_digit (d : Nat) (hd : d < 10) :
    (Nat.digitChar d).isDigit = true ∧ ((Nat.digitChar d).toNat : Int) - 48 = d := by
  interval_cases d <;> decide

/-- The digits that `Nat.toDigitsCore` puts in front of `ds` start with a digit
and are read back by `strtol_digits` as the number they were made from. -/
theorem strtol_digits_toDigitsCore (fuel : Nat) :
    ∀ (n : Nat) (ds : List Char), n < fuel →
      ∃ c cs k, Nat.toDigitsCore 10 fuel n ds = c :: cs ∧ c.isDigit = true ∧
        ∀ acc : Int, strtol_digits (c :: cs) acc = strtol_digits ds (acc * 10 ^ k + n) := by
  induction fuel with
  | zero => intro n ds hn; omega
  | succ fuel ih =>
    intro n ds hn
    have hd := digitChar_digit (n % 10) (Nat.mod_lt n (by decide))
    unfold Nat.toDigitsCore
    by_cases h0 : n / 10 = 0
    · refine ⟨Nat.digitChar (n % 10), ds, 1, by simp [h0], hd.1, ?_⟩
      intro acc
      have hn10 : n % 10 = n := Nat.mod_eq_of_lt (by omega)
      simp only [strtol_digits, hd.1, if_true, hd.2, pow_one]
      rw [hn10]
    · obtain ⟨c, cs, k, heq, hc, hval⟩ :=
        ih (n / 10) (Nat.digitChar (n % 10) :: ds) (by omega)
      refine ⟨c, cs, k + 1, by simp [h0, heq], hc, ?_⟩
      intro acc
      rw [hval acc]
      simp only [strtol_digits, hd.1, if_true, hd.2]
      congr 1
      have hdiv : ((n / 10 : Nat) : Int) * 10 + ((n % 10 : Nat) : Int) = (n : Int) := by
        have := Nat.div_add_mod n 10
        omega
      rw [pow_succ]
      linarith

/-- A string that starts with a digit is converted from its first character
on: there is no white space and no sign to skip. -/
theorem strtol10_digit_head (c : Char) (cs : List Char) (hc : c.isDigit = true) :
    strtol10 (c :: cs) = strtol_digits (c :: cs) 0 := by
  have hrange : 48 ≤ c.toNat ∧ c.toNat ≤ 57 := by
    simpa [Char.isDigit, Char.toNat, UInt32.le_def, Fin.le_def] using hc
  have hspace : isspace c = false := by
    have h1 : c ≠ ' ' := by
      intro h; rw [h] at hrange; revert hrange; decide
    simp only [isspace, Bool.or_eq_false_iff, decide_eq_false_iff_not, Bool.and_eq_false_imp,
      decide_eq_true_eq, not_le]
    exact ⟨h1, fun _ => by omega⟩
  have hminus : c ≠ '-' := by
    intro h; rw [h] at hrange; revert hrange; decide
  have hplus : c ≠ '+' := by
    intro h; rw [h] at hrange; revert hrange; decide
  unfold strtol10
  simp only [List.dropWhile, hspace]
  split
  · rename_i heq; simp at heq; exact absurd heq.1 hminus
  · rename_i heq; simp at heq; exact absurd heq.1 hplus
  · rfl

/-- The decimal literal of a natural number starts with a digit and is read
back by the decimal conversion as that number. -/
theorem strtol10_toString (n : Nat) :
    (∃ c cs, (toString n).data = c :: cs ∧ c.isDigit = true) ∧
    strtol10 (toString n).data = n := by
  obtain ⟨c, cs, k, heq, hc, hval⟩ := strtol_digits_toDigitsCore (n + 1) n [] (by omega)
  have hdata : (toString n).data = c :: cs := by
    show (Nat.repr n).data = c :: cs
    simp [Nat.repr, Nat.toDigits, heq, List.asString]
  refine ⟨⟨c, cs, hdata, hc⟩, ?_⟩
  rw [hdata, strtol10_digit_head c cs hc, hval 0]
  simp [strtol_digits]

/-- A value in the range of `int` is unchanged by the conversion to `int`. -/
theorem to_int_of_range (v : Int) (h0 : 0 ≤ v) (h1 : v ≤ INT_MAX) : to_int v = v := by
  simp only [INT_MAX, INT_BITS] at h1
  simp only [to_int, INT_BITS]
  norm_num at h1 ⊢
  omega

/-- The range of `long` holds the range of `int`. -/
theorem long_range (cfg : Config) : INT_MAX ≤ LONG_MAX cfg ∧ LONG_MIN cfg ≤ 0 := by
  unfold LONG_MAX LONG_MIN LONG_BITS INT_MAX INT_BITS
  split_ifs <;> norm_num

/-- A number in the range of `long` is what `strtol` returns. -/
theorem strtol_of_range (cfg : Config) (s : List Char) (h0 : LONG_MIN cfg ≤ strtol10 s)
    (h1 : strtol10 s ≤ LONG_MAX cfg) : strtol cfg s = strtol10 s := by
  unfold strtol
  rw [if_neg (by omega), if_neg (by omega)]

/-- `atoi` of the decimal literal of `n`, for `n` in the range of `int`. -/
theorem atoi_value_toString (cfg : Config) (n : Nat) (hn : (n : Int) ≤ INT_MAX) :
    atoi_value cfg (toString n) = n := by
  have hlong := long_range cfg
  rw [atoi_value, strtol_of_range cfg _ (by rw [(strtol10_toString n).2]; omega)
      (by rw [(strtol10_toString n).2]; omega),
    (strtol10_toString n).2, to_int_of_range _ (by omega) hn]

/-! ## `cmd_reboot` -/

/-- A string that starts with a digit equals no entry of `g_resetflag`: the
scan runs to the terminating NULL. -/
theorem resetflag_scan_digit_head (s : String) (c : Char) (cs : List Char)
    (hdata : s.data = c :: cs) (hc : c.isDigit = true) :
    resetflag_scan s g_resetflag 0 = g_resetflag.length := by
  have hne : ∀ flag ∈ g_resetflag, flag ≠ s := by
    intro flag hf heq
    subst heq
    simp only [g_resetflag, List.mem_cons, List.mem_singleton, List.not_mem_nil,
      or_false] at hf
    rcases hf with rfl | rfl | rfl | rfl | rfl | rfl <;>
      · simp only [List.cons.injEq] at hdata
        obtain ⟨h1, -⟩ := hdata
        subst h1
        revert hc
        decide
  have h1 := hne "reboot" (by simp [g_resetflag])
  have h2 := hne "assert" (by simp [g_resetflag])
  have h3 := hne "panic" (by simp [g_resetflag])
  have h4 := hne "bootloader" (by simp [g_resetflag])
  have h5 := hne "recovery" (by simp [g_resetflag])
  have h6 := hne "factory" (by simp [g_resetflag])
  simp [resetflag_scan, g_resetflag, h1, h2, h3, h4, h5, h6]

/-- Claim C3 fails for a decimal literal beyond the range of `int`: in
`reboot 4294967303` the argument equals no entry of the table and is the
decimal literal of 4294967303, yet the value passed to
`boardctl(BOARDIOC_RESET, .)` is a value of type `int`, not 4294967303. -/
theorem cmd_reboot_literal_beyond_int :
    toString (4294967303 : Nat) = "4294967303" ∧
    "4294967303" ∉ g_resetflag ∧
    (∃ v : Int, v ≤ INT_MAX ∧ v ≠ 4294967303 ∧
      (cmd_reboot sample_config sample_env ["reboot", "4294967303"] []).calls =
        [Event.boardctl sample_config.BOARDIOC_RESET (BoardctlArg.val v),
         Event.nsh_error Fmt.g_fmtcmdfailed ["reboot", "boardctl"]]) ∧
    Event.boardctl sample_config.BOARDIOC_RESET (BoardctlArg.val 4294967303) ∉
      (cmd_reboot sample_config sample_env ["reboot", "4294967303"] []).calls :=
  ⟨by decide, by decide, ⟨7, by decide, by decide, by decide⟩, by decide⟩

/-- Claim C3, amended. In `cmd_reboot` with `argc > 1`: for every entry of the
reset-flag table (reboot, assert, panic, bootloader, recovery, factory) given
as `argv[1]`, the value passed to `boardctl(BOARDIOC_RESET, .)` is the index of
the entry; for every decimal literal of a number `n` in the range of `int`
(`n ≤ INT_MAX`) given as `argv[1]`, the value passed is `n`. -/
theorem cmd_reboot_flag_value (cfg : Config) (env : Env) (argv0 : String)
    (rest : List String) (h : List Event) :
    (∀ (i : Nat) (hi : i < g_resetflag.length),
      (cmd_reboot cfg env (argv0 :: g_resetflag[i] :: rest) h).calls =
        [Event.boardctl cfg.BOARDIOC_RESET (BoardctlArg.val i),
         Event.nsh_error Fmt.g_fmtcmdfailed [argv0, "boardctl"]]) ∧
    (∀ n : Nat, (n : Int) ≤ INT_MAX →
      (cmd_reboot cfg env (argv0 :: toString n :: rest) h).calls =
        [Event.boardctl cfg.BOARDIOC_RESET (BoardctlArg.val n),
         Event.nsh_error Fmt.g_fmtcmdfailed [argv0, "boardctl"]]) := by
  constructor
  · intro i hi
    have hi6 : i < 6 := by simpa [g_resetflag] using hi
    interval_cases i <;>
      simp [cmd_reboot, boardctl_returned, bind_run, argv_at_run, resetflag_scan, g_resetflag]
  · intro n hn
    obtain ⟨⟨c, cs, hdata, hc⟩, -⟩ := strtol10_toString n
    have hscan := resetflag_scan_digit_head (toString n) c cs hdata hc
    simp [cmd_reboot, boardctl_returned, bind_run, argv_at_run, hscan,
      atoi_value_toString cfg n hn]

/-- Claim C3, amended, at concrete runs: `reboot panic` passes 2 and `reboot 7`
passes 7. -/
theorem cmd_reboot_flag_value_witness :
    (cmd_reboot sample_config sample_env ["reboot", "panic"] []).calls =
      [Event.boardctl sample_config.BOARDIOC_RESET (BoardctlArg.val 2),
       Event.nsh_error Fmt.g_fmtcmdfailed ["reboot", "boardctl"]] ∧
    (cmd_reboot sample_config sample_env ["reboot", "7"] []).calls =
      [Event.boardctl sample_config.BOARDIOC_RESET (BoardctlArg.val 7),
       Event.nsh_error Fmt.g_fmtcmdfailed ["reboot", "boardctl"]] :=
  ⟨(cmd_reboot_flag_value sample_config sample_env "reboot" [] []).1 2 (by decide),
   (cmd_reboot_flag_value sample_config sample_env "reboot" [] []).2 7 (by decide)⟩

/-! ## `cmd_uname` -/

theorem mask_testBit (k j : Nat) : (1 <<< k).testBit j = decide (k = j) := by
  rw [Nat.one_shiftLeft, Nat.testBit_two_pow]

theorem and_mask_ne_zero (set i : Nat) : set &&& (1 <<< i) ≠ 0 ↔ set.testBit i = true := by
  constructor
  · intro hne
    obtain ⟨j, hj⟩ := Nat.ne_zero_implies_bit_true hne
    simp only [Nat.testBit_and, mask_testBit, Bool.and_eq_true, decide_eq_true_eq] at hj
    obtain ⟨h1, h2⟩ := hj
    subst h2
    exact h1
  · intro hbit heq
    have : (set &&& (1 <<< i)).testBit i = true := by
      simp [Nat.testBit_and, mask_testBit, hbit]
    rw [heq] at this
    simp at this

theorem clear_mask_testBit (set i j : Nat) (hi : i < INT_BITS) (hset : set < 2 ^ INT_BITS) :
    (set &&& (UINT_MAX - 1 <<< i)).testBit j = (set.testBit j && decide (i ≠ j)) := by
  have hlt : 2 ^ i < 2 ^ INT_BITS := Nat.pow_lt_pow_right (by decide) hi
  have heq : UINT_MAX - 1 <<< i = 2 ^ INT_BITS - (2 ^ i + 1) := by
    rw [Nat.one_shiftLeft, UINT_MAX]; omega
  rw [Nat.testBit_and, heq, Nat.testBit_two_pow_sub_succ hlt, Nat.testBit_two_pow]
  by_cases hj : j < INT_BITS
  · simp [hj]
  · have : set.testBit j = false :=
      Nat.testBit_lt_two_pow (lt_of_lt_of_le hset (Nat.pow_le_pow_right (by decide) (by omega)))
    simp [this]

theorem puts_masks_append (a b : List Event) :
    puts_masks (a ++ b) = puts_masks a ++ puts_masks b := by
  simp [puts_masks, List.filterMap_append]

theorem cmd_uname_str_some (cfg : Config) (info : utsname) (j : Nat) (hj : j < 7)
    (hnet : j = 1 → cfg.CONFIG_NET = true) : ∃ str, cmd_uname_str cfg info j = some str := by
  interval_cases j <;> simp_all [cmd_uname_str]

theorem cmd_uname_loop_run (cfg : Config) (argv : List String) (info : utsname) (n : Nat) :
    ∀ (i set : Nat) (first : Bool) (stream : lib_memoutstream_s) (h : List Event),
      7 ≤ i + n →
      (∀ j, set.testBit j = true → i ≤ j ∧ j < 7 ∧ (j = 1 → cfg.CONFIG_NET = true)) →
      (∃ s, (cmd_uname_loop cfg argv info n i set first stream h).ret = some (some s)) ∧
      puts_masks (cmd_uname_loop cfg argv info n i set first stream h).calls =
        ((List.range' i (7 - i)).filter (fun j => set.testBit j)).map (fun j => 1 <<< j) := by
  induction n with
  | zero =>
    intro i set first stream h hfuel hbits
    have hset : set = 0 := by
      by_contra hne
      obtain ⟨j, hj⟩ := Nat.ne_zero_implies_bit_true hne
      have := hbits j hj
      omega
    have h7 : 7 - i = 0 := by omega
    simp [cmd_uname_loop, hset, h7, puts_masks]
  | succ n ih =>
    intro i set first stream h hfuel hbits
    rw [cmd_uname_loop]
    by_cases hset : set = 0
    · subst hset
      simp [puts_masks]
    · by_cases hbit : set.testBit i = true
      · obtain ⟨-, hi7, hnet⟩ := hbits i hbit
        obtain ⟨str, hstr⟩ := cmd_uname_str_some cfg info i hi7 hnet
        have hlt : set < 2 ^ INT_BITS := by
          have h7 : set < 2 ^ 7 := by
            apply Nat.lt_pow_two_of_testBit
            intro j hj
            by_contra hne
            have := hbits j (by simpa using hne)
            omega
          exact lt_of_lt_of_le h7 (by decide)
        have hi32 : i < INT_BITS := by simp only [INT_BITS]; omega
        have hbits1 : ∀ j, (set &&& (UINT_MAX - 1 <<< i)).testBit j = true →
            i + 1 ≤ j ∧ j < 7 ∧ (j = 1 → cfg.CONFIG_NET = true) := by
          intro j hj
          rw [clear_mask_testBit set i j hi32 hlt] at hj
          simp only [Bool.and_eq_true, decide_eq_true_eq] at hj
          have hb := hbits j hj.1
          exact ⟨by omega, hb.2.1, hb.2.2⟩
        have hrange : List.range' i (7 - i) = i :: List.range' (i + 1) (7 - (i + 1)) := by
          have : 7 - i = (7 - (i + 1)) + 1 := by omega
          rw [this, List.range'_succ]
        have hfilter : (List.range' (i + 1) (7 - (i + 1))).filter
              (fun j => (set &&& (UINT_MAX - 1 <<< i)).testBit j) =
            (List.range' (i + 1) (7 - (i + 1))).filter (fun j => set.testBit j) := by
          apply List.filter_congr
          intro j hj
          rw [clear_mask_testBit set i j hi32 hlt]
          have : i ≠ j := by
            simp only [List.mem_range'_1] at hj
            omega
          simp [this]
        have key1 := fun S H => (ih (i + 1) (set &&& (UINT_MAX - 1 <<< i)) false S H
          (by omega) hbits1).1
        have key2 := fun S H => (ih (i + 1) (set &&& (UINT_MAX - 1 <<< i)) false S H
          (by omega) hbits1).2
        simp only [hset, if_false, (and_mask_ne_zero set i).mpr hbit, ne_eq, not_false_eq_true,
          if_true, hstr]
        cases first
        · simp only [bind_run, lib_stream_putc, lib_stream_puts, call_run, Bool.false_eq_true,
            if_false]
          refine ⟨key1 _ _, ?_⟩
          rw [puts_masks_append, puts_masks_append, key2, hrange, hfilter]
          simp [puts_masks, hbit]
        · simp only [bind_run, lib_stream_puts, call_run, pure_run, if_true, List.append_nil,
            List.nil_append]
          refine ⟨key1 _ _, ?_⟩
          rw [puts_masks_append, key2, hrange, hfilter]
          simp [puts_masks, hbit]
      · have hzero : ¬ (set &&& (1 <<< i) ≠ 0) := fun hne => hbit ((and_mask_ne_zero set i).mp hne)
        have hbits1 : ∀ j, set.testBit j = true →
            i + 1 ≤ j ∧ j < 7 ∧ (j = 1 → cfg.CONFIG_NET = true) := by
          intro j hj
          have hb := hbits j hj
          have hne : j ≠ i := by
            intro heq; subst heq; exact hbit hj
          exact ⟨by omega, hb.2.1, hb.2.2⟩
        have key := ih (i + 1) set first stream h (by omega) hbits1
        simp only [hset, if_false, hzero]
        refine ⟨key.1, ?_⟩
        rw [key.2]
        by_cases hi7 : i < 7
        · have hrange : List.range' i (7 - i) = i :: List.range' (i + 1) (7 - (i + 1)) := by
            have : 7 - i = (7 - (i + 1)) + 1 := by omega
            rw [this, List.range'_succ]
          simp [hrange, hbit]
        · have h1 : 7 - i = 0 := by omega
          have h2 : 7 - (i + 1) = 0 := by omega
          simp [h1, h2]

/-- The switch of the option loop has no label for exactly the characters that
are not recognized flags. -/
theorem cmd_uname_switch_eq_none (cfg : Config) (option : Char) (set : Nat) :
    cmd_uname_switch cfg option set = none ↔ option ∉ uname_flags cfg := by
  unfold cmd_uname_switch uname_flags
  by_cases hnet : cfg.CONFIG_NET = true
  · simp only [hnet, true_and, if_true]
    split_ifs <;> first
      | (simp_all; done)
      | (simp_all; tauto)
  · simp only [hnet, false_and, if_false]
    split_ifs <;> first
      | (simp_all; done)
      | (simp_all; tauto)

/-- The option loop: it yields the composed `set`, sets `badarg` when an
option has no label, and its only calls are the reports of such options. -/
theorem cmd_uname_options_run (cfg : Config) (argv : List String) (options : List Char) :
    ∀ (set : Nat) (badarg : Bool) (h : List Event),
      cmd_uname_options cfg argv options set badarg h =
        ⟨some (cmd_uname_compose cfg options set,
            badarg || options.any (fun o => decide (o ∉ uname_flags cfg))),
          (options.filter (fun o => decide (o ∉ uname_flags cfg))).map
            (fun _ => Event.nsh_error Fmt.g_fmtarginvalid argv[0]?.toList)⟩ := by
  induction options with
  | nil => intro set badarg h; simp [cmd_uname_options, cmd_uname_compose]
  | cons o os ih =>
    intro set badarg h
    rw [cmd_uname_options, cmd_uname_compose]
    cases hsw : cmd_uname_switch cfg o set with
    | none =>
      have hbad : o ∉ uname_flags cfg := (cmd_uname_switch_eq_none cfg o set).mp hsw
      simp [bind_run, argv_at_run, ih, hbad]
    | some set1 =>
      have hok : o ∈ uname_flags cfg := by
        by_contra hbad
        rw [(cmd_uname_switch_eq_none cfg o set).mpr hbad] at hsw
        exact absurd hsw (by simp)
      simp [ih, hok]

/-- The values `getopt` returns for a sequence of single flags `-c`: each flag
that is in the option string, and `?` for each other flag. -/
theorem getopt_all_flags (optstring : List Char) (flags : List Char)
    (hdash : ∀ c ∈ flags, c ≠ '-') :
    getopt_all optstring (flags.map flag_arg) =
      flags.map (fun c => if c ∈ optstring then c else '?') := by
  induction flags with
  | nil => rfl
  | cons c cs ih =>
    have hc : c ≠ '-' := hdash c (by simp)
    have ih1 := ih (fun d hd => hdash d (by simp [hd]))
    simp [getopt_all, flag_arg, hc, ih1]

/-- Every recognized flag is in the option string. -/
theorem uname_flags_subset (cfg : Config) (c : Char) (hc : c ∈ uname_flags cfg) :
    c ∈ uname_optstring ∧ c ≠ '-' := by
  unfold uname_flags at hc
  split_ifs at hc <;>
    · simp only [List.mem_cons, List.mem_singleton, List.not_mem_nil, or_false] at hc
      rcases hc with rfl | rfl | rfl | rfl | rfl | rfl | rfl | rfl | rfl <;> decide

/-- For recognized flags `getopt` returns the flags themselves. -/
theorem getopt_all_recognized (cfg : Config) (flags : List Char)
    (hrec : ∀ c ∈ flags, c ∈ uname_flags cfg) :
    getopt_all uname_optstring (flags.map flag_arg) = flags := by
  rw [getopt_all_flags uname_optstring flags (fun c hc => (uname_flags_subset cfg c (hrec c hc)).2)]
  conv_rhs => rw [← List.map_id flags]
  apply List.map_congr_left
  intro c hc
  simp [(uname_flags_subset cfg c (hrec c hc)).1]

/-- The canonical selectors are the masks of the bits 0 to 6 in increasing
order. -/
theorem uname_canonical_eq : uname_canonical = (List.range' 0 7).map (fun j => 1 <<< j) := by
  decide

/-- Selecting from the canonical list by mask is selecting the bits that are
set. -/
theorem uname_canonical_filter (set : Nat) :
    uname_canonical.filter (fun m => decide (set &&& m ≠ 0)) =
      ((List.range' 0 7).filter (fun j => set.testBit j)).map (fun j => 1 <<< j) := by
  rw [uname_canonical_eq, List.filter_map]
  congr 1
  apply List.filter_congr
  intro j _
  by_cases hbit : set.testBit j = true
  · simp [hbit, (and_mask_ne_zero set j).mpr hbit]
  · have hz : set &&& (1 <<< j) = 0 := by
      by_contra hne
      exact hbit ((and_mask_ne_zero set j).mp hne)
    simp [hbit, hz]

/-- What `uname_set_ok` says bit by bit. -/
theorem uname_set_ok_iff (cfg : Config) (set : Nat) :
    uname_set_ok cfg set = true ↔
      ∀ j, set.testBit j = true → j < 7 ∧ (j = 1 → cfg.CONFIG_NET = true) := by
  simp only [uname_set_ok, Bool.and_eq_true, decide_eq_true_eq, Bool.or_eq_true,
    Bool.not_eq_true']
  constructor
  · rintro ⟨hlt, hnet⟩ j hj
    refine ⟨?_, ?_⟩
    · by_contra hge
      have hle : 2 ^ 7 ≤ 2 ^ j := Nat.pow_le_pow_right (by decide) (by omega)
      have := Nat.testBit_lt_two_pow (lt_of_lt_of_le hlt hle)
      rw [this] at hj
      exact absurd hj (by decide)
    · intro h1
      subst h1
      rcases hnet with hnet | hnet
      · rw [hnet] at hj; exact absurd hj (by decide)
      · exact hnet
  · intro hall
    refine ⟨?_, ?_⟩
    · apply Nat.lt_pow_two_of_testBit
      intro j hj
      by_contra hne
      have := (hall j (by simpa using hne)).1
      omega
    · by_cases h1 : set.testBit 1 = true
      · exact Or.inr ((hall 1 h1).2 rfl)
      · exact Or.inl (by simpa using h1)

/-- The switch of the option loop keeps `set` within the selector bits. -/
theorem cmd_uname_switch_ok (cfg : Config) (option : Char) (set set1 : Nat)
    (hset : uname_set_ok cfg set = true) (hsw : cmd_uname_switch cfg option set = some set1) :
    uname_set_ok cfg set1 = true := by
  rw [uname_set_ok_iff] at hset ⊢
  have hall : ∀ j, (UNAME_ALL cfg).testBit j = true →
      j < 7 ∧ (j = 1 → cfg.CONFIG_NET = true) := by
    intro j hj
    unfold UNAME_ALL at hj
    split_ifs at hj with hnet
    · simp only [UNAME_KERNEL, UNAME_NODE, UNAME_RELEASE, UNAME_VERSION, UNAME_MACHINE,
        UNAME_PLATFORM, Nat.testBit_or, mask_testBit, Bool.or_eq_true, decide_eq_true_eq] at hj
      exact ⟨by omega, fun _ => hnet⟩
    · simp only [UNAME_KERNEL, UNAME_RELEASE, UNAME_VERSION, UNAME_MACHINE,
        UNAME_PLATFORM, Nat.testBit_or, mask_testBit, Bool.or_eq_true, decide_eq_true_eq] at hj
      exact ⟨by omega, fun h1 => by omega⟩
  have hor : ∀ k, k < 7 → (k = 1 → cfg.CONFIG_NET = true) →
      ∀ j, (set ||| 1 <<< k).testBit j = true → j < 7 ∧ (j = 1 → cfg.CONFIG_NET = true) := by
    intro k hk hnet j hj
    simp only [Nat.testBit_or, mask_testBit, Bool.or_eq_true, decide_eq_true_eq] at hj
    rcases hj with hj | hj
    · exact hset j hj
    · subst hj; exact ⟨hk, hnet⟩
  unfold cmd_uname_switch at hsw
  split_ifs at hsw with h1 h2 h3 h4 h5 h6 h7 h8 h9
  all_goals simp only [Option.some.injEq] at hsw
  all_goals subst hsw
  · exact hall
  · exact hor 0 (by omega) (by omega)
  · exact hor 1 (by omega) (fun _ => h3.1)
  · exact hor 2 (by omega) (by omega)
  · exact hor 3 (by omega) (by omega)
  · exact hor 4 (by omega) (by omega)
  · exact hor 6 (by omega) (by omega)
  · exact hset
  · exact hor 5 (by omega) (by omega)

/-- The option loop keeps `set` within the selector bits. -/
theorem cmd_uname_compose_ok (cfg : Config) (options : List Char) :
    ∀ set, uname_set_ok cfg set = true →
      uname_set_ok cfg (cmd_uname_compose cfg options set) = true := by
  induction options with
  | nil => intro set hset; exact hset
  | cons o os ih =>
    intro set hset
    rw [cmd_uname_compose]
    apply ih
    cases hsw : cmd_uname_switch cfg o set with
    | none => exact hset
    | some set1 => exact cmd_uname_switch_ok cfg o set set1 hset hsw

/-- The selector set rendered by `cmd_uname` is not empty and lies within the
selector bits. -/
theorem cmd_uname_set_ok (cfg : Config) (argv : List String) :
    cmd_uname_set cfg argv ≠ 0 ∧ uname_set_ok cfg (cmd_uname_set cfg argv) = true := by
  unfold cmd_uname_set
  split_ifs with h0
  · refine ⟨by decide, ?_⟩
    have h1 : UNAME_KERNEL.testBit 1 = false := by decide
    simp only [uname_set_ok, h1, Bool.not_false, Bool.true_or, Bool.and_true, decide_eq_true_eq]
    decide
  · exact ⟨h0, cmd_uname_compose_ok cfg _ 0 (by simp [uname_set_ok])⟩

/-- The run of `cmd_uname` when every option returned by `getopt` is a
recognized flag: no field is emitted when `uname` fails; otherwise `OK` is
returned and the fields emitted are the selectors of the composed set, in
canonical order. -/
theorem cmd_uname_run (cfg : Config) (env : Env) (argv : List String) (h : List Event)
    (hrec : ∀ o ∈ getopt_all uname_optstring argv.tail, o ∈ uname_flags cfg) :
    ((env.uname h).1 < 0 → (cmd_uname cfg env argv h).ret = some ERROR ∧
      puts_masks (cmd_uname cfg env argv h).calls = []) ∧
    (0 ≤ (env.uname h).1 → (cmd_uname cfg env argv h).ret = some OK ∧
      puts_masks (cmd_uname cfg env argv h).calls =
        uname_canonical.filter (fun m => decide (cmd_uname_set cfg argv &&& m ≠ 0))) := by
  have hany : (getopt_all uname_optstring argv.tail).any
      (fun o => decide (o ∉ uname_flags cfg)) = false := by
    simp only [List.any_eq_false, decide_eq_true_eq, not_not]
    exact hrec
  have hfil : (getopt_all uname_optstring argv.tail).filter
      (fun o => decide (o ∉ uname_flags cfg)) = [] := by
    simp only [List.filter_eq_nil_iff, decide_eq_true_eq, not_not]
    exact hrec
  have hopt := cmd_uname_options_run cfg argv (getopt_all uname_optstring argv.tail) 0 false h
  rw [hany, hfil] at hopt
  simp only [Bool.or_false, List.map_nil] at hopt
  have hset : (if cmd_uname_compose cfg (getopt_all uname_optstring argv.tail) 0 = 0
      then UNAME_KERNEL
      else cmd_uname_compose cfg (getopt_all uname_optstring argv.tail) 0) =
      cmd_uname_set cfg argv := rfl
  have hok := (uname_set_ok_iff cfg _).mp (cmd_uname_set_ok cfg argv).2
  have hloop := fun S H => cmd_uname_loop_run cfg argv (env.uname h).2 (INT_BITS - 1) 0
    (cmd_uname_set cfg argv) true S H (by simp [INT_BITS])
    (fun j hj => ⟨by omega, (hok j hj).1, (hok j hj).2⟩)
  constructor
  · intro hneg
    unfold cmd_uname
    simp [bind_run, hopt, hneg, argv_at_run, puts_masks]
  · intro hpos
    have hneg : ¬ (env.uname h).1 < 0 := by omega
    unfold cmd_uname
    simp only [bind_run, hopt, hneg, call_run, hset, List.append_nil, List.nil_append,
      Bool.false_eq_true, if_false]
    obtain ⟨s, hs⟩ := (hloop (lib_memoutstream cfg.sizeof_utsname) (h ++ [Event.uname])).1
    have hmasks := (hloop (lib_memoutstream cfg.sizeof_utsname) (h ++ [Event.uname])).2
    simp only [hs, lib_stream_putc, call_run, pure_run, List.append_nil]
    refine ⟨rfl, ?_⟩
    rw [puts_masks_append, puts_masks_append, hmasks, uname_canonical_filter]
    simp [puts_masks]

/-- The run of `cmd_uname` when `getopt` returns an option without a label in
the switch: `ERROR`, and one report per such option as the only calls. -/
theorem cmd_uname_badarg (cfg : Config) (env : Env) (argv : List String) (h : List Event)
    (hbad : ∃ o ∈ getopt_all uname_optstring argv.tail, o ∉ uname_flags cfg) :
    cmd_uname cfg env argv h =
      ⟨some ERROR,
       ((getopt_all uname_optstring argv.tail).filter
          (fun o => decide (o ∉ uname_flags cfg))).map
          (fun _ => Event.nsh_error Fmt.g_fmtarginvalid argv[0]?.toList)⟩ := by
  have hany : (getopt_all uname_optstring argv.tail).any
      (fun o => decide (o ∉ uname_flags cfg)) = true := by
    simp only [List.any_eq_true, decide_eq_true_eq]
    exact hbad
  have hopt := cmd_uname_options_run cfg argv (getopt_all uname_optstring argv.tail) 0 false h
  rw [hany] at hopt
  unfold cmd_uname
  simp [bind_run, hopt]

/-- On the composed set `UNAME_ALL` every recognized flag leaves the set as it
is. -/
theorem cmd_uname_switch_all (cfg : Config) (c : Char) (hc : c ∈ uname_flags cfg) :
    cmd_uname_switch cfg c (UNAME_ALL cfg) = some (UNAME_ALL cfg) := by
  unfold uname_flags at hc
  by_cases hnet : cfg.CONFIG_NET = true
  · have hall : UNAME_ALL cfg = 63 := by simp [UNAME_ALL, hnet]; decide
    simp only [hnet, if_true, List.mem_cons, List.mem_singleton, List.not_mem_nil,
      or_false] at hc
    rw [hall]
    rcases hc with rfl | rfl | rfl | rfl | rfl | rfl | rfl | rfl | rfl <;>
      simp [cmd_uname_switch, hnet, hall] <;> decide
  · have hall : UNAME_ALL cfg = 61 := by simp [UNAME_ALL, hnet]; decide
    simp only [hnet, Bool.false_eq_true, if_false, List.mem_cons, List.mem_singleton,
      List.not_mem_nil, or_false] at hc
    rw [hall]
    rcases hc with rfl | rfl | rfl | rfl | rfl | rfl | rfl | rfl <;>
      simp [cmd_uname_switch, hnet, hall] <;> decide

/-- Once the composed set is `UNAME_ALL`, recognized flags keep it so. -/
theorem cmd_uname_compose_all (cfg : Config) (flags : List Char)
    (hrec : ∀ c ∈ flags, c ∈ uname_flags cfg) :
    cmd_uname_compose cfg flags (UNAME_ALL cfg) = UNAME_ALL cfg := by
  induction flags with
  | nil => rfl
  | cons c cs ih =>
    rw [cmd_uname_compose, cmd_uname_switch_all cfg c (hrec c (by simp))]
    exact ih (fun d hd => hrec d (by simp [hd]))

/-- The selector set rendered for a sequence of recognized single flags. -/
theorem cmd_uname_set_flags (cfg : Config) (argv0 : String) (flags : List Char)
    (hrec : ∀ c ∈ flags, c ∈ uname_flags cfg) :
    cmd_uname_set cfg (argv0 :: flags.map flag_arg) =
      if cmd_uname_compose cfg flags 0 = 0 then UNAME_KERNEL
      else cmd_uname_compose cfg flags 0 := by
  simp only [cmd_uname_set, List.tail_cons, getopt_all_recognized cfg flags hrec]

/-- Claim C6. With `CONFIG_NET`, for every flag sequence that starts with `-a` and
continues with any of the flags s, o, n, r, v, m, p, i, a, the selector set
composed by `cmd_uname` is the one composed for `-a` alone, the fields emitted
are the same, and the unknown marker is not among them; in particular `-a -p`
composes the same set as `-a`. -/
theorem cmd_uname_all_absorbs (cfg : Config) (env : Env) (argv0 : String)
    (rest : List Char) (h : List Event) (hnet : cfg.CONFIG_NET = true)
    (hrest : ∀ c ∈ rest, c ∈ ['s', 'o', 'n', 'r', 'v', 'm', 'p', 'i', 'a']) :
    cmd_uname_set cfg (argv0 :: "-a" :: rest.map flag_arg) = cmd_uname_set cfg [argv0, "-a"] ∧
    puts_masks (cmd_uname cfg env (argv0 :: "-a" :: rest.map flag_arg) h).calls =
      puts_masks (cmd_uname cfg env [argv0, "-a"] h).calls ∧
    UNAME_UNKNOWN ∉ puts_masks (cmd_uname cfg env (argv0 :: "-a" :: rest.map flag_arg) h).calls ∧
    cmd_uname_set cfg [argv0, "-a", "-p"] = cmd_uname_set cfg [argv0, "-a"] := by
  have hflags : uname_flags cfg = ['a', 's', 'o', 'n', 'r', 'v', 'm', 'p', 'i'] := by
    simp [uname_flags, hnet]
  have hne : UNAME_ALL cfg ≠ 0 := by rw [UNAME_ALL, if_pos hnet]; decide
  have hset : ∀ fl : List Char, (∀ c ∈ fl, c ∈ ['s', 'o', 'n', 'r', 'v', 'm', 'p', 'i', 'a']) →
      (∀ c ∈ 'a' :: fl, c ∈ uname_flags cfg) ∧
      cmd_uname_set cfg (argv0 :: ('a' :: fl).map flag_arg) = UNAME_ALL cfg := by
    intro fl hfl
    have hrec : ∀ c ∈ fl, c ∈ uname_flags cfg := by
      intro c hc
      have := hfl c hc
      rw [hflags]
      simp only [List.mem_cons, List.mem_singleton, List.not_mem_nil, or_false] at this ⊢
      tauto
    have hrec1 : ∀ c ∈ 'a' :: fl, c ∈ uname_flags cfg := by
      intro c hc
      rcases List.mem_cons.mp hc with rfl | hc
      · rw [hflags]; decide
      · exact hrec c hc
    refine ⟨hrec1, ?_⟩
    rw [cmd_uname_set_flags cfg argv0 _ hrec1, cmd_uname_compose]
    have hsw : cmd_uname_switch cfg 'a' 0 = some (UNAME_ALL cfg) := by simp [cmd_uname_switch]
    simp [hsw, cmd_uname_compose_all cfg fl hrec, hne]
  obtain ⟨hrec1, hset1⟩ := hset rest hrest
  obtain ⟨hrec0, hset0⟩ := hset [] (by simp)
  obtain ⟨-, hsetp⟩ := hset ['p'] (by simp)
  have hget : ∀ fl : List Char, (∀ c ∈ fl, c ∈ uname_flags cfg) →
      ∀ o ∈ getopt_all uname_optstring (argv0 :: fl.map flag_arg).tail, o ∈ uname_flags cfg := by
    intro fl hfl o ho
    rw [List.tail_cons, getopt_all_recognized cfg fl hfl] at ho
    exact hfl o ho
  have hrun1 := cmd_uname_run cfg env (argv0 :: ('a' :: rest).map flag_arg) h (hget _ hrec1)
  have hrun0 := cmd_uname_run cfg env (argv0 :: ['a'].map flag_arg) h (hget _ hrec0)
  rw [hset1] at hrun1
  rw [hset0] at hrun0
  have hmasks : puts_masks (cmd_uname cfg env (argv0 :: ('a' :: rest).map flag_arg) h).calls =
      puts_masks (cmd_uname cfg env (argv0 :: ['a'].map flag_arg) h).calls := by
    by_cases hu : (env.uname h).1 < 0
    · rw [(hrun1.1 hu).2, (hrun0.1 hu).2]
    · rw [(hrun1.2 (by omega)).2, (hrun0.2 (by omega)).2]
  refine ⟨hset1.trans hset0.symm, hmasks, ?_, hsetp.trans hset0.symm⟩
  by_cases hu : (env.uname h).1 < 0
  · rw [show (argv0 :: "-a" :: rest.map flag_arg) = (argv0 :: ('a' :: rest).map flag_arg) from rfl,
      (hrun1.1 hu).2]
    simp
  · rw [show (argv0 :: "-a" :: rest.map flag_arg) = (argv0 :: ('a' :: rest).map flag_arg) from rfl,
      (hrun1.2 (by omega)).2]
    have hall : UNAME_ALL cfg = 63 := by simp [UNAME_ALL, hnet]; decide
    rw [hall]
    decide

/-- Claim C6 at a concrete run: `uname -a -p` against `uname -a`. -/
theorem cmd_uname_all_absorbs_witness :
    cmd_uname_set sample_config ["uname", "-a", "-p"] = cmd_uname_set sample_config ["uname", "-a"] ∧
    puts_masks (cmd_uname sample_config sample_env ["uname", "-a", "-p"] []).calls =
      puts_masks (cmd_uname sample_config sample_env ["uname", "-a"] []).calls ∧
    UNAME_UNKNOWN ∉ puts_masks (cmd_uname sample_config sample_env ["uname", "-a", "-p"] []).calls :=
  ⟨(cmd_uname_all_absorbs sample_config sample_env "uname" ['p'] [] rfl (by decide)).1,
   (cmd_uname_all_absorbs sample_config sample_env "uname" ['p'] [] rfl (by decide)).2.1,
   (cmd_uname_all_absorbs sample_config sample_env "uname" ['p'] [] rfl (by decide)).2.2.1⟩

/-- Claim C8. For every sequence of flags `-c` (none of them the end-of-options
marker `--`) that contains a flag `cmd_uname` does not recognize, wherever it
stands, `cmd_uname` returns `ERROR`; its only calls are reports of an invalid
argument, so `uname()` is not called and nothing is written with `nsh_write`. -/
theorem cmd_uname_unrecognized (cfg : Config) (env : Env) (argv0 : String)
    (flags : List Char) (h : List Event)
    (hdash : ∀ c ∈ flags, c ≠ '-') (hbad : ∃ c ∈ flags, c ∉ uname_flags cfg) :
    (cmd_uname cfg env (argv0 :: flags.map flag_arg) h).ret = some ERROR ∧
    (∀ e ∈ (cmd_uname cfg env (argv0 :: flags.map flag_arg) h).calls,
      e = Event.nsh_error Fmt.g_fmtarginvalid [argv0]) ∧
    Event.uname ∉ (cmd_uname cfg env (argv0 :: flags.map flag_arg) h).calls ∧
    (∀ buffer, Event.nsh_write buffer ∉ (cmd_uname cfg env (argv0 :: flags.map flag_arg) h).calls) ∧
    puts_masks (cmd_uname cfg env (argv0 :: flags.map flag_arg) h).calls = [] := by
  have hq : '?' ∉ uname_flags cfg := by unfold uname_flags; split_ifs <;> decide
  have hbad1 : ∃ o ∈ getopt_all uname_optstring (argv0 :: flags.map flag_arg).tail,
      o ∉ uname_flags cfg := by
    obtain ⟨c, hc, hcbad⟩ := hbad
    rw [List.tail_cons, getopt_all_flags uname_optstring flags hdash]
    refine ⟨if c ∈ uname_optstring then c else '?', List.mem_map.mpr ⟨c, hc, rfl⟩, ?_⟩
    split_ifs
    · exact hcbad
    · exact hq
  rw [cmd_uname_badarg cfg env _ h hbad1]
  have hall : ∀ e ∈ ((getopt_all uname_optstring (argv0 :: flags.map flag_arg).tail).filter
        (fun o => decide (o ∉ uname_flags cfg))).map
        (fun _ => Event.nsh_error Fmt.g_fmtarginvalid (argv0 :: flags.map flag_arg)[0]?.toList),
      e = Event.nsh_error Fmt.g_fmtarginvalid [argv0] := by
    intro e he
    obtain ⟨o, -, ho⟩ := List.mem_map.mp he
    rw [← ho]
    simp
  refine ⟨rfl, hall, ?_, ?_, ?_⟩
  · intro hin
    have := hall _ hin
    simp at this
  · intro buffer hin
    have := hall _ hin
    simp at this
  · simp only [puts_masks, List.filterMap_eq_nil_iff]
    intro e he
    rw [hall e he]

/-- Claim C8 at a concrete run: `uname -r -x -m`, an unrecognized flag between two
recognized ones. -/
theorem cmd_uname_unrecognized_witness :
    (cmd_uname sample_config sample_env ["uname", "-r", "-x", "-m"] []).ret = some ERROR ∧
    (∀ e ∈ (cmd_uname sample_config sample_env ["uname", "-r", "-x", "-m"] []).calls,
      e = Event.nsh_error Fmt.g_fmtarginvalid ["uname"]) ∧
    Event.uname ∉ (cmd_uname sample_config sample_env ["uname", "-r", "-x", "-m"] []).calls ∧
    (∀ buffer, Event.nsh_write buffer ∉
      (cmd_uname sample_config sample_env ["uname", "-r", "-x", "-m"] []).calls) ∧
    puts_masks (cmd_uname sample_config sample_env ["uname", "-r", "-x", "-m"] []).calls = [] :=
  cmd_uname_unrecognized sample_config sample_env "uname" ['r', 'x', 'm'] []
    (by decide) (by decide)

/-! ## Batch dispatch -/

section exec_laws

variable {α β γ : Type}

/-- Running a piece and returning its value is running the piece. -/
theorem bind_pure_run (m : Exec α) (h : List Event) :
    (m >>= fun a => (pure a : Exec α)) h = m h := by
  rw [bind_run]
  cases hr : (m h).ret with
  | none =>
    show (⟨none, (m h).calls⟩ : Res α) = m h
    rw [← hr]
  | some a =>
    show (⟨some a, (m h).calls ++ []⟩ : Res α) = m h
    rw [List.append_nil, ← hr]

/-- Sequencing is associative. -/
theorem bind_assoc_run (m : Exec α) (f : α → Exec β) (g : β → Exec γ) (h : List Event) :
    ((m >>= f) >>= g) h = (m >>= fun a => f a >>= g) h := by
  rw [bind_run, bind_run (m := m) (f := fun a => f a >>= g), bind_run (m := m) (f := f)]
  cases hr : (m h).ret with
  | none => rfl
  | some a =>
    simp only [bind_run]
    cases hr2 : (f a (h ++ (m h).calls)).ret with
    | none => rfl
    | some b => simp [List.append_assoc]

end exec_laws

/-- The enumeration loop passes over sub-directories: it is the loop over the
entries that are not directories. -/
theorem nsh_foreach_direntry_loop_filter (handler : dirent → Exec Int) (entries : List dirent) :
    ∀ (ret : Int) (h : List Event),
      nsh_foreach_direntry_loop handler entries ret h =
        nsh_foreach_direntry_loop handler (entries.filter (fun e => !e.is_directory)) ret h := by
  induction entries with
  | nil => intro ret h; rfl
  | cons e es ih =>
    intro ret h
    by_cases hd : e.is_directory = true
    · simp only [nsh_foreach_direntry_loop, hd, if_true, Bool.not_true, List.filter_cons_of_neg,
        Bool.false_eq_true, not_false_eq_true]
      exact ih ret h
    · simp only [Bool.not_eq_true] at hd
      simp only [nsh_foreach_direntry_loop, hd, Bool.false_eq_true, if_false, Bool.not_false,
        List.filter_cons_of_pos, bind_run]
      cases hr : (handler e h).ret with
      | none => rfl
      | some r => simp only [ih]

/-- The enumeration loop over targets followed by one more target: the loop
over the first targets, whatever status it yields, and then the visit of the
last target. -/
theorem nsh_foreach_direntry_loop_snoc (handler : dirent → Exec Int) (t : dirent)
    (ht : t.is_directory = false) (ts : List dirent) :
    ∀ (ret : Int) (h : List Event),
      nsh_foreach_direntry_loop handler (ts ++ [t]) ret h =
        (nsh_foreach_direntry_loop handler ts ret >>= fun _ => handler t) h := by
  induction ts with
  | nil =>
    intro ret h
    simp only [List.nil_append, nsh_foreach_direntry_loop, ht, Bool.false_eq_true, if_false]
    rw [show (do let ret ← handler t; pure ret : Exec Int) = (handler t >>= fun a => pure a) from rfl,
      bind_pure_run]
    simp [bind_run]
  | cons e es ih =>
    intro ret h
    by_cases hd : e.is_directory = true
    · simp only [List.cons_append, nsh_foreach_direntry_loop, hd, if_true]
      exact ih ret h
    · simp only [Bool.not_eq_true] at hd
      simp only [List.cons_append, nsh_foreach_direntry_loop, hd, Bool.false_eq_true, if_false]
      rw [bind_assoc_run]
      rw [bind_run, bind_run]
      cases hr : (handler e h).ret with
      | none => rfl
      | some r =>
        have ih1 := ih r (h ++ (handler e h).calls)
        simp only [List.append_eq] at ih1 ⊢
        rw [ih1]

/-- The tail of `cmd_rptun_once` returns a status and asks for no path. -/
theorem cmd_rptun_once_ioctl_returns (env : Env) (path : String) (cmd : Int) (val : IoctlArg)
    (h : List Event) :
    (∃ r, (cmd_rptun_once_ioctl env path cmd val h).ret = some r) ∧
    getdirpath_names (cmd_rptun_once_ioctl env path cmd val h).calls = [] := by
  by_cases hopen : 0 ≤ env.open_ h path 0
  · rw [cmd_rptun_once_ioctl_ok env path cmd val h hopen]
    exact ⟨⟨_, rfl⟩, by simp [getdirpath_names]⟩
  · rw [cmd_rptun_once_ioctl_fail env path cmd val h (by omega)]
    exact ⟨⟨_, rfl⟩, by simp [getdirpath_names]⟩

/-- Called as `cmd_rptun` calls it (`argc >= 3`) and, for `reset`, with the
value present, `cmd_rptun_once` returns a status; none of its calls asks for a
path. -/
theorem cmd_rptun_once_returns (cfg : Config) (env : Env) (path : String)
    (argv : List String) (h : List Event) (hlen : 3 ≤ argv.length)
    (hreset : argv[1]? = some "reset" → 4 ≤ argv.length) :
    (∃ r, (cmd_rptun_once cfg env path argv h).ret = some r) ∧
    getdirpath_names (cmd_rptun_once cfg env path argv h).calls = [] := by
  obtain ⟨verb, hverb⟩ : ∃ verb, argv[1]? = some verb :=
    ⟨argv[1], List.getElem?_eq_getElem (by omega)⟩
  rw [cmd_rptun_once_verb cfg env path argv h verb hverb]
  split_ifs with h1 h2 h3 h4 h5 h6
  · exact cmd_rptun_once_ioctl_returns env path _ _ h
  · exact cmd_rptun_once_ioctl_returns env path _ _ h
  · have h4 := hreset (by rw [hverb, h3])
    obtain ⟨a3, ha3⟩ : ∃ a3, argv[3]? = some a3 :=
      ⟨argv[3], List.getElem?_eq_getElem (by omega)⟩
    rw [cmd_rptun_once_reset]
    simp only [ha3]
    exact cmd_rptun_once_ioctl_returns env path _ _ h
  · exact cmd_rptun_once_ioctl_returns env path _ _ h
  · exact cmd_rptun_once_ioctl_returns env path _ _ h
  · rcases argv with _ | ⟨a0, _ | ⟨a1, _ | ⟨a2, _ | ⟨a3, _ | ⟨a4, _ | ⟨a5, _ | ⟨a6, rest⟩⟩⟩⟩⟩⟩⟩
    all_goals first
      | (simp at hlen; done)
      | (simp at hlen; omega)
      | (rw [cmd_rptun_once_ping_present]; exact cmd_rptun_once_ioctl_returns env path _ _ h)
      | simp [cmd_rptun_once_ping, cmd_rptun_once_argrequired, bind_run, argv_at_run,
          getdirpath_names]
  · exact ⟨⟨_, rfl⟩, by simp [getdirpath_names]⟩

/-- The visit of an entry that is not a directory returns a status and asks
for the path of that entry, once. -/
theorem cmd_rptun_recursive_returns (cfg : Config) (env : Env) (dirpath : String)
    (entryp : dirent) (argv : List String) (h : List Event)
    (hdir : entryp.is_directory = false) (hlen : 3 ≤ argv.length)
    (hreset : argv[1]? = some "reset" → 4 ≤ argv.length) :
    (∃ r, (cmd_rptun_recursive cfg env dirpath entryp argv h).ret = some r) ∧
    getdirpath_names (cmd_rptun_recursive cfg env dirpath entryp argv h).calls =
      [entryp.d_name] := by
  unfold cmd_rptun_recursive
  simp only [hdir, Bool.false_eq_true, if_false, bind_run, call_run]
  cases hp : env.nsh_getdirpath h dirpath entryp.d_name with
  | none => simp [getdirpath_names]
  | some path =>
    obtain ⟨⟨r, hr⟩, hnames⟩ := cmd_rptun_once_returns cfg env path argv
      (h ++ [Event.nsh_getdirpath dirpath entryp.d_name]) hlen hreset
    simp only [bind_run, hr, call_run, pure_run, List.append_nil]
    refine ⟨⟨r, rfl⟩, ?_⟩
    simp only [getdirpath_names, List.filterMap_append] at hnames ⊢
    simp [hnames]

/-- The enumeration loop over targets visits every one of them, in order,
whatever status each visit reports. -/
theorem nsh_foreach_direntry_loop_visits (cfg : Config) (env : Env) (dirpath : String)
    (argv : List String) (hlen : 3 ≤ argv.length)
    (hreset : argv[1]? = some "reset" → 4 ≤ argv.length) (targets : List dirent)
    (htargets : ∀ t ∈ targets, t.is_directory = false) :
    ∀ (ret : Int) (h : List Event),
      (∃ r, (nsh_foreach_direntry_loop
          (fun entryp => cmd_rptun_recursive cfg env dirpath entryp argv) targets ret h).ret =
            some r) ∧
      getdirpath_names (nsh_foreach_direntry_loop
          (fun entryp => cmd_rptun_recursive cfg env dirpath entryp argv) targets ret h).calls =
        targets.map (fun t => t.d_name) := by
  induction targets with
  | nil => intro ret h; exact ⟨⟨ret, rfl⟩, rfl⟩
  | cons t ts ih =>
    intro ret h
    have ht : t.is_directory = false := htargets t (by simp)
    obtain ⟨⟨r, hr⟩, hnames⟩ := cmd_rptun_recursive_returns cfg env dirpath t argv h ht hlen hreset
    have ih1 := ih (fun u hu => htargets u (by simp [hu])) r
      (h ++ (cmd_rptun_recursive cfg env dirpath t argv h).calls)
    simp only [nsh_foreach_direntry_loop, ht, Bool.false_eq_true, if_false, bind_run, hr]
    refine ⟨ih1.1, ?_⟩
    have happ : ∀ a b : List Event,
        getdirpath_names (a ++ b) = getdirpath_names a ++ getdirpath_names b := by
      intro a b; simp [getdirpath_names, List.filterMap_append]
    rw [happ, hnames, ih1.2]
    rfl

/-- Claim C9. Batch dispatch, `cmd_rptun` with the path argument `all` (a verb
that is not `-h`, and for `reset` the value present): every target the
enumeration discovers, that is every entry of `/dev/rptun` that is not a
directory, is visited once and in order, whatever status the earlier targets
reported; and the run ends with the visit of the last target, whose status is
the overall result. -/
theorem cmd_rptun_all_last_status (cfg : Config) (env : Env) (argv : List String)
    (h : List Event) (hlen : 3 ≤ argv.length) (hverb : argv[1]? ≠ some "-h")
    (hall : argv[2]? = some "all") (hreset : argv[1]? = some "reset" → 4 ≤ argv.length) :
    getdirpath_names (cmd_rptun cfg env argv h).calls =
      ((env.readdir h "/dev/rptun").filter (fun e => !e.is_directory)).map (fun t => t.d_name) ∧
    ∀ ts t, (env.readdir h "/dev/rptun").filter (fun e => !e.is_directory) = ts ++ [t] →
      ∃ before,
        (cmd_rptun cfg env argv h).calls =
          before ++ (cmd_rptun_recursive cfg env "/dev/rptun" t argv (h ++ before)).calls ∧
        (cmd_rptun cfg env argv h).ret =
          (cmd_rptun_recursive cfg env "/dev/rptun" t argv (h ++ before)).ret := by
  have hnot : ¬ (argv.length ≥ 2 ∧ argv[1]? = some "-h") := fun hc => hverb hc.2
  have hlt : ¬ argv.length < 3 := by omega
  have hle : 2 ≤ argv.length := by omega
  have hrun : cmd_rptun cfg env argv h =
      ⟨(nsh_foreach_direntry_loop
          (fun entryp => cmd_rptun_recursive cfg env "/dev/rptun" entryp argv)
          ((env.readdir h "/dev/rptun").filter (fun e => !e.is_directory)) OK
          (h ++ [Event.nsh_foreach_direntry "rptun" "/dev/rptun"])).ret,
       Event.nsh_foreach_direntry "rptun" "/dev/rptun" ::
        (nsh_foreach_direntry_loop
          (fun entryp => cmd_rptun_recursive cfg env "/dev/rptun" entryp argv)
          ((env.readdir h "/dev/rptun").filter (fun e => !e.is_directory)) OK
          (h ++ [Event.nsh_foreach_direntry "rptun" "/dev/rptun"])).calls⟩ := by
    unfold cmd_rptun
    rw [if_neg hnot, if_neg hlt]
    simp only [bind_run, argv_at_run, hle, if_true, hall, deref_some_run,
      List.append_nil, List.nil_append, nsh_foreach_direntry, call_run]
    rw [nsh_foreach_direntry_loop_filter]
    simp
  have hfil : ∀ t ∈ (env.readdir h "/dev/rptun").filter (fun e => !e.is_directory),
      t.is_directory = false := by
    intro t ht
    simpa using (List.mem_filter.mp ht).2
  constructor
  · rw [hrun]
    have hv := (nsh_foreach_direntry_loop_visits cfg env "/dev/rptun" argv hlen hreset _ hfil OK
      (h ++ [Event.nsh_foreach_direntry "rptun" "/dev/rptun"])).2
    simp only [getdirpath_names, List.filterMap_cons] at hv ⊢
    exact hv
  · intro ts t hsplit
    have hts : ∀ u ∈ ts, u.is_directory = false := by
      intro u hu
      exact hfil u (by rw [hsplit]; simp [hu])
    have htd : t.is_directory = false := hfil t (by rw [hsplit]; simp)
    obtain ⟨r, hr⟩ := (nsh_foreach_direntry_loop_visits cfg env "/dev/rptun" argv hlen hreset
      ts hts OK (h ++ [Event.nsh_foreach_direntry "rptun" "/dev/rptun"])).1
    refine ⟨Event.nsh_foreach_direntry "rptun" "/dev/rptun" ::
      (nsh_foreach_direntry_loop
        (fun entryp => cmd_rptun_recursive cfg env "/dev/rptun" entryp argv) ts OK
        (h ++ [Event.nsh_foreach_direntry "rptun" "/dev/rptun"])).calls, ?_⟩
    rw [hrun, hsplit, nsh_foreach_direntry_loop_snoc _ t htd ts, bind_run, hr]
    simp

/-- Claim C9 at a concrete run: `rptun start all` over the devices `a` (succeeds
with status 0), `b` (cannot be opened) and `c` (succeeds with status 5), with a
sub-directory among the entries: all three devices are processed and the status
of `c` is the result. -/
theorem cmd_rptun_all_last_status_witness :
    getdirpath_names (cmd_rptun sample_config sample_env ["rptun", "start", "all"] []).calls =
      ["a", "b", "c"] ∧
    (cmd_rptun sample_config sample_env ["rptun", "start", "all"] []).calls =
      [Event.nsh_foreach_direntry "rptun" "/dev/rptun",
       Event.nsh_getdirpath "/dev/rptun" "a",
       Event.open_ "/dev/rptun/a" 0,
       Event.ioctl 3 sample_config.RPTUNIOC_START (IoctlArg.val 0),
       Event.close 3,
       Event.free "/dev/rptun/a",
       Event.nsh_getdirpath "/dev/rptun" "b",
       Event.open_ "/dev/rptun/b" 0,
       Event.nsh_output Fmt.g_fmtarginvalid ["/dev/rptun/b"],
       Event.free "/dev/rptun/b",
       Event.nsh_getdirpath "/dev/rptun" "c",
       Event.open_ "/dev/rptun/c" 0,
       Event.ioctl 3 sample_config.RPTUNIOC_START (IoctlArg.val 0),
       Event.close 3,
       Event.free "/dev/rptun/c"] ∧
    (cmd_rptun sample_config sample_env ["rptun", "start", "all"] []).ret = some 5 :=
  ⟨(cmd_rptun_all_last_status sample_config sample_env ["rptun", "start", "all"] []
      (by decide) (by decide) (by rfl) (by decide)).1,
   by decide, by decide⟩

/-! ## Single target dispatch and the visitor -/

/-- With `argc >= 3`, a first argument that is not `-h` and a path argument that
is not `all`, `cmd_rptun` is `cmd_rptun_once` on that path. -/
theorem cmd_rptun_single (cfg : Config) (env : Env) (argv : List String) (h : List Event)
    (path : String) (hlen : 3 ≤ argv.length) (hverb : argv[1]? ≠ some "-h")
    (hpath : argv[2]? = some path) (hnall : path ≠ "all") :
    cmd_rptun cfg env argv h = cmd_rptun_once cfg env path argv h := by
  have hnot : ¬ (argv.length ≥ 2 ∧ argv[1]? = some "-h") := fun hc => hverb hc.2
  have hlt : ¬ argv.length < 3 := by omega
  have hle : 2 ≤ argv.length := by omega
  unfold cmd_rptun
  rw [if_neg hnot, if_neg hlt]
  simp [bind_run, argv_at_run, hle, hpath, hnall]

/-- Claim C11. For every call of `cmd_rptun` with `argc >= 3`, a path argument
`argv[2]` other than `all`, a documented verb (for `reset` its value and for
`ping` its four parameters present) and `open` succeeding, the calls made are
exactly `open(argv[2])`, one `ioctl` on the descriptor with the code of the
verb, and `close`; the value returned is the status of the `ioctl`, whatever
its value or sign; no call of the enumeration is made. -/
theorem cmd_rptun_single_target (cfg : Config) (env : Env) (argv : List String)
    (h : List Event) (verb : String) (code : Int) (path : String)
    (hlen : 3 ≤ argv.length) (hverb : argv[1]? = some verb)
    (hdoc : (verb, code) ∈ rptun_documented cfg)
    (hpath : argv[2]? = some path) (hnall : path ≠ "all")
    (hreset : verb = "reset" → 4 ≤ argv.length)
    (hping : verb = "ping" → 7 ≤ argv.length)
    (hopen : 0 ≤ env.open_ h path 0) :
    ∃ val,
      (cmd_rptun cfg env argv h).calls =
        [Event.open_ path 0, Event.ioctl (env.open_ h path 0) code val,
         Event.close (env.open_ h path 0)] ∧
      (cmd_rptun cfg env argv h).ret =
        some (env.ioctl (h ++ [Event.open_ path 0]) (env.open_ h path 0) code val) ∧
      ∀ e ∈ (cmd_rptun cfg env argv h).calls, is_enumeration_call e = false := by
  have hnoth : argv[1]? ≠ some "-h" := by
    rw [hverb]
    intro hc
    have hv : verb = "-h" := Option.some.inj hc
    subst hv
    revert hdoc
    unfold rptun_documented
    split_ifs <;> simp
  obtain ⟨val, hrun⟩ := cmd_rptun_once_valid cfg env path argv h verb code hverb hdoc hreset hping
  refine ⟨val, ?_⟩
  rw [cmd_rptun_single cfg env argv h path hlen hnoth hpath hnall, hrun,
    cmd_rptun_once_ioctl_ok env path code val h hopen]
  simp [is_enumeration_call]

/-- Claim C11 at a concrete run: `rptun reset /dev/rptun/c 1`, whose `ioctl`
returns the positive status 5. -/
theorem cmd_rptun_single_target_witness :
    ∃ val,
      (cmd_rptun sample_config sample_env ["rptun", "reset", "/dev/rptun/c", "1"] []).calls =
        [Event.open_ "/dev/rptun/c" 0, Event.ioctl 3 sample_config.RPTUNIOC_RESET val,
         Event.close 3] ∧
      (cmd_rptun sample_config sample_env ["rptun", "reset", "/dev/rptun/c", "1"] []).ret =
        some 5 ∧
      ∀ e ∈ (cmd_rptun sample_config sample_env ["rptun", "reset", "/dev/rptun/c", "1"] []).calls,
        is_enumeration_call e = false :=
  cmd_rptun_single_target sample_config sample_env ["rptun", "reset", "/dev/rptun/c", "1"] []
    "reset" sample_config.RPTUNIOC_RESET "/dev/rptun/c" (by decide) (by rfl)
    (by simp [rptun_documented]) (by rfl) (by decide) (by decide) (by simp) (by decide)

/-- Claim C17. The visitor `cmd_rptun_recursive`: for a directory entry it
returns 0 and makes no call at all (no path is built, no device touched); for an
entry that is not a directory and whose path cannot be built it returns `ERROR`
and its only call is the failed `nsh_getdirpath`, so no device is opened;
otherwise its result is exactly the result of `cmd_rptun_once` on the path
built, its calls being the building of the path, the calls of `cmd_rptun_once`
and, once that has returned, the release of the path. -/
theorem cmd_rptun_recursive_cases (cfg : Config) (env : Env) (dirpath : String)
    (entryp : dirent) (argv : List String) (h : List Event) :
    (entryp.is_directory = true →
      cmd_rptun_recursive cfg env dirpath entryp argv h = ⟨some 0, []⟩) ∧
    (entryp.is_directory = false →
      env.nsh_getdirpath h dirpath entryp.d_name = none →
      cmd_rptun_recursive cfg env dirpath entryp argv h =
        ⟨some ERROR, [Event.nsh_getdirpath dirpath entryp.d_name]⟩) ∧
    (∀ path, entryp.is_directory = false →
      env.nsh_getdirpath h dirpath entryp.d_name = some path →
      (cmd_rptun_recursive cfg env dirpath entryp argv h).ret =
        (cmd_rptun_once cfg env path argv
          (h ++ [Event.nsh_getdirpath dirpath entryp.d_name])).ret ∧
      (cmd_rptun_recursive cfg env dirpath entryp argv h).calls =
        Event.nsh_getdirpath dirpath entryp.d_name ::
          ((cmd_rptun_once cfg env path argv
              (h ++ [Event.nsh_getdirpath dirpath entryp.d_name])).calls ++
            (if (cmd_rptun_once cfg env path argv
                (h ++ [Event.nsh_getdirpath dirpath entryp.d_name])).ret.isSome
              then [Event.free path] else []))) := by
  refine ⟨?_, ?_, ?_⟩
  · intro hdir
    simp [cmd_rptun_recursive, hdir]
  · intro hdir hnone
    simp [cmd_rptun_recursive, hdir, bind_run, hnone]
  · intro path hdir hsome
    unfold cmd_rptun_recursive
    simp only [hdir, Bool.false_eq_true, if_false, bind_run, call_run, hsome]
    cases hr : (cmd_rptun_once cfg env path argv
        (h ++ [Event.nsh_getdirpath dirpath entryp.d_name])).ret with
    | none => simp [bind_run, hr]
    | some r => simp [bind_run, hr]

/-- Claim C17 at concrete runs: the sub-directory `sub`, and the device `b`
that cannot be opened. -/
theorem cmd_rptun_recursive_cases_witness :
    cmd_rptun_recursive sample_config sample_env "/dev/rptun" ⟨"sub", true⟩
      ["rptun", "start", "all"] [] = ⟨some 0, []⟩ ∧
    (cmd_rptun_recursive sample_config sample_env "/dev/rptun" ⟨"b", false⟩
      ["rptun", "start", "all"] []).ret =
      (cmd_rptun_once sample_config sample_env "/dev/rptun/b" ["rptun", "start", "all"]
        [Event.nsh_getdirpath "/dev/rptun" "b"]).ret ∧
    (cmd_rptun_recursive sample_config sample_env "/dev/rptun" ⟨"b", false⟩
      ["rptun", "start", "all"] []).ret = some ERROR :=
  ⟨(cmd_rptun_recursive_cases sample_config sample_env "/dev/rptun" ⟨"sub", true⟩
      ["rptun", "start", "all"] []).1 rfl,
   ((cmd_rptun_recursive_cases sample_config sample_env "/dev/rptun" ⟨"b", false⟩
      ["rptun", "start", "all"] []).2.2 "/dev/rptun/b" rfl (by decide)).1,
   by decide⟩

/-! ## `cmd_reset_cause` -/

/-- The run of `cmd_reset_cause` when `boardctl` fails. -/
theorem cmd_reset_cause_fail (cfg : Config) (env : Env) (argv : List String) (h : List Event)
    (hfail : env.boardctl h cfg.BOARDIOC_RESET_CAUSE (BoardctlArg.reset_cause ⟨0, 0⟩) < 0) :
    cmd_reset_cause cfg env argv h =
      ⟨some ERROR,
       [Event.boardctl cfg.BOARDIOC_RESET_CAUSE (BoardctlArg.reset_cause ⟨0, 0⟩),
        Event.nsh_error Fmt.g_fmtcmdfailed (argv[0]?.toList ++ ["boardctl"])]⟩ := by
  simp [cmd_reset_cause, boardctl_returned, bind_run, hfail, argv_at_run]

/-- The run of `cmd_reset_cause` when `boardctl` succeeds with a cause other
than the soft reset that indexes the cause-name table. -/
theorem cmd_reset_cause_other (cfg : Config) (env : Env) (argv : List String) (h : List Event)
    (name : String)
    (hok : 0 ≤ env.boardctl h cfg.BOARDIOC_RESET_CAUSE (BoardctlArg.reset_cause ⟨0, 0⟩))
    (hcause : (env.reset_cause h).cause ≠ cfg.BOARDIOC_RESETCAUSE_CPU_SOFT)
    (hpos : 0 ≤ (env.reset_cause h).cause)
    (hname : g_resetcause[(env.reset_cause h).cause.toNat]? = some name) :
    cmd_reset_cause cfg env argv h =
      ⟨some OK,
       [Event.boardctl cfg.BOARDIOC_RESET_CAUSE (BoardctlArg.reset_cause ⟨0, 0⟩),
        Event.nsh_output (Fmt.text "%s(%lu)\n") [name, toString (env.reset_cause h).flag]]⟩ := by
  have hn : ¬ env.boardctl h cfg.BOARDIOC_RESET_CAUSE (BoardctlArg.reset_cause ⟨0, 0⟩) < 0 := by
    omega
  simp [cmd_reset_cause, bind_run, hn, hcause, table_at, hpos, hname]

/-- The run of `cmd_reset_cause` when `boardctl` succeeds with the soft reset
cause and a flag that indexes one of the named reset flags. -/
theorem cmd_reset_cause_soft (cfg : Config) (env : Env) (argv : List String) (h : List Event)
    (name flagname : String)
    (hok : 0 ≤ env.boardctl h cfg.BOARDIOC_RESET_CAUSE (BoardctlArg.reset_cause ⟨0, 0⟩))
    (hcause : (env.reset_cause h).cause = cfg.BOARDIOC_RESETCAUSE_CPU_SOFT)
    (hpos : 0 ≤ (env.reset_cause h).cause)
    (hname : g_resetcause[(env.reset_cause h).cause.toNat]? = some name)
    (hflag : g_resetflag[(env.reset_cause h).flag]? = some flagname) :
    cmd_reset_cause cfg env argv h =
      ⟨some OK,
       [Event.boardctl cfg.BOARDIOC_RESET_CAUSE (BoardctlArg.reset_cause ⟨0, 0⟩),
        Event.nsh_output (Fmt.text "%s(%s)\n") [name, flagname]]⟩ := by
  have hn : ¬ env.boardctl h cfg.BOARDIOC_RESET_CAUSE (BoardctlArg.reset_cause ⟨0, 0⟩) < 0 := by
    omega
  have hlt : (env.reset_cause h).flag < g_resetflag.length := (List.getElem?_eq_some.mp hflag).1
  simp [cmd_reset_cause, bind_run, hn, hcause, table_at, hpos, hname, argv_at_run,
    Nat.le_of_lt hlt, hflag, hcause ▸ hpos, hcause ▸ hname]

/-- The text printed for the format `%s(%s)` followed by a newline. -/
theorem format_text_name_flag (name arg : String) :
    String.mk (format_text "%s(%s)\n".data [name, arg]) = name ++ "(" ++ arg ++ ")\n" := by
  apply String.ext
  have hfmt : "%s(%s)\n".data = ['%', 's', '(', '%', 's', ')', Char.ofNat 10] := by decide
  have h1 : "(".data = ['('] := by decide
  have h2 : ")\n".data = [')', Char.ofNat 10] := by decide
  simp [hfmt, format_text, String.data_append, h1, h2]

/-- The text printed for the format `%s(%lu)` followed by a newline. -/
theorem format_text_name_number (name arg : String) :
    String.mk (format_text "%s(%lu)\n".data [name, arg]) = name ++ "(" ++ arg ++ ")\n" := by
  apply String.ext
  have hfmt : "%s(%lu)\n".data = ['%', 's', '(', '%', 'l', 'u', ')', Char.ofNat 10] := by decide
  have h1 : "(".data = ['('] := by decide
  have h2 : ")\n".data = [')', Char.ofNat 10] := by decide
  simp [hfmt, format_text, String.data_append, h1, h2]

/-- Claim C12. In `cmd_reset_cause`, when `boardctl` succeeds: if the cause is
the soft reset value `BOARDIOC_RESETCAUSE_CPU_SOFT` and the flag indexes one of
the named reset flags, the line printed is the cause name, then in parentheses
the name of the flag at that index; for every other cause that indexes the
cause-name table the line printed is the cause name, then in parentheses the
flag as a decimal number.  The cause name is the entry of `g_resetcause` at the
index of the cause.  With the soft reset value 9 and flag 2 the line is
`cpu_soft_reset(panic)`. -/
theorem cmd_reset_cause_renders (cfg : Config) (env : Env) (argv : List String)
    (h : List Event)
    (hok : 0 ≤ env.boardctl h cfg.BOARDIOC_RESET_CAUSE (BoardctlArg.reset_cause ⟨0, 0⟩)) :
    (∀ name flagname : String,
      (env.reset_cause h).cause = cfg.BOARDIOC_RESETCAUSE_CPU_SOFT →
      0 ≤ (env.reset_cause h).cause →
      g_resetcause[(env.reset_cause h).cause.toNat]? = some name →
      g_resetflag[(env.reset_cause h).flag]? = some flagname →
      (cmd_reset_cause cfg env argv h).ret = some OK ∧
      output_text (cmd_reset_cause cfg env argv h).calls =
        [name ++ "(" ++ flagname ++ ")\n"]) ∧
    (∀ name : String,
      (env.reset_cause h).cause ≠ cfg.BOARDIOC_RESETCAUSE_CPU_SOFT →
      0 ≤ (env.reset_cause h).cause →
      g_resetcause[(env.reset_cause h).cause.toNat]? = some name →
      (cmd_reset_cause cfg env argv h).ret = some OK ∧
      output_text (cmd_reset_cause cfg env argv h).calls =
        [name ++ "(" ++ toString (env.reset_cause h).flag ++ ")\n"]) ∧
    (cfg.BOARDIOC_RESETCAUSE_CPU_SOFT = 9 → (env.reset_cause h).cause = 9 →
      (env.reset_cause h).flag = 2 →
      output_text (cmd_reset_cause cfg env argv h).calls = ["cpu_soft_reset(panic)\n"]) := by
  refine ⟨?_, ?_, ?_⟩
  · intro name flagname hcause hpos hname hflag
    rw [cmd_reset_cause_soft cfg env argv h name flagname hok hcause hpos hname hflag]
    refine ⟨rfl, ?_⟩
    simp only [output_text, List.filterMap_cons, List.filterMap_nil]
    rw [format_text_name_flag]
  · intro name hcause hpos hname
    rw [cmd_reset_cause_other cfg env argv h name hok hcause hpos hname]
    refine ⟨rfl, ?_⟩
    simp only [output_text, List.filterMap_cons, List.filterMap_nil]
    rw [format_text_name_number]
  · intro hsoft hcause hflag
    rw [cmd_reset_cause_soft cfg env argv h "cpu_soft_reset" "panic" hok (by rw [hcause, hsoft])
      (by rw [hcause]; decide) (by rw [hcause]; decide) (by rw [hflag]; decide)]
    simp only [output_text, List.filterMap_cons, List.filterMap_nil]
    rw [format_text_name_flag]
    decide

/-- Claim C12 at a concrete run: a soft reset with flag 2. -/
theorem cmd_reset_cause_renders_witness :
    output_text (cmd_reset_cause sample_config sample_env ["resetcause"] []).calls =
      ["cpu_soft_reset(panic)\n"] :=
  (cmd_reset_cause_renders sample_config sample_env ["resetcause"] [] (by decide)).2.2
    rfl rfl rfl

/-- When `boardctl` succeeds `cmd_reset_cause` does not return `ERROR`. -/
theorem cmd_reset_cause_no_error (cfg : Config) (env : Env) (argv : List String)
    (h : List Event)
    (hok : 0 ≤ env.boardctl h cfg.BOARDIOC_RESET_CAUSE (BoardctlArg.reset_cause ⟨0, 0⟩)) :
    (cmd_reset_cause cfg env argv h).ret ≠ some ERROR := by
  have hn : ¬ env.boardctl h cfg.BOARDIOC_RESET_CAUSE (BoardctlArg.reset_cause ⟨0, 0⟩) < 0 := by
    omega
  have hne : (OK : Int) ≠ ERROR := by decide
  unfold cmd_reset_cause
  simp only [bind_run, call_run, hn, if_false, table_at, argv_at_run]
  by_cases hpos : 0 ≤ (env.reset_cause h).cause
  · cases hname : g_resetcause[(env.reset_cause h).cause.toNat]? with
    | none => split_ifs <;> simp [hpos, hname, undefined_behaviour]
    | some name =>
      by_cases hfl : (env.reset_cause h).flag ≤ g_resetflag.length
      · split_ifs <;> simp [hpos, hname, hfl, bind_run, hne, argv_at_run]
      · split_ifs <;> simp [hpos, hname, hfl, bind_run, hne, argv_at_run]
  · split_ifs <;> simp [hpos, undefined_behaviour]

/-- Claim C13 fails: after a soft reset with flag 6, which is beyond the six
named reset flags, `cmd_reset_cause` prints a cause line and returns `OK`, not
`ERROR`. -/
theorem cmd_reset_cause_flag_unchecked :
    (sample_env_flag6.reset_cause []).cause = sample_config.BOARDIOC_RESETCAUSE_CPU_SOFT ∧
    ¬ (sample_env_flag6.reset_cause []).flag < g_resetflag.length ∧
    (cmd_reset_cause sample_config sample_env_flag6 ["resetcause"] []).ret = some OK ∧
    (cmd_reset_cause sample_config sample_env_flag6 ["resetcause"] []).ret ≠ some ERROR ∧
    (cmd_reset_cause sample_config sample_env_flag6 ["resetcause"] []).calls =
      [Event.boardctl sample_config.BOARDIOC_RESET_CAUSE (BoardctlArg.reset_cause ⟨0, 0⟩),
       Event.nsh_output (Fmt.text "%s(%s)\n") ["cpu_soft_reset"]] := by
  decide

/-- Claim C13, amended. `cmd_reset_cause` returns `ERROR` and prints no cause
line when `boardctl` returns a negative value: its calls are the request and
the report of the failure.  When `boardctl` succeeds with a cause that indexes
the cause-name table and, for the soft reset cause, a flag that indexes one of
the six named reset flags, it prints exactly one cause line and returns `OK`.
It returns `ERROR` in no other case than `boardctl` failing: the cause and the
flag are not checked. -/
theorem cmd_reset_cause_status (cfg : Config) (env : Env) (argv0 : String)
    (rest : List String) (h : List Event) :
    (env.boardctl h cfg.BOARDIOC_RESET_CAUSE (BoardctlArg.reset_cause ⟨0, 0⟩) < 0 →
      (cmd_reset_cause cfg env (argv0 :: rest) h).ret = some ERROR ∧
      (cmd_reset_cause cfg env (argv0 :: rest) h).calls =
        [Event.boardctl cfg.BOARDIOC_RESET_CAUSE (BoardctlArg.reset_cause ⟨0, 0⟩),
         Event.nsh_error Fmt.g_fmtcmdfailed [argv0, "boardctl"]] ∧
      output_text (cmd_reset_cause cfg env (argv0 :: rest) h).calls = []) ∧
    (0 ≤ env.boardctl h cfg.BOARDIOC_RESET_CAUSE (BoardctlArg.reset_cause ⟨0, 0⟩) →
      0 ≤ (env.reset_cause h).cause →
      (env.reset_cause h).cause.toNat < g_resetcause.length →
      ((env.reset_cause h).cause = cfg.BOARDIOC_RESETCAUSE_CPU_SOFT →
        (env.reset_cause h).flag < g_resetflag.length) →
      (cmd_reset_cause cfg env (argv0 :: rest) h).ret = some OK ∧
      (output_text (cmd_reset_cause cfg env (argv0 :: rest) h).calls).length = 1) ∧
    ((cmd_reset_cause cfg env (argv0 :: rest) h).ret = some ERROR ↔
      env.boardctl h cfg.BOARDIOC_RESET_CAUSE (BoardctlArg.reset_cause ⟨0, 0⟩) < 0) := by
  refine ⟨?_, ?_, ?_⟩
  · intro hfail
    rw [cmd_reset_cause_fail cfg env (argv0 :: rest) h hfail]
    simp [output_text]
  rotate_left
  · constructor
    · intro herr
      by_contra hok
      exact cmd_reset_cause_no_error cfg env (argv0 :: rest) h (by omega) herr
    · intro hfail
      rw [cmd_reset_cause_fail cfg env (argv0 :: rest) h hfail]
  · intro hok hpos hcause hflag
    have hname : g_resetcause[(env.reset_cause h).cause.toNat]? =
        some (g_resetcause[(env.reset_cause h).cause.toNat]) := List.getElem?_eq_getElem hcause
    by_cases hsoft : (env.reset_cause h).cause = cfg.BOARDIOC_RESETCAUSE_CPU_SOFT
    · have hbound := hflag hsoft
      have hfl : g_resetflag[(env.reset_cause h).flag]? =
          some (g_resetflag[(env.reset_cause h).flag]) := List.getElem?_eq_getElem hbound
      rw [cmd_reset_cause_soft cfg env (argv0 :: rest) h _ _ hok hsoft hpos hname hfl]
      simp [output_text]
    · rw [cmd_reset_cause_other cfg env (argv0 :: rest) h _ hok hsoft hpos hname]
      simp [output_text]

/-- Claim C13, amended, at concrete runs: `boardctl` failing, and a soft reset
with flag 2. -/
theorem cmd_reset_cause_status_witness :
    (cmd_reset_cause sample_config sample_env_failing ["resetcause"] []).ret = some ERROR ∧
    (cmd_reset_cause sample_config sample_env ["resetcause"] []).ret = some OK :=
  ⟨((cmd_reset_cause_status sample_config sample_env_failing "resetcause" [] []).1
      (by decide)).1,
   ((cmd_reset_cause_status sample_config sample_env "resetcause" [] []).2.1
      (by decide) (by decide) (by decide) (by decide)).1⟩

/-! ## `cmd_pmconfig` -/

/-- The domain check of `cmd_pmconfig` on a value outside
`[0, CONFIG_PM_NDOMAINS)`: the range error is reported. -/
theorem cmd_pmconfig_domain_bad (cfg : Config) (argv : List String) (i : Nat)
    (ctrl : boardioc_pm_ctrl_s) (h : List Event) (arg : String)
    (harg : argv[i]? = some arg)
    (hout : atoi_value cfg arg < 0 ∨ cfg.CONFIG_PM_NDOMAINS ≤ atoi_value cfg arg) :
    cmd_pmconfig_domain cfg argv i ctrl h =
      ⟨some none, [Event.nsh_error Fmt.g_fmtargrange [arg]]⟩ := by
  have hlen : i ≤ argv.length := Nat.le_of_lt (List.getElem?_eq_some.mp harg).1
  simp [cmd_pmconfig_domain, bind_run, argv_at_run, hlen, harg, hout]

/-- The domain check of `cmd_pmconfig` on a value inside
`[0, CONFIG_PM_NDOMAINS)`: the domain is stored, no call is made. -/
theorem cmd_pmconfig_domain_ok (cfg : Config) (argv : List String) (i : Nat)
    (ctrl : boardioc_pm_ctrl_s) (h : List Event) (arg : String)
    (harg : argv[i]? = some arg)
    (hin : 0 ≤ atoi_value cfg arg ∧ atoi_value cfg arg < cfg.CONFIG_PM_NDOMAINS) :
    cmd_pmconfig_domain cfg argv i ctrl h =
      ⟨some (some { ctrl with domain := atoi_value cfg arg }), []⟩ := by
  have hlen : i ≤ argv.length := Nat.le_of_lt (List.getElem?_eq_some.mp harg).1
  have hnot : ¬ (atoi_value cfg arg < 0 ∨ cfg.CONFIG_PM_NDOMAINS ≤ atoi_value cfg arg) := by omega
  simp only [cmd_pmconfig_domain, bind_run, argv_at_run, hlen, harg, if_true, atoi_some_run,
    List.append_nil, ge_iff_le, hnot, if_false, pure_run]

/-- The verb and state checks of `cmd_pmconfig` on a verb that is not `stay` or
`relax`, or a state token that is not `normal`, `idle`, `standby` or `sleep`:
`ERROR` is returned and the only call reports the invalid argument. -/
theorem cmd_pmconfig_control_bad (cfg : Config) (env : Env) (argv : List String)
    (ctrl : boardioc_pm_ctrl_s) (h : List Event) (verb token : String)
    (hverb : argv[1]? = some verb) (htoken : argv[2]? = some token)
    (hbad : verb ∉ ["stay", "relax"] ∨ token ∉ ["normal", "idle", "standby", "sleep"]) :
    (cmd_pmconfig_control cfg env argv ctrl h).ret = some ERROR ∧
    ∃ arg, (cmd_pmconfig_control cfg env argv ctrl h).calls =
      [Event.nsh_output Fmt.g_fmtarginvalid [arg]] := by
  have hlen : 2 ≤ argv.length := Nat.le_of_lt (List.getElem?_eq_some.mp htoken).1
  have hlen1 : 1 ≤ argv.length := by omega
  have hstate : ∀ c : boardioc_pm_ctrl_s, token ∉ ["normal", "idle", "standby", "sleep"] →
      cmd_pmconfig_state cfg env argv c h =
        ⟨some ERROR, [Event.nsh_output Fmt.g_fmtarginvalid [token]]⟩ := by
    intro c hb
    simp only [List.mem_cons, List.mem_singleton, List.not_mem_nil, or_false, not_or] at hb
    obtain ⟨h1, h2, h3, h4⟩ := hb
    simp [cmd_pmconfig_state, bind_run, argv_at_run, hlen, htoken, h1, h2, h3, h4]
  by_cases hv : verb ∈ ["stay", "relax"]
  · have hb : token ∉ ["normal", "idle", "standby", "sleep"] := by
      rcases hbad with hbad | hbad
      · exact absurd hv hbad
      · exact hbad
    simp only [List.mem_cons, List.mem_singleton, List.not_mem_nil, or_false] at hv
    rcases hv with hv | hv
    · subst hv
      simp [cmd_pmconfig_control, bind_run, argv_at_run, hlen1, hverb, hstate _ hb]
    · subst hv
      simp [cmd_pmconfig_control, bind_run, argv_at_run, hlen1, hverb, hstate _ hb]
  · simp only [List.mem_cons, List.mem_singleton, List.not_mem_nil, or_false, not_or] at hv
    simp [cmd_pmconfig_control, bind_run, argv_at_run, hlen1, hverb, hv.1, hv.2]

/-- Claim C14. For every call of `cmd_pmconfig` that supplies a domain argument
(`argv[1]` when `argc == 2`, `argv[3]` when `argc == 4`) whose converted value
is outside `[0, CONFIG_PM_NDOMAINS)`, the command returns `ERROR`; its only call
is the report of the range error, so no `boardctl` request is issued and no
enumeration is started. -/
theorem cmd_pmconfig_domain_range (cfg : Config) (env : Env) (argv : List String)
    (h : List Event) (i : Nat) (arg : String)
    (hi : (argv.length = 2 ∧ i = 1) ∨ (argv.length = 4 ∧ i = 3))
    (harg : argv[i]? = some arg)
    (hout : atoi_value cfg arg < 0 ∨ cfg.CONFIG_PM_NDOMAINS ≤ atoi_value cfg arg) :
    (cmd_pmconfig cfg env argv h).ret = some ERROR ∧
    (cmd_pmconfig cfg env argv h).calls = [Event.nsh_error Fmt.g_fmtargrange [arg]] ∧
    ∀ e ∈ (cmd_pmconfig cfg env argv h).calls,
      is_boardctl e = false ∧ is_enumeration_call e = false := by
  have hrun : cmd_pmconfig cfg env argv h =
      ⟨some ERROR, [Event.nsh_error Fmt.g_fmtargrange [arg]]⟩ := by
    rcases hi with ⟨hlen, hi⟩ | ⟨hlen, hi⟩
    · subst hi
      simp [cmd_pmconfig, hlen, bind_run,
        cmd_pmconfig_domain_bad cfg argv 1 ⟨0, 0, 0⟩ h arg harg hout]
    · subst hi
      simp [cmd_pmconfig, hlen, bind_run,
        cmd_pmconfig_domain_bad cfg argv 3 ⟨0, 0, 0⟩ h arg harg hout]
  rw [hrun]
  simp [is_boardctl, is_enumeration_call]

/-- Claim C14 at concrete runs with one domain configured: `pmconfig 1`,
`pmconfig stay idle -1`, and `pmconfig 9223372036854775808`, whose argument
`strtol` brings to `LONG_MAX` and the conversion to `int` to -1. -/
theorem cmd_pmconfig_domain_range_witness :
    (cmd_pmconfig sample_config sample_env ["pmconfig", "1"] []).ret = some ERROR ∧
    (cmd_pmconfig sample_config sample_env ["pmconfig", "1"] []).calls =
      [Event.nsh_error Fmt.g_fmtargrange ["1"]] ∧
    (cmd_pmconfig sample_config sample_env ["pmconfig", "stay", "idle", "-1"] []).calls =
      [Event.nsh_error Fmt.g_fmtargrange ["-1"]] ∧
    atoi_value sample_config "9223372036854775808" = -1 ∧
    (cmd_pmconfig sample_config sample_env ["pmconfig", "9223372036854775808"] []).ret =
      some ERROR :=
  ⟨(cmd_pmconfig_domain_range sample_config sample_env ["pmconfig", "1"] [] 1 "1"
      (by decide) (by rfl) (by decide)).1,
   (cmd_pmconfig_domain_range sample_config sample_env ["pmconfig", "1"] [] 1 "1"
      (by decide) (by rfl) (by decide)).2.1,
   (cmd_pmconfig_domain_range sample_config sample_env ["pmconfig", "stay", "idle", "-1"] [] 3
      "-1" (by decide) (by rfl) (by decide)).2.1,
   by decide,
   (cmd_pmconfig_domain_range sample_config sample_env ["pmconfig", "9223372036854775808"] [] 1
      "9223372036854775808" (by decide) (by rfl) (by decide)).1⟩

/-- Claim C15. For every call of `cmd_pmconfig` with `argc` 3 or 4 whose verb
`argv[1]` is not exactly `stay` or `relax`, or whose state token `argv[2]` is
not exactly `normal`, `idle`, `standby` or `sleep`, and for every call with
`argc > 4`, the command returns `ERROR` and issues no `boardctl` request. -/
theorem cmd_pmconfig_invalid (cfg : Config) (env : Env) (argv : List String)
    (h : List Event) :
    (∀ verb token : String, argv.length = 3 ∨ argv.length = 4 →
      argv[1]? = some verb → argv[2]? = some token →
      verb ∉ ["stay", "relax"] ∨ token ∉ ["normal", "idle", "standby", "sleep"] →
      (cmd_pmconfig cfg env argv h).ret = some ERROR ∧
      ∀ e ∈ (cmd_pmconfig cfg env argv h).calls, is_boardctl e = false) ∧
    (4 < argv.length →
      (cmd_pmconfig cfg env argv h).ret = some ERROR ∧
      (cmd_pmconfig cfg env argv h).calls =
        [Event.nsh_error Fmt.g_fmttoomanyargs argv[0]?.toList] ∧
      ∀ e ∈ (cmd_pmconfig cfg env argv h).calls, is_boardctl e = false) := by
  constructor
  · intro verb token hlen hverb htoken hbad
    rcases hlen with hlen | hlen
    · obtain ⟨hret, arg, hcalls⟩ :=
        cmd_pmconfig_control_bad cfg env argv ⟨0, 0, 0⟩ h verb token hverb htoken hbad
      have hrun : cmd_pmconfig cfg env argv h = cmd_pmconfig_control cfg env argv ⟨0, 0, 0⟩ h := by
        simp [cmd_pmconfig, hlen]
      rw [hrun, hret, hcalls]
      simp [is_boardctl]
    · obtain ⟨arg3, harg3⟩ : ∃ a, argv[3]? = some a :=
        ⟨argv[3], List.getElem?_eq_getElem (by omega)⟩
      by_cases hout : atoi_value cfg arg3 < 0 ∨ cfg.CONFIG_PM_NDOMAINS ≤ atoi_value cfg arg3
      · have hrun : cmd_pmconfig cfg env argv h =
            ⟨some ERROR, [Event.nsh_error Fmt.g_fmtargrange [arg3]]⟩ := by
          simp [cmd_pmconfig, hlen, bind_run,
            cmd_pmconfig_domain_bad cfg argv 3 ⟨0, 0, 0⟩ h arg3 harg3 hout]
        rw [hrun]
        simp [is_boardctl]
      · obtain ⟨hret, arg, hcalls⟩ :=
          cmd_pmconfig_control_bad cfg env argv ⟨0, atoi_value cfg arg3, 0⟩ h verb token hverb
            htoken hbad
        have hrun : cmd_pmconfig cfg env argv h =
            cmd_pmconfig_control cfg env argv ⟨0, atoi_value cfg arg3, 0⟩ h := by
          simp [cmd_pmconfig, hlen, bind_run,
            cmd_pmconfig_domain_ok cfg argv 3 ⟨0, 0, 0⟩ h arg3 harg3 (by omega)]
        rw [hrun, hret, hcalls]
        simp [is_boardctl]
  · intro hlen
    have h2 : ¬ argv.length ≤ 2 := by omega
    have h4 : ¬ argv.length ≤ 4 := by omega
    have hrun : cmd_pmconfig cfg env argv h =
        ⟨some ERROR, [Event.nsh_error Fmt.g_fmttoomanyargs argv[0]?.toList]⟩ := by
      simp [cmd_pmconfig, h2, h4, bind_run, argv_at_run]
    rw [hrun]
    simp [is_boardctl]

/-- Claim C15 at concrete runs: a verb in capitals, a misspelt state token, and
one argument too many. -/
theorem cmd_pmconfig_invalid_witness :
    (cmd_pmconfig sample_config sample_env ["pmconfig", "Stay", "idle"] []).ret = some ERROR ∧
    (cmd_pmconfig sample_config sample_env ["pmconfig", "stay", "idl", "0"] []).ret =
      some ERROR ∧
    (cmd_pmconfig sample_config sample_env ["pmconfig", "stay", "idle", "0", "x"] []).ret =
      some ERROR :=
  ⟨((cmd_pmconfig_invalid sample_config sample_env ["pmconfig", "Stay", "idle"] []).1
      "Stay" "idle" (by decide) (by rfl) (by rfl) (by decide)).1,
   ((cmd_pmconfig_invalid sample_config sample_env ["pmconfig", "stay", "idl", "0"] []).1
      "stay" "idl" (by decide) (by rfl) (by rfl) (by decide)).1,
   ((cmd_pmconfig_invalid sample_config sample_env ["pmconfig", "stay", "idle", "0", "x"] []).2
      (by decide)).1⟩

/-! ## Requests that must not return -/

/-- The end shared by the commands whose request must not return. -/
theorem boardctl_returned_run (argv : List String) (h : List Event) :
    boardctl_returned argv h =
      ⟨some ERROR, [Event.nsh_error Fmt.g_fmtcmdfailed (argv[0]?.toList ++ ["boardctl"])]⟩ := by
  simp [boardctl_returned, bind_run, argv_at_run]

/-- The run of `boot /img` in the sample world: with `argc == 2` the label
`default` of `cmd_boot` converts `argv[2]`, which is NULL, so the run is
undefined before `boardctl` is reached and `ERROR` is not returned. -/
theorem cmd_boot_missing_header_size :
    (cmd_boot sample_config sample_env ["boot", "/img"] []).ret ≠ some ERROR ∧
    (cmd_boot sample_config sample_env ["boot", "/img"] []).ret = none ∧
    (cmd_boot sample_config sample_env ["boot", "/img"] []).calls = [] := by
  decide

/-- The rendering loop does not depend on the bound of its loop variable once
seven iterations are allowed. -/
theorem cmd_uname_loop_fuel (cfg : Config) (argv : List String) (info : utsname) (n : Nat) :
    ∀ (m i set : Nat) (first : Bool) (stream : lib_memoutstream_s) (h : List Event),
      7 ≤ i + n → 7 ≤ i + m →
      (∀ j, set.testBit j = true → i ≤ j ∧ j < 7) →
      cmd_uname_loop cfg argv info n i set first stream h =
        cmd_uname_loop cfg argv info m i set first stream h := by
  induction n with
  | zero =>
    intro m i set first stream h hn hm hbits
    have hset : set = 0 := by
      by_contra hne
      obtain ⟨j, hj⟩ := Nat.ne_zero_implies_bit_true hne
      have := hbits j hj
      omega
    cases m <;> simp [cmd_uname_loop, hset]
  | succ n ih =>
    intro m i set first stream h hn hm hbits
    cases m with
    | zero =>
      have hset : set = 0 := by
        by_contra hne
        obtain ⟨j, hj⟩ := Nat.ne_zero_implies_bit_true hne
        have := hbits j hj
        omega
      simp [cmd_uname_loop, hset]
    | succ m =>
      rw [cmd_uname_loop, cmd_uname_loop]
      by_cases hset : set = 0
      · simp [hset]
      · by_cases hbit : set.testBit i = true
        · obtain ⟨-, hi7⟩ := hbits i hbit
          have hlt : set < 2 ^ INT_BITS := by
            have h7 : set < 2 ^ 7 := by
              apply Nat.lt_pow_two_of_testBit
              intro j hj
              by_contra hne
              have := hbits j (by simpa using hne)
              omega
            exact lt_of_lt_of_le h7 (by decide)
          have hi32 : i < INT_BITS := by simp only [INT_BITS]; omega
          have hbits1 : ∀ j, (set &&& (UINT_MAX - 1 <<< i)).testBit j = true →
              i + 1 ≤ j ∧ j < 7 := by
            intro j hj
            rw [clear_mask_testBit set i j hi32 hlt] at hj
            simp only [Bool.and_eq_true, decide_eq_true_eq] at hj
            have hb := hbits j hj.1
            exact ⟨by omega, hb.2⟩
          have key : cmd_uname_loop cfg argv info n (i + 1) (set &&& (UINT_MAX - 1 <<< i)) false =
              cmd_uname_loop cfg argv info m (i + 1) (set &&& (UINT_MAX - 1 <<< i)) false := by
            funext S H
            exact ih m (i + 1) _ false S H (by omega) (by omega) hbits1
          simp only [hset, if_false, (and_mask_ne_zero set i).mpr hbit, ne_eq,
            not_false_eq_true, if_true, key]
        · have hzero : ¬ (set &&& (1 <<< i) ≠ 0) :=
            fun hne => hbit ((and_mask_ne_zero set i).mp hne)
          have hbits1 : ∀ j, set.testBit j = true → i + 1 ≤ j ∧ j < 7 := by
            intro j hj
            have hb := hbits j hj
            have hne : j ≠ i := by
              intro heq; subst heq; exact hbit hj
            exact ⟨by omega, hb.2⟩
          simp only [hset, if_false, hzero]
          exact ih m (i + 1) set first stream h (by omega) (by omega) hbits1

/-- Claim C18. For every sequence of recognized flags (the empty one included)
the selector set `cmd_uname` composes is non-empty and has only bits 0 to 6,
bit 1 only with `CONFIG_NET`; on it the rendering loop leaves through its
condition within seven iterations, not through the `default` label, whatever
`uname` filled in, and allowing more iterations changes nothing; so when
`uname` succeeds `cmd_uname` returns `OK`. -/
theorem cmd_uname_render_terminates (cfg : Config) (env : Env) (argv0 : String)
    (flags : List Char) (h : List Event) (hrec : ∀ c ∈ flags, c ∈ uname_flags cfg) :
    cmd_uname_set cfg (argv0 :: flags.map flag_arg) ≠ 0 ∧
    (∀ j, (cmd_uname_set cfg (argv0 :: flags.map flag_arg)).testBit j = true →
      j < 7 ∧ (j = 1 → cfg.CONFIG_NET = true)) ∧
    (∀ (info : utsname) (stream : lib_memoutstream_s) (h1 : List Event),
      (∃ s, (cmd_uname_loop cfg (argv0 :: flags.map flag_arg) info 7 0
        (cmd_uname_set cfg (argv0 :: flags.map flag_arg)) true stream h1).ret = some (some s)) ∧
      cmd_uname_loop cfg (argv0 :: flags.map flag_arg) info (INT_BITS - 1) 0
          (cmd_uname_set cfg (argv0 :: flags.map flag_arg)) true stream h1 =
        cmd_uname_loop cfg (argv0 :: flags.map flag_arg) info 7 0
          (cmd_uname_set cfg (argv0 :: flags.map flag_arg)) true stream h1) ∧
    (0 ≤ (env.uname h).1 →
      (cmd_uname cfg env (argv0 :: flags.map flag_arg) h).ret = some OK) := by
  have hset := cmd_uname_set_ok cfg (argv0 :: flags.map flag_arg)
  have hok := (uname_set_ok_iff cfg _).mp hset.2
  refine ⟨hset.1, hok, ?_, ?_⟩
  · intro info stream h1
    refine ⟨(cmd_uname_loop_run cfg _ info 7 0 _ true stream h1 (by omega)
      (fun j hj => ⟨by omega, (hok j hj).1, (hok j hj).2⟩)).1, ?_⟩
    exact cmd_uname_loop_fuel cfg _ info (INT_BITS - 1) 7 0 _ true stream h1
      (by simp [INT_BITS]) (by omega) (fun j hj => ⟨by omega, (hok j hj).1⟩)
  · intro huname
    have hget : ∀ o ∈ getopt_all uname_optstring (argv0 :: flags.map flag_arg).tail,
        o ∈ uname_flags cfg := by
      rw [List.tail_cons, getopt_all_recognized cfg flags hrec]
      exact hrec
    exact ((cmd_uname_run cfg env _ h hget).2 huname).1

theorem cmd_uname_render_terminates_witness :
    cmd_uname_set sample_config ["uname", "-p", "-n"] ≠ 0 ∧
    (∀ j, (cmd_uname_set sample_config ["uname", "-p", "-n"]).testBit j = true →
      j < 7 ∧ (j = 1 → sample_config.CONFIG_NET = true)) ∧
    (∀ (info : utsname) (stream : lib_memoutstream_s) (h1 : List Event),
      (∃ s, (cmd_uname_loop sample_config ["uname", "-p", "-n"] info 7 0
        (cmd_uname_set sample_config ["uname", "-p", "-n"]) true stream h1).ret =
          some (some s)) ∧
      cmd_uname_loop sample_config ["uname", "-p", "-n"] info (INT_BITS - 1) 0
          (cmd_uname_set sample_config ["uname", "-p", "-n"]) true stream h1 =
        cmd_uname_loop sample_config ["uname", "-p", "-n"] info 7 0
          (cmd_uname_set sample_config ["uname", "-p", "-n"]) true stream h1) ∧
    (0 ≤ (sample_env.uname []).1 →
      (cmd_uname sample_config sample_env ["uname", "-p", "-n"] []).ret = some OK) :=
  cmd_uname_render_terminates sample_config sample_env "uname" ['p', 'n'] [] (by decide)

/-! ## The text `cmd_uname` writes -/

theorem spaced_fields_append (xs ys : List String) :
    spaced_fields (xs ++ ys) = spaced_fields xs ++ spaced_fields ys := by
  induction xs with
  | nil => rfl
  | cons x xs ih => simp [spaced_fields, ih]

theorem intercalate_go_data (strs : List String) :
    ∀ acc : String, (String.intercalate.go acc " " strs).data = acc.data ++ spaced_fields strs := by
  induction strs with
  | nil => intro acc; simp [String.intercalate.go, spaced_fields]
  | cons str strs ih =>
    intro acc
    rw [String.intercalate.go, ih]
    simp [spaced_fields]

/-- The library join with a single space is `joined_fields`. -/
theorem intercalate_data (strs : List String) :
    (String.intercalate " " strs).data = joined_fields true strs := by
  cases strs with
  | nil => rfl
  | cons str strs => simp [String.intercalate, intercalate_go_data, joined_fields]

theorem uname_fields_from_end (cfg : Config) (info : utsname) (set i : Nat) (hi : 7 ≤ i) :
    uname_fields_from cfg info set i = [] := by
  have h7 : 7 - i = 0 := by omega
  simp [uname_fields_from, h7]

theorem uname_fields_from_step (cfg : Config) (info : utsname) (set i : Nat) (hi : i < 7) :
    uname_fields_from cfg info set i =
      (if set.testBit i then (cmd_uname_str cfg info i).toList else []) ++
        uname_fields_from cfg info set (i + 1) := by
  have hrange : List.range' i (7 - i) = i :: List.range' (i + 1) (7 - (i + 1)) := by
    have : 7 - i = (7 - (i + 1)) + 1 := by omega
    rw [this, List.range'_succ]
  unfold uname_fields_from
  rw [hrange]
  by_cases hbit : set.testBit i = true
  · cases hstr : cmd_uname_str cfg info i <;> simp [hbit, hstr]
  · simp [hbit]

theorem uname_fields_from_congr (cfg : Config) (info : utsname) (set set1 i : Nat)
    (hsame : ∀ j, i ≤ j → set1.testBit j = set.testBit j) :
    uname_fields_from cfg info set1 i = uname_fields_from cfg info set i := by
  unfold uname_fields_from
  congr 1
  apply List.filter_congr
  intro j hj
  simp only [List.mem_range'_1] at hj
  exact hsame j hj.1

/-- The rendering loop, when everything fits the buffer: it leaves the loop
with the selected strings appended to the buffer, a space before each but the
first, and calls nothing but the stream. -/
theorem cmd_uname_loop_text (cfg : Config) (argv : List String) (info : utsname) (n : Nat) :
    ∀ (i set : Nat) (first : Bool) (stream : lib_memoutstream_s) (h : List Event),
      7 ≤ i + n →
      (∀ j, set.testBit j = true → i ≤ j ∧ j < 7 ∧ (j = 1 → cfg.CONFIG_NET = true)) →
      stream.buffer.length + (joined_fields first (uname_fields_from cfg info set i)).length ≤
        stream.buflen →
      (cmd_uname_loop cfg argv info n i set first stream h).ret =
        some (some ⟨stream.buffer ++ joined_fields first (uname_fields_from cfg info set i),
          stream.buflen⟩) ∧
      ∀ e ∈ (cmd_uname_loop cfg argv info n i set first stream h).calls,
        is_stream_call e = true := by
  induction n with
  | zero =>
    intro i set first stream h hfuel hbits hfit
    have hset : set = 0 := by
      by_contra hne
      obtain ⟨j, hj⟩ := Nat.ne_zero_implies_bit_true hne
      have := hbits j hj
      omega
    rw [uname_fields_from_end cfg info set i (by omega)]
    cases first <;> simp [cmd_uname_loop, hset, joined_fields, spaced_fields]
  | succ n ih =>
    intro i set first stream h hfuel hbits hfit
    rw [cmd_uname_loop]
    by_cases hset : set = 0
    · subst hset
      have hnil : uname_fields_from cfg info 0 i = [] := by
        simp [uname_fields_from]
      rw [hnil]
      cases first <;> simp [joined_fields, spaced_fields]
    · by_cases hbit : set.testBit i = true
      · obtain ⟨-, hi7, hnet⟩ := hbits i hbit
        obtain ⟨str, hstr⟩ := cmd_uname_str_some cfg info i hi7 hnet
        have hlt : set < 2 ^ INT_BITS := by
          have h7 : set < 2 ^ 7 := by
            apply Nat.lt_pow_two_of_testBit
            intro j hj
            by_contra hne
            have := hbits j (by simpa using hne)
            omega
          exact lt_of_lt_of_le h7 (by decide)
        have hi32 : i < INT_BITS := by simp only [INT_BITS]; omega
        have hbits1 : ∀ j, (set &&& (UINT_MAX - 1 <<< i)).testBit j = true →
            i + 1 ≤ j ∧ j < 7 ∧ (j = 1 → cfg.CONFIG_NET = true) := by
          intro j hj
          rw [clear_mask_testBit set i j hi32 hlt] at hj
          simp only [Bool.and_eq_true, decide_eq_true_eq] at hj
          have hb := hbits j hj.1
          exact ⟨by omega, hb.2.1, hb.2.2⟩
        have hfields1 : uname_fields_from cfg info (set &&& (UINT_MAX - 1 <<< i)) (i + 1) =
            uname_fields_from cfg info set (i + 1) := by
          apply uname_fields_from_congr
          intro j hj
          rw [clear_mask_testBit set i j hi32 hlt]
          have : i ≠ j := by omega
          simp [this]
        have hfields : uname_fields_from cfg info set i =
            str :: uname_fields_from cfg info set (i + 1) := by
          rw [uname_fields_from_step cfg info set i hi7]
          simp [hbit, hstr]
        rw [hfields] at hfit ⊢
        simp only [hset, if_false, (and_mask_ne_zero set i).mpr hbit, ne_eq, not_false_eq_true,
          if_true, hstr]
        cases first
        · simp only [joined_fields, spaced_fields, Bool.false_eq_true, if_false,
            List.length_cons, List.length_append] at hfit
          have hroom1 : [' '].take (stream.buflen - stream.buffer.length) = [' '] := by
            apply List.take_of_length_le
            simp only [List.length_singleton]
            omega
          have hroom2 : str.data.take (stream.buflen - (stream.buffer ++ [' ']).length) =
              str.data := by
            apply List.take_of_length_le
            simp only [List.length_append, List.length_singleton]
            omega
          simp only [bind_run, lib_stream_putc, lib_stream_puts, call_run, Bool.false_eq_true,
            if_false, hroom1, hroom2]
          have key := ih (i + 1) (set &&& (UINT_MAX - 1 <<< i)) false
            ⟨stream.buffer ++ [' '] ++ str.data, stream.buflen⟩
            (h ++ [Event.lib_stream_putc ' '] ++ [Event.lib_stream_puts (1 <<< i) str])
            (by omega) hbits1
            (by
              rw [hfields1]
              simp only [joined_fields, Bool.false_eq_true, if_false, List.length_append,
                List.length_singleton]
              omega)
          rw [hfields1] at key
          refine ⟨?_, ?_⟩
          · rw [key.1]
            simp [joined_fields, spaced_fields]
          · intro e he
            simp only [List.mem_append, List.mem_singleton] at he
            rcases he with rfl | rfl | he
            · rfl
            · rfl
            · exact key.2 e he
        · simp only [joined_fields, if_true, List.length_append] at hfit
          have hroom2 : str.data.take (stream.buflen - stream.buffer.length) = str.data := by
            apply List.take_of_length_le
            omega
          simp only [bind_run, lib_stream_puts, call_run, pure_run, if_true, List.append_nil,
            List.nil_append, hroom2]
          have key := ih (i + 1) (set &&& (UINT_MAX - 1 <<< i)) false
            ⟨stream.buffer ++ str.data, stream.buflen⟩
            (h ++ [Event.lib_stream_puts (1 <<< i) str])
            (by omega) hbits1
            (by
              rw [hfields1]
              simp only [joined_fields, Bool.false_eq_true, if_false, List.length_append]
              omega)
          rw [hfields1] at key
          refine ⟨?_, ?_⟩
          · rw [key.1]
            simp [joined_fields]
          · intro e he
            simp only [List.mem_append, List.mem_singleton] at he
            rcases he with rfl | he
            · rfl
            · exact key.2 e he
      · have hzero : ¬ (set &&& (1 <<< i) ≠ 0) := fun hne => hbit ((and_mask_ne_zero set i).mp hne)
        have hbits1 : ∀ j, set.testBit j = true →
            i + 1 ≤ j ∧ j < 7 ∧ (j = 1 → cfg.CONFIG_NET = true) := by
          intro j hj
          have hb := hbits j hj
          have hne : j ≠ i := by
            intro heq; subst heq; exact hbit hj
          exact ⟨by omega, hb.2.1, hb.2.2⟩
        have hfields : uname_fields_from cfg info set i =
            uname_fields_from cfg info set (i + 1) := by
          by_cases hi7 : i < 7
          · rw [uname_fields_from_step cfg info set i hi7]
            simp [hbit]
          · rw [uname_fields_from_end cfg info set i (by omega),
              uname_fields_from_end cfg info set (i + 1) (by omega)]
        rw [hfields] at hfit ⊢
        simp only [hset, if_false, hzero]
        exact ih (i + 1) set first stream h (by omega) hbits1 hfit

theorem nsh_written_append (xs ys : List Event) :
    nsh_written (xs ++ ys) = nsh_written xs ++ nsh_written ys := by
  simp [nsh_written, List.filterMap_append]

theorem nsh_written_stream (calls : List Event)
    (hcalls : ∀ e ∈ calls, is_stream_call e = true) : nsh_written calls = [] := by
  simp only [nsh_written, List.filterMap_eq_nil_iff]
  intro e he
  have := hcalls e he
  cases e <;> simp_all [is_stream_call]

/-- A non-empty selector set with bits 0 to 6 selects at least one string. -/
theorem uname_fields_ne_nil (cfg : Config) (info : utsname) (set : Nat) (hset : set ≠ 0)
    (hok : ∀ j, set.testBit j = true → j < 7 ∧ (j = 1 → cfg.CONFIG_NET = true)) :
    uname_fields cfg info set ≠ [] := by
  obtain ⟨j, hj⟩ := Nat.ne_zero_implies_bit_true hset
  obtain ⟨str, hstr⟩ := cmd_uname_str_some cfg info j (hok j hj).1 (hok j hj).2
  intro hnil
  simp only [uname_fields, uname_fields_from, List.filterMap_eq_nil_iff, List.mem_filter,
    List.mem_range'_1] at hnil
  have := hnil j ⟨⟨by omega, by have := (hok j hj).1; omega⟩, hj⟩
  rw [hstr] at this
  exact Option.noConfusion this

/-- The joined text begins with the first string. -/
theorem joined_fields_head (str : String) (strs : List String) :
    str.data <+: joined_fields true (str :: strs) := by
  simp [joined_fields]

/-- The joined text ends with the last string. -/
theorem joined_fields_last (strs : List String) (str : String)
    (hlast : strs.getLast? = some str) : str.data <:+ joined_fields true strs := by
  obtain ⟨init, rfl⟩ : ∃ init, strs = init ++ [str] := List.getLast?_eq_some_iff.mp hlast
  cases init with
  | nil => simp [joined_fields, spaced_fields]
  | cons x xs =>
    simp only [joined_fields, if_true, List.cons_append, spaced_fields_append, spaced_fields,
      List.append_nil]
    refine ⟨x.data ++ spaced_fields xs ++ [' '], ?_⟩
    simp

/-- The run of `cmd_uname` on recognized options when `uname` succeeds and the
text fits the buffer: one `nsh_write`, of the selected strings joined by single
spaces and followed by a newline. -/
theorem cmd_uname_written (cfg : Config) (env : Env) (argv : List String) (h : List Event)
    (hrec : ∀ o ∈ getopt_all uname_optstring argv.tail, o ∈ uname_flags cfg)
    (huname : 0 ≤ (env.uname h).1)
    (hfits : (joined_fields true
      (uname_fields cfg (env.uname h).2 (cmd_uname_set cfg argv))).length + 1 ≤
        cfg.sizeof_utsname - 1) :
    (cmd_uname cfg env argv h).ret = some OK ∧
    nsh_written (cmd_uname cfg env argv h).calls =
      [String.mk (joined_fields true
        (uname_fields cfg (env.uname h).2 (cmd_uname_set cfg argv)) ++ [Char.ofNat 10])] := by
  have hany : (getopt_all uname_optstring argv.tail).any
      (fun o => decide (o ∉ uname_flags cfg)) = false := by
    simp only [List.any_eq_false, decide_eq_true_eq, not_not]
    exact hrec
  have hfil : (getopt_all uname_optstring argv.tail).filter
      (fun o => decide (o ∉ uname_flags cfg)) = [] := by
    simp only [List.filter_eq_nil_iff, decide_eq_true_eq, not_not]
    exact hrec
  have hopt := cmd_uname_options_run cfg argv (getopt_all uname_optstring argv.tail) 0 false h
  rw [hany, hfil] at hopt
  simp only [Bool.or_false, List.map_nil] at hopt
  have hset : (if cmd_uname_compose cfg (getopt_all uname_optstring argv.tail) 0 = 0
      then UNAME_KERNEL
      else cmd_uname_compose cfg (getopt_all uname_optstring argv.tail) 0) =
      cmd_uname_set cfg argv := rfl
  have hok := (uname_set_ok_iff cfg _).mp (cmd_uname_set_ok cfg argv).2
  have hloop := cmd_uname_loop_text cfg argv (env.uname h).2 (INT_BITS - 1) 0
    (cmd_uname_set cfg argv) true (lib_memoutstream cfg.sizeof_utsname) (h ++ [Event.uname])
    (by simp [INT_BITS])
    (fun j hj => ⟨by omega, (hok j hj).1, (hok j hj).2⟩)
    (by
      simp only [lib_memoutstream, List.length_nil, zero_add]
      exact le_trans (Nat.le_succ _) hfits)
  have hneg : ¬ (env.uname h).1 < 0 := by omega
  have hroom : [Char.ofNat 10].take (cfg.sizeof_utsname - 1 -
      (joined_fields true (uname_fields_from cfg (env.uname h).2 (cmd_uname_set cfg argv) 0)).length)
      = [Char.ofNat 10] := by
    apply List.take_of_length_le
    simp only [List.length_singleton]
    have := hfits
    simp only [uname_fields] at this
    omega
  unfold cmd_uname
  simp only [bind_run, hopt, hneg, call_run, hset, List.append_nil, List.nil_append,
    Bool.false_eq_true, if_false]
  have hl1 := hloop.1
  have hl2 := hloop.2
  simp only [lib_memoutstream] at hl1 hl2 ⊢
  simp only [hl1, lib_stream_putc, call_run, pure_run, List.append_nil,
    List.nil_append, List.length_nil, hroom]
  refine ⟨rfl, ?_⟩
  rw [nsh_written_append, nsh_written_append, nsh_written_stream _ hl2]
  simp [nsh_written, uname_fields]

/-- Claim C19, counterexample. On a machine whose node name is empty,
`uname -s -n` succeeds, its text fits the buffer, and the text written is
`NuttX`, a space and the newline: the separator before the empty last field
stands right before the newline. -/
theorem cmd_uname_empty_node_name :
    (cmd_uname sample_config sample_env_unnamed ["uname", "-s", "-n"] []).ret = some OK ∧
    nsh_written (cmd_uname sample_config sample_env_unnamed ["uname", "-s", "-n"] []).calls =
      ["NuttX \n"] ∧
    uname_fields sample_config (sample_env_unnamed.uname []).2
      (cmd_uname_set sample_config ["uname", "-s", "-n"]) = ["NuttX", ""] := by
  decide

/-- Claim C19, as amended. When every option is recognized, `uname` succeeds
and the text fits the buffer, `cmd_uname` returns `OK` and writes once: the
strings of the selected fields in canonical order, joined by exactly one space
between consecutive fields, followed by a single newline.  At least one field
is selected; the text begins with the string of the first one and ends with the
string of the last one followed by the newline. -/
theorem cmd_uname_text (cfg : Config) (env : Env) (argv : List String) (h : List Event)
    (hrec : ∀ o ∈ getopt_all uname_optstring argv.tail, o ∈ uname_flags cfg)
    (huname : 0 ≤ (env.uname h).1)
    (hfits : (String.intercalate " "
      (uname_fields cfg (env.uname h).2 (cmd_uname_set cfg argv))).length + 1 ≤
        cfg.sizeof_utsname - 1) :
    (cmd_uname cfg env argv h).ret = some OK ∧
    nsh_written (cmd_uname cfg env argv h).calls =
      [String.intercalate " " (uname_fields cfg (env.uname h).2 (cmd_uname_set cfg argv)) ++
        "\n"] ∧
    uname_fields cfg (env.uname h).2 (cmd_uname_set cfg argv) ≠ [] ∧
    (∀ str, (uname_fields cfg (env.uname h).2 (cmd_uname_set cfg argv)).head? = some str →
      str.data <+: (String.intercalate " "
        (uname_fields cfg (env.uname h).2 (cmd_uname_set cfg argv)) ++ "\n").data) ∧
    (∀ str, (uname_fields cfg (env.uname h).2 (cmd_uname_set cfg argv)).getLast? = some str →
      (str ++ "\n").data <:+ (String.intercalate " "
        (uname_fields cfg (env.uname h).2 (cmd_uname_set cfg argv)) ++ "\n").data) := by
  have hdata := intercalate_data (uname_fields cfg (env.uname h).2 (cmd_uname_set cfg argv))
  have hlen : (String.intercalate " "
      (uname_fields cfg (env.uname h).2 (cmd_uname_set cfg argv))).length =
      (joined_fields true
        (uname_fields cfg (env.uname h).2 (cmd_uname_set cfg argv))).length := by
    rw [← hdata]
    rfl
  rw [hlen] at hfits
  have hrun := cmd_uname_written cfg env argv h hrec huname hfits
  have htext : String.mk (joined_fields true
      (uname_fields cfg (env.uname h).2 (cmd_uname_set cfg argv)) ++ [Char.ofNat 10]) =
      String.intercalate " " (uname_fields cfg (env.uname h).2 (cmd_uname_set cfg argv)) ++
        "\n" := by
    apply String.ext
    rw [String.data_append, hdata]
  refine ⟨hrun.1, ?_, ?_, ?_, ?_⟩
  · rw [hrun.2, htext]
  · exact uname_fields_ne_nil cfg _ _ (cmd_uname_set_ok cfg argv).1
      ((uname_set_ok_iff cfg _).mp (cmd_uname_set_ok cfg argv).2)
  · intro str hstr
    rw [String.data_append, hdata]
    cases hf : uname_fields cfg (env.uname h).2 (cmd_uname_set cfg argv) with
    | nil => rw [hf] at hstr; simp at hstr
    | cons x xs =>
      rw [hf] at hstr
      simp only [List.head?_cons, Option.some.injEq] at hstr
      subst hstr
      exact (joined_fields_head x xs).trans (List.prefix_append _ _)
  · intro str hstr
    rw [String.data_append, String.data_append, hdata]
    obtain ⟨pre, hpre⟩ := joined_fields_last _ str hstr
    exact ⟨pre, by rw [← hpre, List.append_assoc]⟩

theorem cmd_uname_text_witness :
    (cmd_uname sample_config sample_env ["uname", "-n", "-s"] []).ret = some OK ∧
    nsh_written (cmd_uname sample_config sample_env ["uname", "-n", "-s"] []).calls =
      ["NuttX host\n"] :=
  ⟨(cmd_uname_text sample_config sample_env ["uname", "-n", "-s"] []
      (by decide) (by decide) (by decide)).1,
   (cmd_uname_text sample_config sample_env ["uname", "-n", "-s"] []
      (by decide) (by decide) (by decide)).2.1.trans (by decide)⟩

/-! ## The order of the flags -/

/-- Claim C20. With `CONFIG_NET`, the flags s, n, r, v, m, i, p compose the full
selector set without the unknown marker, and the same flags with p first
compose the full set plus the unknown marker: two orderings of the same flags
with different results, so the selector set composed by `cmd_uname` is not a
function of the set of flags. -/
theorem cmd_uname_set_order (cfg : Config) (argv0 : String) (hnet : cfg.CONFIG_NET = true) :
    cmd_uname_set cfg (argv0 :: ['s', 'n', 'r', 'v', 'm', 'i', 'p'].map flag_arg) =
      UNAME_ALL cfg ∧
    cmd_uname_set cfg (argv0 :: ['p', 's', 'n', 'r', 'v', 'm', 'i'].map flag_arg) =
      UNAME_ALL cfg ||| UNAME_UNKNOWN ∧
    UNAME_ALL cfg &&& UNAME_UNKNOWN = 0 ∧
    UNAME_ALL cfg ≠ UNAME_ALL cfg ||| UNAME_UNKNOWN ∧
    List.Perm ['s', 'n', 'r', 'v', 'm', 'i', 'p'] ['p', 's', 'n', 'r', 'v', 'm', 'i'] ∧
    ¬ ∃ f : Finset Char → Nat, ∀ flags : List Char,
      cmd_uname_set cfg (argv0 :: flags.map flag_arg) = f flags.toFinset := by
  have hall : UNAME_ALL cfg = 63 := by simp [UNAME_ALL, hnet]; decide
  have hrec1 : ∀ c ∈ ['s', 'n', 'r', 'v', 'm', 'i', 'p'], c ∈ uname_flags cfg := by
    simp [uname_flags, hnet]
  have hrec2 : ∀ c ∈ ['p', 's', 'n', 'r', 'v', 'm', 'i'], c ∈ uname_flags cfg := by
    simp [uname_flags, hnet]
  have h1 : cmd_uname_set cfg (argv0 :: ['s', 'n', 'r', 'v', 'm', 'i', 'p'].map flag_arg) =
      UNAME_ALL cfg := by
    rw [cmd_uname_set_flags cfg argv0 _ hrec1, hall]
    simp [cmd_uname_compose, cmd_uname_switch, hnet, hall]
    decide
  have h2 : cmd_uname_set cfg (argv0 :: ['p', 's', 'n', 'r', 'v', 'm', 'i'].map flag_arg) =
      UNAME_ALL cfg ||| UNAME_UNKNOWN := by
    rw [cmd_uname_set_flags cfg argv0 _ hrec2, hall]
    simp [cmd_uname_compose, cmd_uname_switch, hnet, hall]
    decide
  have hne : UNAME_ALL cfg ≠ UNAME_ALL cfg ||| UNAME_UNKNOWN := by rw [hall]; decide
  refine ⟨h1, h2, by rw [hall]; decide, hne, by decide, ?_⟩
  rintro ⟨f, hf⟩
  have e1 := hf ['s', 'n', 'r', 'v', 'm', 'i', 'p']
  have e2 := hf ['p', 's', 'n', 'r', 'v', 'm', 'i']
  have hsame : ['s', 'n', 'r', 'v', 'm', 'i', 'p'].toFinset =
      ['p', 's', 'n', 'r', 'v', 'm', 'i'].toFinset := by decide
  rw [h1] at e1
  rw [h2, ← hsame, ← e1] at e2
  exact hne e2.symm

theorem cmd_uname_set_order_witness :
    cmd_uname_set sample_config ["uname", "-s", "-n", "-r", "-v", "-m", "-i", "-p"] = 63 ∧
    cmd_uname_set sample_config ["uname", "-p", "-s", "-n", "-r", "-v", "-m", "-i"] = 127 :=
  ⟨(cmd_uname_set_order sample_config "uname" rfl).1.trans (by decide),
   (cmd_uname_set_order sample_config "uname" rfl).2.1.trans (by decide)⟩

/-! ## Arguments that are read -/

/-- Claim C21, the divergence. Through `cmd_rptun` with a path other than
`all`: `rptun reset <path>` without a value passes its argument-count check
(`argc == 3`), and `cmd_rptun_once` then converts `argv[3]`, which is the NULL
that ends the argument vector, so the run is undefined before any call; with a
value present the value converted is `argv[3]`, and `ioctl` receives it as an
`unsigned long`.  The `ping` branch does test
its parameters: with fewer than four of them the command returns `ERROR`, its
only call being the report of a missing argument, so nothing is opened. -/
theorem cmd_rptun_reset_missing_value (cfg : Config) (env : Env) (argv0 path : String)
    (h : List Event) (hnall : path ≠ "all") :
    (cmd_rptun cfg env [argv0, "reset", path] h).ret = none ∧
    (cmd_rptun cfg env [argv0, "reset", path] h).calls = [] ∧
    (∀ value : String,
      cmd_rptun cfg env [argv0, "reset", path, value] h =
        cmd_rptun_once_ioctl env path cfg.RPTUNIOC_RESET
          (IoctlArg.val (to_ulong cfg (atoi_value cfg value))) h) ∧
    (cfg.CONFIG_RPTUN_PING = true → ∀ params : List String, params.length < 4 →
      cmd_rptun cfg env (argv0 :: "ping" :: path :: params) h =
        ⟨some ERROR, [Event.nsh_error Fmt.g_fmtargrequired [argv0]]⟩) := by
  have hrun : cmd_rptun cfg env [argv0, "reset", path] h = ⟨none, []⟩ := by
    rw [cmd_rptun_single cfg env _ h path (by simp) (by simp) (by simp) hnall,
      cmd_rptun_once_verb cfg env path _ h "reset" (by simp)]
    simp only [String.reduceEq, if_false, if_true, cmd_rptun_once_reset]
    simp
  refine ⟨by rw [hrun], by rw [hrun], ?_, ?_⟩
  · intro value
    rw [cmd_rptun_single cfg env _ h path (by simp) (by simp) (by simp) hnall,
      cmd_rptun_once_verb cfg env path _ h "reset" (by simp)]
    simp only [String.reduceEq, if_false, if_true, cmd_rptun_once_reset]
    simp
  · intro hcfg params hlen
    rw [cmd_rptun_single cfg env _ h path (by simp) (by simp) (by simp) hnall,
      cmd_rptun_once_verb cfg env path _ h "ping" (by simp)]
    simp only [String.reduceEq, if_false, hcfg, true_and, if_true]
    rcases params with _ | ⟨a3, _ | ⟨a4, _ | ⟨a5, _ | ⟨a6, rest⟩⟩⟩⟩
    all_goals first
      | (simp at hlen; omega)
      | simp [cmd_rptun_once_ping, cmd_rptun_once_argrequired, bind_run, argv_at_run]

/-- Claim C21 at concrete runs: `rptun reset /dev/rptun/a`,
`rptun reset /dev/rptun/a -5`, whose value reaches `ioctl` as
18446744073709551611 with a `long` of 64 bits, and
`rptun ping /dev/rptun/a 1 2` with two parameters missing. -/
theorem cmd_rptun_reset_missing_value_witness :
    (cmd_rptun sample_config sample_env ["rptun", "reset", "/dev/rptun/a"] []).ret = none ∧
    (cmd_rptun sample_config sample_env ["rptun", "reset", "/dev/rptun/a"] []).calls = [] ∧
    (cmd_rptun sample_config sample_env ["rptun", "reset", "/dev/rptun/a", "-5"] []).calls =
      [Event.open_ "/dev/rptun/a" 0,
       Event.ioctl 3 sample_config.RPTUNIOC_RESET (IoctlArg.val 18446744073709551611),
       Event.close 3] ∧
    cmd_rptun sample_config sample_env ["rptun", "ping", "/dev/rptun/a", "1", "2"] [] =
      ⟨some ERROR, [Event.nsh_error Fmt.g_fmtargrequired ["rptun"]]⟩ :=
  ⟨(cmd_rptun_reset_missing_value sample_config sample_env "rptun" "/dev/rptun/a" []
      (by decide)).1,
   (cmd_rptun_reset_missing_value sample_config sample_env "rptun" "/dev/rptun/a" []
      (by decide)).2.1,
   (congrArg Res.calls ((cmd_rptun_reset_missing_value sample_config sample_env "rptun"
      "/dev/rptun/a" [] (by decide)).2.2.1 "-5")).trans (by decide),
   (cmd_rptun_reset_missing_value sample_config sample_env "rptun" "/dev/rptun/a" []
      (by decide)).2.2.2 rfl ["1", "2"] (by decide)⟩

/-- Claim C22, the divergence. In `cmd_boot` the labels of `switch (argc)` are
`default`, `case 1` and `case 0`: `boot <path>` (`argc == 2`) enters `default`
and converts `argv[2]`, which is the NULL that ends the argument vector, so the
run is undefined and no boot info reaches `boardctl`.  With `argc == 3` the boot
info holds `argv[1]` and the converted `argv[2]`; with `argc == 1` the label
`case 1` reads `argv[1]`, the ending NULL, as the path. -/
theorem cmd_boot_one_argument (cfg : Config) (env : Env) (argv0 path : String)
    (h : List Event) :
    cmd_boot cfg env [argv0, path] h = ⟨none, []⟩ ∧
    (∀ size : String,
      cmd_boot cfg env [argv0, path, size] h =
        ⟨some ERROR,
         [Event.boardctl cfg.BOARDIOC_BOOT_IMAGE
            (BoardctlArg.boot_info ⟨some path, env.strtoul size⟩),
          Event.nsh_error Fmt.g_fmtcmdfailed [argv0, "boardctl"]]⟩) ∧
    cmd_boot cfg env [argv0] h =
      ⟨some ERROR,
       [Event.boardctl cfg.BOARDIOC_BOOT_IMAGE (BoardctlArg.boot_info ⟨none, 0⟩),
        Event.nsh_error Fmt.g_fmtcmdfailed [argv0, "boardctl"]]⟩ := by
  refine ⟨?_, ?_, ?_⟩
  · simp [cmd_boot, strtoul, bind_run, argv_at_run]
  · intro size
    simp [cmd_boot, cmd_boot_image, strtoul, bind_run, argv_at_run, boardctl_returned_run]
  · simp [cmd_boot, cmd_boot_image, bind_run, argv_at_run, boardctl_returned_run]

end Nsh
